import Mathlib

/-!
# Per-location request coalescer of the weather service

A shallow embedding of `internal/services/weather.go` (with the record types of
`pkg/types/weather.go`), of the handler `internal/handlers/weather.go` and of the method
`GetTemperature` of the two clients in `internal/clients`.

* Temperatures are `float64` in the source.  The embedding is parametric in the carrier
  `F` of temperatures and only uses its `+`, `/` and the literal `2`, exactly the operations
  of the source expression `(service1Temp + service2Temp) / 2`.
* A Go `error` is modelled by its message (a `String`); `fmt.Errorf("... %v", err)` is the
  concatenation of the format prefix and the message of `err`.
* Channels and timers are heap objects in the source; here they are natural-number
  identities handed out by counters (`nextChan`, `nextTimer`).  Response channels and error
  channels have different element types in the source and live in two separate spaces.
* Every critical section guarded by `group.Mutex` is one atomic transition.  The goroutines
  that run `processAggregationGroupWithBatch` and wait for the two upstream calls are the
  entries of `World.inflight`; the completion of the upstream calls is an event that carries
  the two upstream results.
-/

namespace GoWeather

/-! ## Record types (pkg/types/weather.go) -/

/-- WeatherResponse: the value delivered to a waiting request. -/
structure WeatherResponse (F : Type) where
  Location : String
  Temperature : F
deriving DecidableEq, Repr

/-- WeatherData: the combined result of one fan-out. -/
structure WeatherData (F : Type) where
  Location : String
  Service1Temp : F
  Service2Temp : F
  AverageTemp : F
  RequestCount : Int
deriving DecidableEq, Repr

/-- WeatherQuery: the row handed to the database (`ID` is assigned by the store). -/
structure WeatherQuery (F : Type) where
  ID : Int := 0
  Location : String
  Service1Temp : F
  Service2Temp : F
  RequestCount : Int
deriving DecidableEq, Repr

/-- AggregationRequest: one ticket; `Response` and `Error` are the identities of its two
channels (each of capacity one). -/
structure AggregationRequest where
  Location : String
  Response : Nat
  Error : Nat
deriving DecidableEq, Repr

/-! ## Service state (internal/services/weather.go) -/

/-- AggregationGroup: the per-location slot.  `Timer = none` is the nil pointer, `some t` is
the timer object `t` created by `time.AfterFunc`.  The mutex is not a field: every locked
section is one atomic transition. -/
structure AggregationGroup where
  Location : String
  Requests : List AggregationRequest
  Timer : Option Nat
  MaxRequests : Int
  WaitTime : Nat
  IsProcessing : Bool
deriving DecidableEq, Repr

/-- WeatherService: the aggregation map and the two configured values copied into every new
group. -/
structure WeatherService where
  aggregationMap : String → Option AggregationGroup
  maxRequests : Int
  waitTime : Nat

/-- One running call of `processAggregationGroupWithBatch`: the map key of its group and the
frozen batch it was given. -/
abbrev Batch := String × List AggregationRequest

/-- The service together with its environment: the allocators of channels and timers, the
running batch goroutines, and the observable effects (values written to channels, rows
submitted to the database).  `created` and `frozen` record every ticket made by `GetWeather`
and every batch returned by `triggerLocked` with `ok = true`. -/
structure World (F : Type) where
  svc : WeatherService
  nextChan : Nat
  nextTimer : Nat
  inflight : List Batch
  created : List AggregationRequest
  frozen : List Batch
  respLog : List (Nat × WeatherResponse F)
  errLog : List (Nat × String)
  saved : List (WeatherQuery F)

/-- NewWeatherService: an empty aggregation map with the configured cap and wait. -/
def NewWeatherService (maxRequests : Int) (waitTime : Nat) : WeatherService :=
  { aggregationMap := fun _ => none, maxRequests := maxRequests, waitTime := waitTime }

/-- The world right after `NewWeatherService`: nothing allocated, nothing running. -/
def World.init (F : Type) (maxRequests : Int) (waitTime : Nat) : World F :=
  { svc := NewWeatherService maxRequests waitTime, nextChan := 0, nextTimer := 0,
    inflight := [], created := [], frozen := [], respLog := [], errLog := [], saved := [] }

/-- getOrCreateAggregationGroup: look the location up and insert a fresh idle group when it
is absent. -/
def getOrCreateAggregationGroup (s : WeatherService) (location : String) :
    WeatherService × AggregationGroup :=
  match s.aggregationMap location with
  | some group => (s, group)
  | none =>
    let group : AggregationGroup :=
      { Location := location, Requests := [], Timer := none,
        MaxRequests := s.maxRequests, WaitTime := s.waitTime, IsProcessing := false }
    ({ s with aggregationMap := Function.update s.aggregationMap location (some group) }, group)

/-- Write a group back to its map entry (the source mutates the group through a pointer). -/
def World.setGroup {F : Type} (w : World F) (location : String) (group : AggregationGroup) :
    World F :=
  { w with svc := { w.svc with
      aggregationMap := Function.update w.svc.aggregationMap location (some group) } }

/-- triggerLocked: stop and clear the timer, then either report not-ok (a batch is already
being processed) or freeze the accumulated requests: the result is the updated group, the
batch and the ok flag. -/
def triggerLocked (group : AggregationGroup) :
    AggregationGroup × List AggregationRequest × Bool :=
  let group := if group.Timer ≠ none then { group with Timer := none } else group
  if group.IsProcessing then
    (group, [], false)
  else
    ({ group with IsProcessing := true, Requests := [] }, group.Requests, true)

/-- Start of a `processAggregationGroupWithBatch` goroutine for a frozen batch. -/
def World.dispatch {F : Type} (w : World F) (location : String)
    (batch : List AggregationRequest) : World F :=
  { w with inflight := w.inflight ++ [(location, batch)],
           frozen := w.frozen ++ [(location, batch)] }

/-- `time.AfterFunc(group.WaitTime, ...)` stored in `group.Timer`: a new timer object. -/
def World.armTimer {F : Type} (w : World F) (location : String) (group : AggregationGroup) :
    World F :=
  { w.setGroup location { group with Timer := some w.nextTimer } with
    nextTimer := w.nextTimer + 1 }

/-- GetWeather, up to the call of `waitForResponse`: make the ticket, append it to the group
and, depending on the state of the group, arm a timer or freeze and dispatch a batch. -/
def GetWeather {F : Type} (w : World F) (location : String) : World F :=
  let (svc, group) := getOrCreateAggregationGroup w.svc location
  let request : AggregationRequest :=
    { Location := location, Response := w.nextChan, Error := w.nextChan }
  let w := { w with svc := svc, nextChan := w.nextChan + 1, created := w.created ++ [request] }
  if group.IsProcessing then
    let startTimer := group.Timer = none
    let group := { group with Requests := group.Requests ++ [request] }
    if startTimer then w.armTimer location group else w.setGroup location group
  else
    let group := { group with Requests := group.Requests ++ [request] }
    let requestCount : Int := group.Requests.length
    let isFirstRequest := requestCount = 1
    if requestCount ≥ group.MaxRequests then
      let group := if group.Timer ≠ none then { group with Timer := none } else group
      let (group, batch, ok) := triggerLocked group
      let w := w.setGroup location group
      if ok then w.dispatch location batch else w
    else if isFirstRequest then
      w.armTimer location group
    else
      w.setGroup location group

/-- The function given to `time.AfterFunc`: under the mutex call `triggerLocked`, and when it
reports ok run `processAggregationGroupWithBatch` on the batch. -/
def timerCallback {F : Type} (w : World F) (location : String) : World F :=
  match w.svc.aggregationMap location with
  | none => w
  | some group =>
    let (group, batch, ok) := triggerLocked group
    let w := w.setGroup location group
    if !ok then w else w.dispatch location batch

/-- fetchWeatherData, given the results of the two `GetTemperature` calls: the returned value
and the rows submitted to the database (appended to `db`). -/
def fetchWeatherData {F : Type} [Add F] [Div F] [OfNat F 2] (db : List (WeatherQuery F))
    (location : String) (requestCount : Int) (r1 r2 : Except String F) :
    Except String (WeatherData F) × List (WeatherQuery F) :=
  match r1 with
  | .error service1Err => (.error ("WeatherAPI.com hatası: " ++ service1Err), db)
  | .ok service1Temp =>
    match r2 with
    | .error service2Err => (.error ("WeatherStack.com hatası: " ++ service2Err), db)
    | .ok service2Temp =>
      let averageTemp := (service1Temp + service2Temp) / 2
      let weatherData : WeatherData F :=
        { Location := location, Service1Temp := service1Temp, Service2Temp := service2Temp,
          AverageTemp := averageTemp, RequestCount := requestCount }
      let query : WeatherQuery F :=
        { Location := location, Service1Temp := service1Temp, Service2Temp := service2Temp,
          RequestCount := requestCount }
      (.ok weatherData, db ++ [query])

/-- The locked tail of `processAggregationGroupWithBatch` (the same on both paths): reset
`IsProcessing` and, when requests are waiting and no timer is set, arm one. -/
def World.finish {F : Type} (w : World F) (location : String) (group : AggregationGroup) :
    World F :=
  let group := { group with IsProcessing := false }
  if group.Requests.length > 0 ∧ group.Timer = none then
    w.armTimer location group
  else
    w.setGroup location group

/-- processAggregationGroupWithBatch for the group stored under `location`, with the results
of the two upstream calls: fetch, write the outcome to every request of the batch, then run
the locked tail. -/
def processAggregationGroupWithBatch {F : Type} [Add F] [Div F] [OfNat F 2] (w : World F)
    (location : String) (batch : List AggregationRequest) (r1 r2 : Except String F) :
    World F :=
  match w.svc.aggregationMap location with
  | none => w
  | some group0 =>
    let requestCount : Int := batch.length
    let (result, db) := fetchWeatherData w.saved group0.Location requestCount r1 r2
    let w := { w with saved := db }
    match result with
    | .error err =>
      let errors := batch.map (fun (req : AggregationRequest) => (req.Error, err))
      let w := { w with errLog := w.errLog ++ errors }
      w.finish location group0
    | .ok weatherData =>
      let response : WeatherResponse F :=
        { Location := weatherData.Location, Temperature := weatherData.AverageTemp }
      let responses := batch.map (fun (req : AggregationRequest) => (req.Response, response))
      let w := { w with respLog := w.respLog ++ responses }
      w.finish location group0

/-- waitForResponse: the select over the two channels of a ticket, given what each holds.
With a value in only one of them the select takes it; it blocks (`none`) while both are
empty. -/
def waitForResponse {F : Type} (responseChan : Option (WeatherResponse F))
    (errorChan : Option String) : Option (Except String (WeatherResponse F)) :=
  match responseChan, errorChan with
  | some response, _ => some (.ok response)
  | none, some err => some (.error err)
  | none, none => none

/-! ## Events -/

/-- The `i`-th running batch goroutine leaves the set of running ones. -/
def World.retire {F : Type} (w : World F) (i : Nat) : World F :=
  { w with inflight := w.inflight.eraseIdx i }

/-- The events of the environment: a call of `GetWeather`, the run of a timer callback of the
group of a location (the armed timer, or one that had expired before it was stopped), and
the return of the two upstream calls of the `i`-th running batch. -/
inductive Event (F : Type) where
  | arrive (location : String)
  | timer (location : String)
  | complete (i : Nat) (r1 r2 : Except String F)

/-- One transition.  An event that is not enabled (no such running batch) changes nothing. -/
def step {F : Type} [Add F] [Div F] [OfNat F 2] (w : World F) : Event F → World F
  | .arrive location => GetWeather w location
  | .timer location => timerCallback w location
  | .complete i r1 r2 =>
    match w.inflight[i]? with
    | none => w
    | some (location, batch) => processAggregationGroupWithBatch (w.retire i) location batch r1 r2

/-- Run a sequence of events. -/
def run {F : Type} [Add F] [Div F] [OfNat F 2] (w : World F) (es : List (Event F)) : World F :=
  es.foldl step w

/-- The group of a location, if the map has one. -/
def World.group {F : Type} (w : World F) (location : String) : Option AggregationGroup :=
  w.svc.aggregationMap location

/-- The running batches of a location. -/
def World.inflightAt {F : Type} (w : World F) (location : String) : List Batch :=
  w.inflight.filter (fun b => b.1 = location)

/-! ## Auxiliary definitions used by the statements and proofs -/

/-- The ticket that `GetWeather` makes in world `w`. -/
def newRequest {F : Type} (w : World F) (l : String) : AggregationRequest :=
  { Location := l, Response := w.nextChan, Error := w.nextChan }

/-- The group `GetWeather` works on: the stored one, or the fresh idle group. -/
def groupOrNew {F : Type} (w : World F) (l : String) : AggregationGroup :=
  (getOrCreateAggregationGroup w.svc l).2

/-- The world after the ticket was made, before the group is touched. -/
def World.ticketed {F : Type} (w : World F) (l : String) : World F :=
  { w with nextChan := w.nextChan + 1, created := w.created ++ [newRequest w l] }

/-- The world after the fetch and the channel writes of a completing batch, before the
locked tail. -/
def World.deliver {F : Type} [Add F] [Div F] [OfNat F 2] (w : World F) (location : String)
    (batch : List AggregationRequest) (r1 r2 : Except String F) : World F :=
  match fetchWeatherData w.saved location batch.length r1 r2 with
  | (.error err, db) =>
    { w with saved := db,
             errLog := w.errLog ++ batch.map (fun (req : AggregationRequest) => (req.Error, err)) }
  | (.ok weatherData, db) =>
    { w with saved := db,
             respLog := w.respLog ++ batch.map (fun (req : AggregationRequest) =>
               (req.Response, WeatherResponse.mk weatherData.Location weatherData.AverageTemp)) }

/-- Number of running batches of a location. -/
def World.inflightCount {F : Type} (w : World F) (l : String) : Nat := (w.inflightAt l).length

/-- One batch in flight exactly for the groups that are processing. -/
def InFlightInv {F : Type} (w : World F) : Prop :=
  ∀ l, w.inflightCount l
    = match w.group l with
      | some g => if g.IsProcessing then 1 else 0
      | none => 0

/-- Every arrival of the sequence finds fewer than `MaxRequests` tickets waiting in its group
(for an arrival while a batch is in flight: fewer than `MaxRequests` tickets pending). -/
def roomyArrivals {F : Type} [Add F] [Div F] [OfNat F 2] (w : World F) : List (Event F) → Bool
  | [] => true
  | .arrive l :: es =>
    decide (((groupOrNew w l).Requests.length : Int) < (groupOrNew w l).MaxRequests)
      && roomyArrivals (GetWeather w l) es
  | e :: es => roomyArrivals (step w e) es

/-- Every group has the configured cap and at most that many waiting requests, and every
frozen batch has at most the cap. -/
def CapInv {F : Type} (m : Int) (w : World F) : Prop :=
  w.svc.maxRequests = m ∧
  (∀ l g, w.group l = some g → g.MaxRequests = m ∧ (g.Requests.length : Int) ≤ m) ∧
  (∀ b ∈ w.frozen, (b.2.length : Int) ≤ m)

/-- The tickets waiting in the group of a location (none when the map has no such group). -/
def World.requestsAt {F : Type} (w : World F) (l : String) : List AggregationRequest :=
  match w.group l with
  | some g => g.Requests
  | none => []

/-- Number of occurrences of a ticket in a list of batches. -/
def countIn (bs : List Batch) (t : AggregationRequest) : Nat :=
  (bs.map (fun b => b.2.count t)).sum

/-- Occurrences of a ticket among the waiting requests of its location. -/
def World.pendingCount {F : Type} (w : World F) (t : AggregationRequest) : Nat :=
  (w.requestsAt t.Location).count t

/-- Occurrences of a ticket in the batches in flight. -/
def World.runningCount {F : Type} (w : World F) (t : AggregationRequest) : Nat :=
  countIn w.inflight t

/-- Occurrences of a ticket in all batches ever frozen. -/
def World.frozenCount {F : Type} (w : World F) (t : AggregationRequest) : Nat :=
  countIn w.frozen t

/-- Number of values written to channel `c` according to a log of channel writes. -/
def writes {α : Type} (log : List (Nat × α)) (c : Nat) : Nat :=
  (log.filter (fun p => p.1 = c)).length

/-- The bookkeeping of tickets: channels are fresh and identify their ticket, every ticket
held anywhere was created, and every created ticket is in exactly one place: waiting in
the group of its location, in one batch in flight, or delivered by exactly one write. -/
structure TicketInv {F : Type} (w : World F) : Prop where
  fresh : ∀ t ∈ w.created, t.Response < w.nextChan ∧ t.Error = t.Response
  inj : ∀ t ∈ w.created, ∀ t2 ∈ w.created, t.Response = t2.Response → t = t2
  pend : ∀ l, ∀ t ∈ w.requestsAt l, t ∈ w.created ∧ t.Location = l
  runn : ∀ b ∈ w.inflight, ∀ t ∈ b.2, t ∈ w.created
  frzn : ∀ b ∈ w.frozen, ∀ t ∈ b.2, t ∈ w.created
  rlog : ∀ p ∈ w.respLog, p.1 < w.nextChan
  elog : ∀ p ∈ w.errLog, p.1 < w.nextChan
  once : ∀ t ∈ w.created,
    w.pendingCount t + w.runningCount t + writes w.respLog t.Response
      + writes w.errLog t.Error = 1
  froz : ∀ t ∈ w.created,
    w.frozenCount t = w.runningCount t + writes w.respLog t.Response + writes w.errLog t.Error

/-- Locations agree everywhere: a group carries the key it is stored under, and the tickets
waiting in a group or frozen in a running batch carry the location of that group. -/
def LocInv {F : Type} (w : World F) : Prop :=
  (∀ l g, w.group l = some g → g.Location = l) ∧
  (∀ l, ∀ t ∈ w.requestsAt l, t.Location = l) ∧
  (∀ b ∈ w.inflight, ∀ t ∈ b.2, t.Location = b.1)

/-! ## HTTP handler (internal/handlers/weather.go) and upstream clients -/

/-- ErrorResponse of the handler package: the JSON body of an error answer. -/
structure handlers.ErrorResponse where
  Error : String
  Code : Int
  Message : String
deriving DecidableEq, Repr

/-- WeatherResponse of the handler package: the JSON body of a 200 answer. -/
structure handlers.WeatherResponse (F : Type) where
  Location : String
  Temperature : F
deriving DecidableEq, Repr

/-- The value encoded into the response body. -/
inductive handlers.Body (F : Type) where
  | error (errorResp : handlers.ErrorResponse)
  | weather (response : handlers.WeatherResponse F)
deriving DecidableEq, Repr

/-- What a handler call wrote to its `http.ResponseWriter`: the `Content-Type` header, the
status code and the encoded body. -/
structure handlers.Reply (F : Type) where
  contentType : String
  statusCode : Int
  body : handlers.Body F
deriving DecidableEq, Repr

/-- The constant `http.StatusOK`. -/
def http.StatusOK : Int := 200

/-- The constant `http.StatusBadRequest`. -/
def http.StatusBadRequest : Int := 400

/-- The constant `http.StatusInternalServerError`. -/
def http.StatusInternalServerError : Int := 500

/-- The method `Get` of `url.Values`: the first value of the key, or the empty string when the
key has no value. -/
def url.Values.Get (v : List (String × List String)) (key : String) : String :=
  match v.lookup key with
  | some (value :: _) => value
  | _ => ""

/-- WeatherHandler.sendError: the error body with the given code and message, sent with the
same status code. -/
def WeatherHandler.sendError {F : Type} (statusCode : Int) (errorCode message : String) :
    handlers.Reply F :=
  let errorResp : handlers.ErrorResponse :=
    { Error := errorCode, Code := statusCode, Message := message }
  { contentType := "application/json", statusCode := statusCode, body := .error errorResp }

/-- WeatherHandler.GetWeather: `weatherService` is the method `GetWeather` of the weather
service as seen by the caller (it returns when the ticket has been delivered), `query` the
parsed query string.  The result is the reply and the list of calls made to the service. -/
def WeatherHandler.GetWeather {F : Type}
    (weatherService : String → Except String (WeatherResponse F))
    (query : List (String × List String)) : handlers.Reply F × List String :=
  let location := url.Values.Get query "q"
  if location = "" then
    (WeatherHandler.sendError http.StatusBadRequest "MISSING_LOCATION"
      "Location parameter 'q' is required", [])
  else
    match weatherService location with
    | .error _ =>
      (WeatherHandler.sendError http.StatusInternalServerError "WEATHER_SERVICE_ERROR"
        "Failed to fetch weather data", [location])
    | .ok weatherResp =>
      let response : handlers.WeatherResponse F :=
        { Location := weatherResp.Location, Temperature := weatherResp.Temperature }
      ({ contentType := "application/json", statusCode := http.StatusOK,
         body := .weather response }, [location])

/-- The `Current` part of WeatherAPIResponse. -/
structure WeatherAPICurrent (F : Type) where
  TempC : F
deriving DecidableEq, Repr

/-- WeatherAPIResponse: what is decoded from the answer of the first provider. -/
structure WeatherAPIResponse (F : Type) where
  Current : WeatherAPICurrent F
deriving DecidableEq, Repr

/-- The `Current` part of WeatherStackResponse. -/
structure WeatherStackCurrent (F : Type) where
  Temperature : F
deriving DecidableEq, Repr

/-- WeatherStackResponse: what is decoded from the answer of the second provider. -/
structure WeatherStackResponse (F : Type) where
  Current : WeatherStackCurrent F
deriving DecidableEq, Repr

/-- WeatherAPIClient.GetTemperature, given the result of the client's `GetWeather`. -/
def WeatherAPIClient.GetTemperature {F : Type} (weather : Except String (WeatherAPIResponse F)) :
    Except String F :=
  match weather with
  | .error err => .error err
  | .ok weather => .ok weather.Current.TempC

/-- WeatherStackClient.GetTemperature, given the result of the client's `GetWeather`. -/
def WeatherStackClient.GetTemperature {F : Type}
    (weather : Except String (WeatherStackResponse F)) : Except String F :=
  match weather with
  | .error err => .error err
  | .ok weather => .ok weather.Current.Temperature

/-- Every timer callback of the sequence runs for a group whose `Timer` field is set at that
moment (it is the callback of the currently armed timer). -/
def armedTimers {F : Type} [Add F] [Div F] [OfNat F 2] (w : World F) : List (Event F) → Bool
  | [] => true
  | .timer l :: es =>
    (match w.group l with
     | some g => g.Timer.isSome
     | none => false) && armedTimers (timerCallback w l) es
  | e :: es => armedTimers (step w e) es

/-- No ticket is stranded: an idle group with waiting requests has its timer set, a timer is
set only while requests wait, and no frozen batch is empty. -/
def NoStrandInv {F : Type} (w : World F) : Prop :=
  (∀ l g, w.group l = some g →
    (g.Requests ≠ [] → g.IsProcessing = false → g.Timer ≠ none) ∧
    (g.Timer ≠ none → g.Requests ≠ [])) ∧
  (∀ b ∈ w.frozen, b.2 ≠ [])

/-- The `n` tickets made by `n` consecutive calls of `GetWeather` for location `l` when the
next free channel is `c`. -/
def ticketsFrom (l : String) (c : Nat) : Nat → List AggregationRequest
  | 0 => []
  | n + 1 => { Location := l, Response := c, Error := c } :: ticketsFrom l (c + 1) n

/-- What a scenario observes of a world at one location: the group, the running and the
frozen batches, the two allocators and the saved rows. -/
structure Obs (F : Type) where
  group : Option AggregationGroup
  inflight : List Batch
  frozen : List Batch
  nextChan : Nat
  nextTimer : Nat
  saved : List (WeatherQuery F)

/-- The observation of a world at a location. -/
def World.obs {F : Type} (w : World F) (l : String) : Obs F :=
  { group := w.group l, inflight := w.inflight, frozen := w.frozen, nextChan := w.nextChan,
    nextTimer := w.nextTimer, saved := w.saved }

/-- A group that is not processing and has waiting requests has its timer set. -/
def ArmedInv {F : Type} (w : World F) : Prop :=
  ∀ l g, w.group l = some g → g.Requests ≠ [] → g.IsProcessing = false → g.Timer ≠ none

/-- The ticket has been through its whole life: it was frozen once, it neither waits nor is
in flight, and exactly one value was written to its two channels together. -/
def World.Delivered {F : Type} (w : World F) (t : AggregationRequest) : Prop :=
  w.frozenCount t = 1 ∧ w.pendingCount t = 0 ∧ w.runningCount t = 0 ∧
  writes w.respLog t.Response + writes w.errLog t.Error = 1

/-- Both upstream calls succeeded. -/
def bothOk {F : Type} (r1 r2 : Except String F) : Bool :=
  match r1, r2 with
  | .ok _, .ok _ => true
  | _, _ => false

/-! ## Basic facts -/

section Basic
variable {F : Type}

@[simp] theorem group_setGroup (w : World F) (l l2 : String) (g : AggregationGroup) :
    (w.setGroup l g).group l2 = if l2 = l then some g else w.group l2 := by
  simp [World.setGroup, World.group, Function.update_apply]

@[simp] theorem group_armTimer (w : World F) (l l2 : String) (g : AggregationGroup) :
    (w.armTimer l g).group l2
      = if l2 = l then some { g with Timer := some w.nextTimer } else w.group l2 := by
  simp [World.armTimer, World.setGroup, World.group, Function.update_apply]

@[simp] theorem group_dispatch (w : World F) (l l2 : String) (b : List AggregationRequest) :
    (w.dispatch l b).group l2 = w.group l2 := rfl

@[simp] theorem inflight_setGroup (w : World F) (l : String) (g : AggregationGroup) :
    (w.setGroup l g).inflight = w.inflight := rfl

@[simp] theorem inflight_armTimer (w : World F) (l : String) (g : AggregationGroup) :
    (w.armTimer l g).inflight = w.inflight := rfl

@[simp] theorem inflight_dispatch (w : World F) (l : String) (b : List AggregationRequest) :
    (w.dispatch l b).inflight = w.inflight ++ [(l, b)] := rfl

theorem triggerLocked_processing (g : AggregationGroup) (h : g.IsProcessing = true) :
    triggerLocked g = ({ g with Timer := none }, [], false) := by
  cases g with
  | mk L R T M W P =>
    cases T <;> simp_all [triggerLocked]

theorem triggerLocked_idle (g : AggregationGroup) (h : g.IsProcessing = false) :
    triggerLocked g
      = ({ g with Timer := none, IsProcessing := true, Requests := [] }, g.Requests, true) := by
  cases g with
  | mk L R T M W P =>
    cases T <;> simp_all [triggerLocked]

end Basic


section Normal
variable {F : Type}

theorem GetWeather_eq (w : World F) (l : String) :
    GetWeather w l =
      if (groupOrNew w l).IsProcessing then
        if (groupOrNew w l).Timer = none then
          (w.ticketed l).armTimer l
            { groupOrNew w l with Requests := (groupOrNew w l).Requests ++ [newRequest w l] }
        else
          (w.ticketed l).setGroup l
            { groupOrNew w l with Requests := (groupOrNew w l).Requests ++ [newRequest w l] }
      else if (((groupOrNew w l).Requests ++ [newRequest w l]).length : Int)
          ≥ (groupOrNew w l).MaxRequests then
        ((w.ticketed l).setGroup l
            { groupOrNew w l with Timer := none, IsProcessing := true, Requests := [] }).dispatch l
          ((groupOrNew w l).Requests ++ [newRequest w l])
      else if (((groupOrNew w l).Requests ++ [newRequest w l]).length : Int) = 1 then
        (w.ticketed l).armTimer l
          { groupOrNew w l with Requests := (groupOrNew w l).Requests ++ [newRequest w l] }
      else
        (w.ticketed l).setGroup l
          { groupOrNew w l with Requests := (groupOrNew w l).Requests ++ [newRequest w l] } := by
  unfold GetWeather groupOrNew getOrCreateAggregationGroup World.ticketed newRequest
  cases hg : w.svc.aggregationMap l with
  | none =>
    simp [triggerLocked, World.setGroup, World.armTimer, World.dispatch]
  | some g =>
    obtain ⟨L, R, T, M, W, P⟩ := g
    cases P <;> cases T <;>
      simp [triggerLocked, World.setGroup, World.armTimer, World.dispatch]

theorem timerCallback_eq (w : World F) (l : String) :
    timerCallback w l =
      match w.group l with
      | none => w
      | some g =>
        if g.IsProcessing then w.setGroup l { g with Timer := none }
        else (w.setGroup l { g with Timer := none, IsProcessing := true, Requests := [] }).dispatch
          l g.Requests := by
  unfold timerCallback World.group
  cases hg : w.svc.aggregationMap l with
  | none => rfl
  | some g =>
    cases hp : g.IsProcessing
    · simp [triggerLocked_idle g hp, hp]
    · simp [triggerLocked_processing g hp, hp]

theorem finish_eq (w : World F) (l : String) (g : AggregationGroup) :
    w.finish l g =
      if g.Requests ≠ [] ∧ g.Timer = none then w.armTimer l { g with IsProcessing := false }
      else w.setGroup l { g with IsProcessing := false } := by
  unfold World.finish
  simp [List.length_pos]

end Normal

section Normal2
variable {F : Type}

@[simp] theorem group_ticketed (w : World F) (l l2 : String) :
    (w.ticketed l).group l2 = w.group l2 := rfl

@[simp] theorem inflight_ticketed (w : World F) (l : String) :
    (w.ticketed l).inflight = w.inflight := rfl

theorem groupOrNew_some (w : World F) (l : String) (g : AggregationGroup)
    (h : w.group l = some g) : groupOrNew w l = g := by
  unfold World.group at h
  simp [groupOrNew, getOrCreateAggregationGroup, h]

theorem groupOrNew_none (w : World F) (l : String) (h : w.group l = none) :
    groupOrNew w l = AggregationGroup.mk l [] none w.svc.maxRequests w.svc.waitTime false := by
  unfold World.group at h
  simp [groupOrNew, getOrCreateAggregationGroup, h]

@[simp] theorem inflightCount_setGroup (w : World F) (l l2 : String) (g : AggregationGroup) :
    (w.setGroup l g).inflightCount l2 = w.inflightCount l2 := rfl

@[simp] theorem inflightCount_armTimer (w : World F) (l l2 : String) (g : AggregationGroup) :
    (w.armTimer l g).inflightCount l2 = w.inflightCount l2 := rfl

@[simp] theorem inflightCount_ticketed (w : World F) (l l2 : String) :
    (w.ticketed l).inflightCount l2 = w.inflightCount l2 := rfl

@[simp] theorem inflightCount_dispatch (w : World F) (l l2 : String)
    (b : List AggregationRequest) :
    (w.dispatch l b).inflightCount l2 = w.inflightCount l2 + (if l = l2 then 1 else 0) := by
  by_cases h : l = l2 <;>
    simp [World.inflightCount, World.inflightAt, World.dispatch, List.filter_append, h]

end Normal2

theorem InFlightInv_GetWeather {F : Type} (w : World F) (l : String) (h : InFlightInv w) :
    InFlightInv (GetWeather w l) := by
  intro l2
  have h2 := h l2
  rw [GetWeather_eq]
  by_cases hl : l2 = l
  · subst hl
    cases hg : w.group l2 with
    | none =>
      rw [hg] at h2
      simp only [groupOrNew_none w l2 hg]
      split_ifs <;> simp_all
    | some g =>
      rw [hg] at h2
      simp only [groupOrNew_some w l2 g hg]
      split_ifs <;> simp_all
  · have hl2 : ¬ l = l2 := fun h => hl h.symm
    split_ifs <;> simp_all

theorem InFlightInv_timerCallback {F : Type} (w : World F) (l : String) (h : InFlightInv w) :
    InFlightInv (timerCallback w l) := by
  intro l2
  have h2 := h l2
  rw [timerCallback_eq]
  cases hg : w.group l with
  | none => simpa using h2
  | some g =>
    by_cases hl : l2 = l
    · subst hl
      rw [hg] at h2
      simp only []
      split_ifs <;> simp_all
    · have hl2 : ¬ l = l2 := fun h => hl h.symm
      simp only []
      split_ifs <;> simp_all

section Completion
variable {F : Type} [Add F] [Div F] [OfNat F 2]

theorem processAggregationGroupWithBatch_eq (w : World F) (l : String)
    (batch : List AggregationRequest) (r1 r2 : Except String F) :
    processAggregationGroupWithBatch w l batch r1 r2 =
      match w.group l with
      | none => w
      | some g => (w.deliver g.Location batch r1 r2).finish l g := by
  unfold processAggregationGroupWithBatch World.group World.deliver
  cases hg : w.svc.aggregationMap l with
  | none => rfl
  | some g =>
    rcases r1 with e1 | a <;> rcases r2 with e2 | b <;> simp [fetchWeatherData]

@[simp] theorem group_deliver (w : World F) (loc l2 : String) (batch : List AggregationRequest)
    (r1 r2 : Except String F) : (w.deliver loc batch r1 r2).group l2 = w.group l2 := by
  unfold World.deliver
  rcases r1 with e1 | a <;> rcases r2 with e2 | b <;> simp [fetchWeatherData, World.group]

@[simp] theorem inflight_deliver (w : World F) (loc : String) (batch : List AggregationRequest)
    (r1 r2 : Except String F) : (w.deliver loc batch r1 r2).inflight = w.inflight := by
  unfold World.deliver
  rcases r1 with e1 | a <;> rcases r2 with e2 | b <;> simp [fetchWeatherData]

@[simp] theorem inflightCount_deliver (w : World F) (loc l2 : String)
    (batch : List AggregationRequest) (r1 r2 : Except String F) :
    (w.deliver loc batch r1 r2).inflightCount l2 = w.inflightCount l2 := by
  simp [World.inflightCount, World.inflightAt]

omit [Add F] [Div F] [OfNat F 2] in
theorem length_filter_eraseIdx {α : Type} (p : α → Bool) (xs : List α) (i : Nat) (x : α)
    (h : xs[i]? = some x) :
    (xs.filter p).length = ((xs.eraseIdx i).filter p).length + (if p x then 1 else 0) := by
  induction xs generalizing i with
  | nil => simp at h
  | cons y ys ih =>
    cases i with
    | zero =>
      simp at h
      subst h
      by_cases hp : p y <;> simp [List.filter_cons, hp]
    | succ j =>
      simp at h
      have := ih j h
      by_cases hy : p y <;> simp [List.filter_cons, hy, this]; omega

omit [Add F] [Div F] [OfNat F 2] in
@[simp] theorem group_retire (w : World F) (i : Nat) (l : String) :
    (w.retire i).group l = w.group l := rfl

omit [Add F] [Div F] [OfNat F 2] in
theorem inflightCount_retire (w : World F) (i : Nat) (l l2 : String)
    (batch : List AggregationRequest) (h : w.inflight[i]? = some (l, batch)) :
    w.inflightCount l2 = (w.retire i).inflightCount l2 + (if l = l2 then 1 else 0) := by
  have := length_filter_eraseIdx (fun (b : Batch) => decide (b.1 = l2)) w.inflight i _ h
  simpa [World.inflightCount, World.inflightAt, World.retire] using this

theorem step_complete_none (w : World F) (i : Nat) (r1 r2 : Except String F)
    (h : w.inflight[i]? = none) : step w (.complete i r1 r2) = w := by
  simp [step, h]

theorem step_complete_some (w : World F) (i : Nat) (r1 r2 : Except String F) (l : String)
    (batch : List AggregationRequest) (h : w.inflight[i]? = some (l, batch)) :
    step w (.complete i r1 r2) = processAggregationGroupWithBatch (w.retire i) l batch r1 r2 := by
  simp [step, h]

theorem InFlightInv_step (w : World F) (e : Event F) (h : InFlightInv w) :
    InFlightInv (step w e) := by
  cases e with
  | arrive l => exact InFlightInv_GetWeather w l h
  | timer l => exact InFlightInv_timerCallback w l h
  | complete i r1 r2 =>
    cases hi : w.inflight[i]? with
    | none => rw [step_complete_none w i r1 r2 hi]; exact h
    | some lb =>
      obtain ⟨l, batch⟩ := lb
      rw [step_complete_some w i r1 r2 l batch hi, processAggregationGroupWithBatch_eq]
      intro l2
      have h2 := h l2
      rw [inflightCount_retire w i l l2 batch hi] at h2
      rw [group_retire]
      cases hg : w.group l with
      | none =>
        have h1 := h l
        rw [inflightCount_retire w i l l batch hi, hg] at h1
        simp at h1
      | some g =>
        simp only [finish_eq]
        by_cases hl : l = l2
        · subst hl
          simp only [hg] at h2
          have h0 : (w.retire i).inflightCount l = 0 := by
            split_ifs at h2 <;> omega
          split_ifs <;> simp [h0]
        · have hl2 : ¬ l2 = l := fun h => hl h.symm
          split_ifs <;> simp_all

omit [Add F] [Div F] [OfNat F 2] in
theorem InFlightInv_init (m : Int) (wt : Nat) : InFlightInv (World.init F m wt) := by
  intro l
  simp [World.init, World.inflightCount, World.inflightAt, World.group, NewWeatherService]

theorem InFlightInv_run (w : World F) (es : List (Event F)) (h : InFlightInv w) :
    InFlightInv (run w es) := by
  induction es generalizing w with
  | nil => exact h
  | cons e es ih => exact ih (step w e) (InFlightInv_step w e h)

end Completion

/-! ## C1: at most one batch in flight per location -/

section FrozenLog
variable {F : Type}

@[simp] theorem frozen_setGroup (w : World F) (l : String) (g : AggregationGroup) :
    (w.setGroup l g).frozen = w.frozen := rfl

@[simp] theorem frozen_armTimer (w : World F) (l : String) (g : AggregationGroup) :
    (w.armTimer l g).frozen = w.frozen := rfl

@[simp] theorem frozen_ticketed (w : World F) (l : String) :
    (w.ticketed l).frozen = w.frozen := rfl

@[simp] theorem frozen_retire (w : World F) (i : Nat) : (w.retire i).frozen = w.frozen := rfl

@[simp] theorem frozen_dispatch (w : World F) (l : String) (b : List AggregationRequest) :
    (w.dispatch l b).frozen = w.frozen ++ [(l, b)] := rfl

@[simp] theorem frozen_deliver [Add F] [Div F] [OfNat F 2] (w : World F) (loc : String)
    (batch : List AggregationRequest) (r1 r2 : Except String F) :
    (w.deliver loc batch r1 r2).frozen = w.frozen := by
  unfold World.deliver
  rcases r1 with e1 | a <;> rcases r2 with e2 | b <;> simp [fetchWeatherData]

theorem frozen_processAggregationGroupWithBatch [Add F] [Div F] [OfNat F 2] (w : World F)
    (l : String) (batch : List AggregationRequest) (r1 r2 : Except String F) :
    (processAggregationGroupWithBatch w l batch r1 r2).frozen = w.frozen := by
  rw [processAggregationGroupWithBatch_eq]
  cases w.group l with
  | none => rfl
  | some g =>
    simp only [finish_eq]
    split_ifs <;> simp

/-- While the group of `l` is processing, no event freezes a batch for `l`. -/
theorem frozen_step_of_processing [Add F] [Div F] [OfNat F 2] (w : World F) (e : Event F)
    (l : String) (g : AggregationGroup) (hg : w.group l = some g)
    (hp : g.IsProcessing = true) :
    (step w e).frozen.filter (fun b => b.1 = l) = w.frozen.filter (fun b => b.1 = l) := by
  cases e with
  | arrive l2 =>
    show (GetWeather w l2).frozen.filter _ = _
    rw [GetWeather_eq]
    by_cases h : l2 = l
    · subst h
      simp only [groupOrNew_some w l2 g hg, hp]
      split_ifs <;> simp
    · split_ifs <;> simp [List.filter_append, h]
  | timer l2 =>
    show (timerCallback w l2).frozen.filter _ = _
    rw [timerCallback_eq]
    by_cases h : l2 = l
    · subst h
      simp [hg, hp]
    · cases w.group l2 with
      | none => rfl
      | some g2 =>
        simp only []
        split_ifs <;> simp [List.filter_append, h]
  | complete i r1 r2 =>
    cases hi : w.inflight[i]? with
    | none => rw [step_complete_none w i r1 r2 hi]
    | some lb =>
      obtain ⟨l2, batch⟩ := lb
      rw [step_complete_some w i r1 r2 l2 batch hi, frozen_processAggregationGroupWithBatch]
      rfl

end FrozenLog

/-- C1: in every state reached from the empty service by arrivals, timer callbacks and
fan-out completions, a location has at most one batch in flight, and it has one exactly
when its group has `IsProcessing = true`; `triggerLocked` reports ok exactly when
`IsProcessing` was false and leaves it true; and while `IsProcessing` is true no event
freezes a further batch for that location. -/
theorem C1_one_batch_in_flight {F : Type} [Add F] [Div F] [OfNat F 2] (m : Int) (wt : Nat)
    (es : List (Event F)) (l : String) :
    ((run (World.init F m wt) es).inflightAt l).length ≤ 1 ∧
    (((run (World.init F m wt) es).inflightAt l).length = 1 ↔
      ∃ g, (run (World.init F m wt) es).group l = some g ∧ g.IsProcessing = true) ∧
    (∀ g : AggregationGroup, (triggerLocked g).2.2 = !g.IsProcessing ∧
      (triggerLocked g).1.IsProcessing = true) ∧
    (∀ (e : Event F) (g : AggregationGroup),
      (run (World.init F m wt) es).group l = some g → g.IsProcessing = true →
      (step (run (World.init F m wt) es) e).frozen.filter (fun b => b.1 = l)
        = (run (World.init F m wt) es).frozen.filter (fun b => b.1 = l)) := by
  have h := InFlightInv_run (World.init F m wt) es (InFlightInv_init m wt) l
  unfold World.inflightCount at h
  refine ⟨?_, ?_, ?_, ?_⟩
  · rw [h]
    cases (run (World.init F m wt) es).group l with
    | none => simp
    | some g => simp only []; split_ifs <;> simp
  · rw [h]
    cases (run (World.init F m wt) es).group l with
    | none => simp
    | some g => cases hp : g.IsProcessing <;> simp [hp]
  · intro g
    cases hp : g.IsProcessing
    · simp [triggerLocked_idle g hp]
    · simp [triggerLocked_processing g hp, hp]
  · intro e g hg hp
    exact frozen_step_of_processing _ e l g hg hp

/-- C1 at a concrete run: cap 2, three arrivals for one location; the first two are frozen
and in flight, the third waits, and a timer callback does not freeze it. -/
theorem C1_one_batch_in_flight_witness :
    ((run (World.init Int 2 5) [.arrive "Istanbul", .arrive "Istanbul", .arrive "Istanbul"]).inflightAt
        "Istanbul").length = 1 ∧
    (step (run (World.init Int 2 5) [.arrive "Istanbul", .arrive "Istanbul", .arrive "Istanbul"])
        (.timer "Istanbul")).frozen.filter (fun b => b.1 = "Istanbul")
      = [("Istanbul", [⟨"Istanbul", 0, 0⟩, ⟨"Istanbul", 1, 1⟩])] := by
  have h := C1_one_batch_in_flight (F := Int) 2 5
    [.arrive "Istanbul", .arrive "Istanbul", .arrive "Istanbul"] "Istanbul"
  refine ⟨by decide, ?_⟩
  rw [h.2.2.2 (.timer "Istanbul")
    ⟨"Istanbul", [⟨"Istanbul", 2, 2⟩], some 1, 2, 5, true⟩ (by decide) rfl]
  decide

/-! ## Frame facts: which fields each primitive leaves alone -/

section Frame
variable {F : Type}

@[simp] theorem nextChan_setGroup (w : World F) (l : String) (g : AggregationGroup) :
    (w.setGroup l g).nextChan = w.nextChan := rfl

@[simp] theorem nextChan_dispatch (w : World F) (l : String) (b : List AggregationRequest) :
    (w.dispatch l b).nextChan = w.nextChan := rfl

@[simp] theorem nextChan_retire (w : World F) (i : Nat) : (w.retire i).nextChan = w.nextChan := rfl

@[simp] theorem nextChan_armTimer (w : World F) (l : String) (g : AggregationGroup) :
    (w.armTimer l g).nextChan = w.nextChan := rfl

@[simp] theorem nextTimer_setGroup (w : World F) (l : String) (g : AggregationGroup) :
    (w.setGroup l g).nextTimer = w.nextTimer := rfl

@[simp] theorem nextTimer_dispatch (w : World F) (l : String) (b : List AggregationRequest) :
    (w.dispatch l b).nextTimer = w.nextTimer := rfl

@[simp] theorem nextTimer_retire (w : World F) (i : Nat) : (w.retire i).nextTimer = w.nextTimer := rfl

@[simp] theorem nextTimer_ticketed (w : World F) (l : String) :
    (w.ticketed l).nextTimer = w.nextTimer := rfl

@[simp] theorem created_setGroup (w : World F) (l : String) (g : AggregationGroup) :
    (w.setGroup l g).created = w.created := rfl

@[simp] theorem created_dispatch (w : World F) (l : String) (b : List AggregationRequest) :
    (w.dispatch l b).created = w.created := rfl

@[simp] theorem created_retire (w : World F) (i : Nat) : (w.retire i).created = w.created := rfl

@[simp] theorem created_armTimer (w : World F) (l : String) (g : AggregationGroup) :
    (w.armTimer l g).created = w.created := rfl

@[simp] theorem respLog_setGroup (w : World F) (l : String) (g : AggregationGroup) :
    (w.setGroup l g).respLog = w.respLog := rfl

@[simp] theorem respLog_dispatch (w : World F) (l : String) (b : List AggregationRequest) :
    (w.dispatch l b).respLog = w.respLog := rfl

@[simp] theorem respLog_retire (w : World F) (i : Nat) : (w.retire i).respLog = w.respLog := rfl

@[simp] theorem respLog_armTimer (w : World F) (l : String) (g : AggregationGroup) :
    (w.armTimer l g).respLog = w.respLog := rfl

@[simp] theorem respLog_ticketed (w : World F) (l : String) :
    (w.ticketed l).respLog = w.respLog := rfl

@[simp] theorem errLog_setGroup (w : World F) (l : String) (g : AggregationGroup) :
    (w.setGroup l g).errLog = w.errLog := rfl

@[simp] theorem errLog_dispatch (w : World F) (l : String) (b : List AggregationRequest) :
    (w.dispatch l b).errLog = w.errLog := rfl

@[simp] theorem errLog_retire (w : World F) (i : Nat) : (w.retire i).errLog = w.errLog := rfl

@[simp] theorem errLog_armTimer (w : World F) (l : String) (g : AggregationGroup) :
    (w.armTimer l g).errLog = w.errLog := rfl

@[simp] theorem errLog_ticketed (w : World F) (l : String) :
    (w.ticketed l).errLog = w.errLog := rfl

@[simp] theorem saved_setGroup (w : World F) (l : String) (g : AggregationGroup) :
    (w.setGroup l g).saved = w.saved := rfl

@[simp] theorem saved_dispatch (w : World F) (l : String) (b : List AggregationRequest) :
    (w.dispatch l b).saved = w.saved := rfl

@[simp] theorem saved_retire (w : World F) (i : Nat) : (w.retire i).saved = w.saved := rfl

@[simp] theorem saved_armTimer (w : World F) (l : String) (g : AggregationGroup) :
    (w.armTimer l g).saved = w.saved := rfl

@[simp] theorem saved_ticketed (w : World F) (l : String) :
    (w.ticketed l).saved = w.saved := rfl

@[simp] theorem nextTimer_armTimer (w : World F) (l : String) (g : AggregationGroup) :
    (w.armTimer l g).nextTimer = w.nextTimer + 1 := rfl

@[simp] theorem nextChan_ticketed (w : World F) (l : String) :
    (w.ticketed l).nextChan = w.nextChan + 1 := rfl

@[simp] theorem created_ticketed (w : World F) (l : String) :
    (w.ticketed l).created = w.created ++ [newRequest w l] := rfl

@[simp] theorem inflight_retire (w : World F) (i : Nat) :
    (w.retire i).inflight = w.inflight.eraseIdx i := rfl

@[simp] theorem nextChan_deliver [Add F] [Div F] [OfNat F 2] (w : World F) (loc : String)
    (batch : List AggregationRequest) (r1 r2 : Except String F) :
    (w.deliver loc batch r1 r2).nextChan = w.nextChan := by
  unfold World.deliver
  rcases r1 with e1 | a <;> rcases r2 with e2 | b <;> simp [fetchWeatherData]

@[simp] theorem nextTimer_deliver [Add F] [Div F] [OfNat F 2] (w : World F) (loc : String)
    (batch : List AggregationRequest) (r1 r2 : Except String F) :
    (w.deliver loc batch r1 r2).nextTimer = w.nextTimer := by
  unfold World.deliver
  rcases r1 with e1 | a <;> rcases r2 with e2 | b <;> simp [fetchWeatherData]

@[simp] theorem created_deliver [Add F] [Div F] [OfNat F 2] (w : World F) (loc : String)
    (batch : List AggregationRequest) (r1 r2 : Except String F) :
    (w.deliver loc batch r1 r2).created = w.created := by
  unfold World.deliver
  rcases r1 with e1 | a <;> rcases r2 with e2 | b <;> simp [fetchWeatherData]

end Frame

/-! ## C3: the size trigger -/

/-- C3: when a ticket arrives at a group that is not processing and the accumulated tickets
including it reach `MaxRequests`, `GetWeather` itself freezes and dispatches the batch made
of the earlier tickets followed by the new one, and leaves the group with
`IsProcessing = true`, no requests and no timer; no timer is created by the call. -/
theorem C3_size_trigger {F : Type} (w : World F) (l : String)
    (hidle : (groupOrNew w l).IsProcessing = false)
    (hsize : ((groupOrNew w l).Requests.length : Int) + 1 ≥ (groupOrNew w l).MaxRequests) :
    (GetWeather w l).group l
      = some { groupOrNew w l with IsProcessing := true, Requests := [], Timer := none } ∧
    (GetWeather w l).inflight
      = w.inflight ++ [(l, (groupOrNew w l).Requests ++ [newRequest w l])] ∧
    (GetWeather w l).frozen
      = w.frozen ++ [(l, (groupOrNew w l).Requests ++ [newRequest w l])] ∧
    (GetWeather w l).nextTimer = w.nextTimer := by
  rw [GetWeather_eq]
  have hsize2 : ((((groupOrNew w l).Requests ++ [newRequest w l]).length : Nat) : Int)
      ≥ (groupOrNew w l).MaxRequests := by
    simpa using hsize
  rw [if_neg (by simp [hidle]), if_pos hsize2]
  simp

/-- C3 at a concrete state: cap 2, one ticket waiting, a second one arrives. -/
theorem C3_size_trigger_witness :
    (GetWeather (run (World.init Int 2 5) [.arrive "Istanbul"]) "Istanbul").group "Istanbul"
      = some ⟨"Istanbul", [], none, 2, 5, true⟩ ∧
    (GetWeather (run (World.init Int 2 5) [.arrive "Istanbul"]) "Istanbul").inflight
      = [("Istanbul", [⟨"Istanbul", 0, 0⟩, ⟨"Istanbul", 1, 1⟩])] :=
  have h := C3_size_trigger (run (World.init Int 2 5) [.arrive "Istanbul"]) "Istanbul"
    (by decide) (by decide)
  ⟨h.1, h.2.1⟩

/-! ## The completion step -/

section CompletionStep
variable {F : Type} [Add F] [Div F] [OfNat F 2]

theorem step_complete_eq (w : World F) (i : Nat) (r1 r2 : Except String F) (l : String)
    (batch : List AggregationRequest) (g : AggregationGroup)
    (hi : w.inflight[i]? = some (l, batch)) (hg : w.group l = some g) :
    step w (.complete i r1 r2) = ((w.retire i).deliver g.Location batch r1 r2).finish l g := by
  rw [step_complete_some w i r1 r2 l batch hi, processAggregationGroupWithBatch_eq, group_retire,
    hg]

/-- The completion step never starts a batch: it removes the completed one from the running
batches and freezes nothing. -/
theorem step_complete_inflight (w : World F) (i : Nat) (r1 r2 : Except String F) (l : String)
    (batch : List AggregationRequest) (g : AggregationGroup)
    (hi : w.inflight[i]? = some (l, batch)) (hg : w.group l = some g) :
    (step w (.complete i r1 r2)).inflight = w.inflight.eraseIdx i ∧
    (step w (.complete i r1 r2)).frozen = w.frozen := by
  rw [step_complete_eq w i r1 r2 l batch g hi hg, finish_eq]
  split_ifs <;> simp

/-- The group after the completion step: `IsProcessing` is reset, the requests are kept,
and a timer is created only when requests wait and none is set. -/
theorem step_complete_group (w : World F) (i : Nat) (r1 r2 : Except String F) (l : String)
    (batch : List AggregationRequest) (g : AggregationGroup)
    (hi : w.inflight[i]? = some (l, batch)) (hg : w.group l = some g) :
    (step w (.complete i r1 r2)).group l
        = some { g with IsProcessing := false,
                        Timer := if g.Requests ≠ [] ∧ g.Timer = none then some w.nextTimer
                                 else g.Timer } ∧
    (step w (.complete i r1 r2)).nextTimer
        = if g.Requests ≠ [] ∧ g.Timer = none then w.nextTimer + 1 else w.nextTimer := by
  rw [step_complete_eq w i r1 r2 l batch g hi hg, finish_eq]
  split_ifs <;> simp

theorem step_timer_idle (w : World F) (l : String) (g : AggregationGroup)
    (hg : w.group l = some g) (hp : g.IsProcessing = false) :
    step w (.timer l)
      = (w.setGroup l { g with Timer := none, IsProcessing := true, Requests := [] }).dispatch
          l g.Requests := by
  show timerCallback w l = _
  rw [timerCallback_eq, hg]
  simp [hp]

theorem step_timer_processing (w : World F) (l : String) (g : AggregationGroup)
    (hg : w.group l = some g) (hp : g.IsProcessing = true) :
    step w (.timer l) = w.setGroup l { g with Timer := none } := by
  show timerCallback w l = _
  rw [timerCallback_eq, hg]
  simp [hp]

end CompletionStep

/-! ## C7: promotion to Open -/

/-- C7: when the fan-out of a running batch completes while the pending timer of its group
is still set (in particular with a non-empty pending list below the cap), the completion
step sets `IsProcessing = false`, leaves `Requests` and the `Timer` field as they were,
creates no timer and starts no batch; the callback of that timer then freezes exactly the
pending tickets. -/
theorem C7_promotion_to_open {F : Type} [Add F] [Div F] [OfNat F 2] (w : World F) (i : Nat)
    (r1 r2 : Except String F) (l : String) (batch : List AggregationRequest)
    (g : AggregationGroup) (t : Nat)
    (hi : w.inflight[i]? = some (l, batch)) (hg : w.group l = some g)
    (ht : g.Timer = some t) :
    (step w (.complete i r1 r2)).group l = some { g with IsProcessing := false } ∧
    (step w (.complete i r1 r2)).nextTimer = w.nextTimer ∧
    (step w (.complete i r1 r2)).inflight = w.inflight.eraseIdx i ∧
    (step w (.complete i r1 r2)).frozen = w.frozen ∧
    (step (step w (.complete i r1 r2)) (.timer l)).inflight
      = w.inflight.eraseIdx i ++ [(l, g.Requests)] ∧
    (step (step w (.complete i r1 r2)) (.timer l)).group l
      = some { g with IsProcessing := true, Requests := [], Timer := none } := by
  have h1 := step_complete_group w i r1 r2 l batch g hi hg
  have h2 := step_complete_inflight w i r1 r2 l batch g hi hg
  simp only [ht, and_false, if_false, reduceCtorEq] at h1
  have h3 := step_timer_idle (step w (.complete i r1 r2)) l _ h1.1 rfl
  refine ⟨?_, h1.2, h2.1, h2.2, ?_, ?_⟩
  · rw [h1.1, ← ht]
  · rw [h3]; simp [h2.1]
  · rw [h3]; simp

/-- C7 at a concrete state: cap 2, two tickets in flight and a third pending with its timer
set; the fan-out completes and later the timer fires. -/
theorem C7_promotion_to_open_witness :
    (step (run (World.init Int 2 5) [.arrive "Paris", .arrive "Paris", .arrive "Paris"])
        (.complete 0 (.ok 20) (.ok 22))).group "Paris"
      = some ⟨"Paris", [⟨"Paris", 2, 2⟩], some 1, 2, 5, false⟩ ∧
    (step (step (run (World.init Int 2 5) [.arrive "Paris", .arrive "Paris", .arrive "Paris"])
        (.complete 0 (.ok 20) (.ok 22))) (.timer "Paris")).inflight
      = [("Paris", [⟨"Paris", 2, 2⟩])] :=
  have h := C7_promotion_to_open
    (run (World.init Int 2 5) [.arrive "Paris", .arrive "Paris", .arrive "Paris"]) 0
    (.ok 20) (.ok 22) "Paris" [⟨"Paris", 0, 0⟩, ⟨"Paris", 1, 1⟩]
    ⟨"Paris", [⟨"Paris", 2, 2⟩], some 1, 2, 5, true⟩ 1 (by decide) (by decide) rfl
  ⟨h.1, h.2.2.2.2.1⟩

/-- The arrival that reaches the cap at an idle group starts the batch of all waiting
tickets followed by the new one. -/
theorem GetWeather_inflight_of_full {F : Type} (w : World F) (l : String)
    (hidle : (groupOrNew w l).IsProcessing = false)
    (hsize : ((groupOrNew w l).Requests.length : Int) + 1 ≥ (groupOrNew w l).MaxRequests) :
    (GetWeather w l).inflight
      = w.inflight ++ [(l, (groupOrNew w l).Requests ++ [newRequest w l])] := by
  rw [GetWeather_eq]
  have hsize2 : ((((groupOrNew w l).Requests ++ [newRequest w l]).length : Nat) : Int)
      ≥ (groupOrNew w l).MaxRequests := by
    simpa using hsize
  rw [if_neg (by simp [hidle]), if_pos hsize2]
  simp

/-! ## C5: a full pending list at completion -/

/-- C5, as stated, fails: cap 2, two tickets in flight and two more pending (the pending
list has reached the cap); when the fan-out completes nothing is frozen and nothing is
dispatched, the two pending tickets stay in `Requests` with `IsProcessing = false`. -/
theorem C5_counterexample :
    ((run (World.init Int 2 5)
        [.arrive "Paris", .arrive "Paris", .arrive "Paris", .arrive "Paris"]).group "Paris")
      = some ⟨"Paris", [⟨"Paris", 2, 2⟩, ⟨"Paris", 3, 3⟩], some 1, 2, 5, true⟩ ∧
    (run (World.init Int 2 5)
        [.arrive "Paris", .arrive "Paris", .arrive "Paris", .arrive "Paris"]).inflight
      = [("Paris", [⟨"Paris", 0, 0⟩, ⟨"Paris", 1, 1⟩])] ∧
    (run (World.init Int 2 5)
        [.arrive "Paris", .arrive "Paris", .arrive "Paris", .arrive "Paris",
         .complete 0 (.ok 20) (.ok 22)]).inflight = [] ∧
    (run (World.init Int 2 5)
        [.arrive "Paris", .arrive "Paris", .arrive "Paris", .arrive "Paris",
         .complete 0 (.ok 20) (.ok 22)]).frozen
      = [("Paris", [⟨"Paris", 0, 0⟩, ⟨"Paris", 1, 1⟩])] ∧
    ((run (World.init Int 2 5)
        [.arrive "Paris", .arrive "Paris", .arrive "Paris", .arrive "Paris",
         .complete 0 (.ok 20) (.ok 22)]).group "Paris")
      = some ⟨"Paris", [⟨"Paris", 2, 2⟩, ⟨"Paris", 3, 3⟩], some 1, 2, 5, false⟩ := by
  decide

/-- C5, amended: when the fan-out of a running batch completes and the pending list is
non-empty with at least `MaxRequests` tickets, the completion step starts no batch: it
resets `IsProcessing`, keeps the pending tickets in `Requests` and leaves a timer set (the
one already set, or a new one).  The pending tickets are frozen by the next step for the
location: the next arrival (size trigger, together with the new ticket) or the timer
callback. -/
theorem C5_full_pending_waits {F : Type} [Add F] [Div F] [OfNat F 2] (w : World F) (i : Nat)
    (r1 r2 : Except String F) (l : String) (batch : List AggregationRequest)
    (g : AggregationGroup)
    (hi : w.inflight[i]? = some (l, batch)) (hg : w.group l = some g)
    (hne : g.Requests ≠ []) (hsize : (g.Requests.length : Int) ≥ g.MaxRequests) :
    (step w (.complete i r1 r2)).inflight = w.inflight.eraseIdx i ∧
    (step w (.complete i r1 r2)).frozen = w.frozen ∧
    (step w (.complete i r1 r2)).group l
      = some { g with IsProcessing := false, Timer := some (g.Timer.getD w.nextTimer) } ∧
    (step (step w (.complete i r1 r2)) (.arrive l)).inflight
      = w.inflight.eraseIdx i
        ++ [(l, g.Requests ++ [newRequest (step w (.complete i r1 r2)) l])] ∧
    (step (step w (.complete i r1 r2)) (.timer l)).inflight
      = w.inflight.eraseIdx i ++ [(l, g.Requests)] := by
  have h1 := step_complete_group w i r1 r2 l batch g hi hg
  have h2 := step_complete_inflight w i r1 r2 l batch g hi hg
  have hT : (if g.Requests ≠ [] ∧ g.Timer = none then some w.nextTimer else g.Timer)
      = some (g.Timer.getD w.nextTimer) := by
    cases hT : g.Timer <;> simp [hne]
  rw [hT] at h1
  have hgo := groupOrNew_some _ l _ h1.1
  have h3 := GetWeather_inflight_of_full (step w (.complete i r1 r2)) l (by rw [hgo])
    (by rw [hgo]; simp only []; omega)
  have h4 := step_timer_idle (step w (.complete i r1 r2)) l _ h1.1 rfl
  refine ⟨h2.1, h2.2, h1.1, ?_, ?_⟩
  · show (GetWeather _ l).inflight = _
    rw [h3, hgo, h2.1]
  · rw [h4]; simp [h2.1]

/-- C5, amended, at the state of the counterexample. -/
theorem C5_full_pending_waits_witness :
    (step (run (World.init Int 2 5)
        [.arrive "Paris", .arrive "Paris", .arrive "Paris", .arrive "Paris"])
        (.complete 0 (.ok 20) (.ok 22))).inflight = [] ∧
    (step (step (run (World.init Int 2 5)
        [.arrive "Paris", .arrive "Paris", .arrive "Paris", .arrive "Paris"])
        (.complete 0 (.ok 20) (.ok 22))) (.timer "Paris")).inflight
      = [("Paris", [⟨"Paris", 2, 2⟩, ⟨"Paris", 3, 3⟩])] :=
  have h := C5_full_pending_waits
    (run (World.init Int 2 5)
      [.arrive "Paris", .arrive "Paris", .arrive "Paris", .arrive "Paris"]) 0
    (.ok 20) (.ok 22) "Paris" [⟨"Paris", 0, 0⟩, ⟨"Paris", 1, 1⟩]
    ⟨"Paris", [⟨"Paris", 2, 2⟩, ⟨"Paris", 3, 3⟩], some 1, 2, 5, true⟩
    (by decide) (by decide) (by decide) (by decide)
  ⟨h.1, h.2.2.2.2⟩

/-! ## C6: a pending timer that fired during the flight -/

/-- C6, as stated, fails: cap 2, two tickets in flight, a third pending with timer 1 set; the
callback of timer 1 runs during the flight and then the fan-out completes.  Nothing is
dispatched by the completion: the pending ticket stays in `Requests` and a new timer
(timer 2) is created for it. -/
theorem C6_counterexample :
    ((run (World.init Int 2 5)
        [.arrive "Paris", .arrive "Paris", .arrive "Paris"]).group "Paris")
      = some ⟨"Paris", [⟨"Paris", 2, 2⟩], some 1, 2, 5, true⟩ ∧
    (run (World.init Int 2 5)
        [.arrive "Paris", .arrive "Paris", .arrive "Paris", .timer "Paris"]).nextTimer = 2 ∧
    (run (World.init Int 2 5)
        [.arrive "Paris", .arrive "Paris", .arrive "Paris", .timer "Paris",
         .complete 0 (.ok 20) (.ok 22)]).inflight = [] ∧
    (run (World.init Int 2 5)
        [.arrive "Paris", .arrive "Paris", .arrive "Paris", .timer "Paris",
         .complete 0 (.ok 20) (.ok 22)]).nextTimer = 3 ∧
    ((run (World.init Int 2 5)
        [.arrive "Paris", .arrive "Paris", .arrive "Paris", .timer "Paris",
         .complete 0 (.ok 20) (.ok 22)]).group "Paris")
      = some ⟨"Paris", [⟨"Paris", 2, 2⟩], some 2, 2, 5, false⟩ := by
  decide

/-- C6, amended: a timer callback that runs while the batch of its group is in flight only
clears `group.Timer` and starts nothing; when the fan-out then completes with tickets
pending, the completion step starts no batch either: it resets `IsProcessing`, keeps the
pending tickets in `Requests` and creates a new timer of `WaitTime` for them, whose callback
freezes them. -/
theorem C6_elapsed_timer_rearmed {F : Type} [Add F] [Div F] [OfNat F 2] (w : World F)
    (i : Nat) (r1 r2 : Except String F) (l : String) (batch : List AggregationRequest)
    (g : AggregationGroup)
    (hi : w.inflight[i]? = some (l, batch)) (hg : w.group l = some g)
    (hp : g.IsProcessing = true) (hne : g.Requests ≠ []) :
    (step w (.timer l)).group l = some { g with Timer := none } ∧
    (step w (.timer l)).inflight = w.inflight ∧
    (step w (.timer l)).frozen = w.frozen ∧
    (step (step w (.timer l)) (.complete i r1 r2)).inflight = w.inflight.eraseIdx i ∧
    (step (step w (.timer l)) (.complete i r1 r2)).frozen = w.frozen ∧
    (step (step w (.timer l)) (.complete i r1 r2)).group l
      = some { g with IsProcessing := false, Timer := some w.nextTimer } ∧
    (step (step w (.timer l)) (.complete i r1 r2)).nextTimer = w.nextTimer + 1 ∧
    (step (step (step w (.timer l)) (.complete i r1 r2)) (.timer l)).inflight
      = w.inflight.eraseIdx i ++ [(l, g.Requests)] := by
  have h0 := step_timer_processing w l g hg hp
  have hg1 : (step w (.timer l)).group l = some { g with Timer := none } := by
    rw [h0]; simp
  have hi1 : (step w (.timer l)).inflight[i]? = some (l, batch) := by
    rw [h0]; simpa using hi
  have h1 := step_complete_group (step w (.timer l)) i r1 r2 l batch _ hi1 hg1
  have h2 := step_complete_inflight (step w (.timer l)) i r1 r2 l batch _ hi1 hg1
  have hw : (step w (.timer l)).nextTimer = w.nextTimer := by rw [h0]; rfl
  have hin : (step w (.timer l)).inflight = w.inflight := by rw [h0]; rfl
  have hfr : (step w (.timer l)).frozen = w.frozen := by rw [h0]; rfl
  simp only [hne, ne_eq, not_false_eq_true, and_self, if_true, hw] at h1
  have h4 := step_timer_idle (step (step w (.timer l)) (.complete i r1 r2)) l _ h1.1 rfl
  refine ⟨hg1, hin, hfr, ?_, ?_, h1.1, h1.2, ?_⟩
  · rw [h2.1, hin]
  · rw [h2.2, hfr]
  · rw [h4]; simp [h2.1, hin]

/-- C6, amended, at the state of the counterexample. -/
theorem C6_elapsed_timer_rearmed_witness :
    (step (step (run (World.init Int 2 5)
        [.arrive "Paris", .arrive "Paris", .arrive "Paris"]) (.timer "Paris"))
        (.complete 0 (.ok 20) (.ok 22))).inflight = [] ∧
    (step (step (run (World.init Int 2 5)
        [.arrive "Paris", .arrive "Paris", .arrive "Paris"]) (.timer "Paris"))
        (.complete 0 (.ok 20) (.ok 22))).group "Paris"
      = some ⟨"Paris", [⟨"Paris", 2, 2⟩], some 2, 2, 5, false⟩ :=
  have h := C6_elapsed_timer_rearmed
    (run (World.init Int 2 5) [.arrive "Paris", .arrive "Paris", .arrive "Paris"]) 0
    (.ok 20) (.ok 22) "Paris" [⟨"Paris", 0, 0⟩, ⟨"Paris", 1, 1⟩]
    ⟨"Paris", [⟨"Paris", 2, 2⟩], some 1, 2, 5, true⟩
    (by decide) (by decide) rfl (by decide)
  ⟨h.2.2.2.1, h.2.2.2.2.2.1⟩

/-! ## C10: the result of the fan-out -/

/-- C10: `fetchWeatherData` succeeds exactly when both `GetTemperature` calls succeed, and
then returns `Service1Temp = A`, `Service2Temp = B` and `AverageTemp = (A + B) / 2`; when
the first upstream fails (whatever the second did) it returns the error of the first
upstream, and when only the second fails the error of the second, in both cases as the
message of that upstream behind the name of its provider, and no data. -/
theorem C10_fetchWeatherData_result {F : Type} [Add F] [Div F] [OfNat F 2]
    (db : List (WeatherQuery F)) (location : String) (requestCount : Int) :
    (∀ r1 r2 : Except String F,
      (∃ d, (fetchWeatherData db location requestCount r1 r2).1 = .ok d)
        ↔ ∃ a b, r1 = .ok a ∧ r2 = .ok b) ∧
    (∀ a b : F, (fetchWeatherData db location requestCount (.ok a) (.ok b)).1
      = .ok { Location := location, Service1Temp := a, Service2Temp := b,
              AverageTemp := (a + b) / 2, RequestCount := requestCount }) ∧
    (∀ (e1 : String) (r2 : Except String F),
      (fetchWeatherData db location requestCount (.error e1) r2).1
        = .error ("WeatherAPI.com hatası: " ++ e1)) ∧
    (∀ (a : F) (e2 : String),
      (fetchWeatherData db location requestCount (.ok a) (.error e2)).1
        = .error ("WeatherStack.com hatası: " ++ e2)) := by
  refine ⟨?_, ?_, ?_, ?_⟩
  · intro r1 r2
    rcases r1 with e1 | a <;> rcases r2 with e2 | b <;> simp [fetchWeatherData]
  · intro a b; rfl
  · intro e1 r2; rfl
  · intro a e2; rfl

/-- C10 at concrete readings: 20 and 22 give the mean 21; a failure of the first provider
wins over a failure of the second. -/
theorem C10_fetchWeatherData_result_witness :
    (fetchWeatherData ([] : List (WeatherQuery Int)) "Ankara" 3 (.ok 20) (.ok 22)).1
      = .ok ⟨"Ankara", 20, 22, 21, 3⟩ ∧
    (fetchWeatherData ([] : List (WeatherQuery Int)) "Ankara" 3 (.error "timeout")
        (.error "HTTP 500")).1
      = .error "WeatherAPI.com hatası: timeout" :=
  have h := C10_fetchWeatherData_result ([] : List (WeatherQuery Int)) "Ankara" 3
  ⟨h.2.1 20 22, h.2.2.1 "timeout" (.error "HTTP 500")⟩

/-! ## C9: one outcome for the whole batch -/

section Logs
variable {F : Type} [Add F] [Div F] [OfNat F 2]

omit [Add F] [Div F] [OfNat F 2] in
@[simp] theorem respLog_finish (w : World F) (l : String) (g : AggregationGroup) :
    (w.finish l g).respLog = w.respLog := by
  rw [finish_eq]; split_ifs <;> rfl

omit [Add F] [Div F] [OfNat F 2] in
@[simp] theorem errLog_finish (w : World F) (l : String) (g : AggregationGroup) :
    (w.finish l g).errLog = w.errLog := by
  rw [finish_eq]; split_ifs <;> rfl

omit [Add F] [Div F] [OfNat F 2] in
@[simp] theorem saved_finish (w : World F) (l : String) (g : AggregationGroup) :
    (w.finish l g).saved = w.saved := by
  rw [finish_eq]; split_ifs <;> rfl

theorem deliver_ok (w : World F) (loc : String) (batch : List AggregationRequest) (a b : F) :
    w.deliver loc batch (.ok a) (.ok b)
      = { w with
          saved := w.saved ++ [{ Location := loc, Service1Temp := a, Service2Temp := b,
                                 RequestCount := batch.length }],
          respLog := w.respLog ++ batch.map (fun (req : AggregationRequest) =>
            (req.Response, WeatherResponse.mk loc ((a + b) / 2))) } := rfl

theorem deliver_error1 (w : World F) (loc : String) (batch : List AggregationRequest)
    (e1 : String) (r2 : Except String F) :
    w.deliver loc batch (.error e1) r2
      = { w with errLog := w.errLog ++ batch.map (fun (req : AggregationRequest) =>
            (req.Error, "WeatherAPI.com hatası: " ++ e1)) } := rfl

theorem deliver_error2 (w : World F) (loc : String) (batch : List AggregationRequest)
    (a : F) (e2 : String) :
    w.deliver loc batch (.ok a) (.error e2)
      = { w with errLog := w.errLog ++ batch.map (fun (req : AggregationRequest) =>
            (req.Error, "WeatherStack.com hatası: " ++ e2)) } := rfl

end Logs

/-- C9: when the fan-out of a batch succeeds with readings `a` and `b`, the completion
writes to the response channel of every ticket of the batch the same response, whose
temperature is `(a + b) / 2`, and writes no error; when it fails, it writes the same error
value to the error channel of every ticket of the batch and writes no response. -/
theorem C9_identical_results {F : Type} [Add F] [Div F] [OfNat F 2] (w : World F) (i : Nat)
    (l : String) (batch : List AggregationRequest) (g : AggregationGroup)
    (hi : w.inflight[i]? = some (l, batch)) (hg : w.group l = some g) :
    (∀ a b : F,
      (step w (.complete i (.ok a) (.ok b))).respLog
        = w.respLog ++ batch.map (fun (req : AggregationRequest) =>
            (req.Response, WeatherResponse.mk g.Location ((a + b) / 2))) ∧
      (step w (.complete i (.ok a) (.ok b))).errLog = w.errLog) ∧
    (∀ (e1 : String) (r2 : Except String F),
      (step w (.complete i (.error e1) r2)).errLog
        = w.errLog ++ batch.map (fun (req : AggregationRequest) =>
            (req.Error, "WeatherAPI.com hatası: " ++ e1)) ∧
      (step w (.complete i (.error e1) r2)).respLog = w.respLog) ∧
    (∀ (a : F) (e2 : String),
      (step w (.complete i (.ok a) (.error e2))).errLog
        = w.errLog ++ batch.map (fun (req : AggregationRequest) =>
            (req.Error, "WeatherStack.com hatası: " ++ e2)) ∧
      (step w (.complete i (.ok a) (.error e2))).respLog = w.respLog) := by
  refine ⟨?_, ?_, ?_⟩
  · intro a b
    rw [step_complete_eq w i _ _ l batch g hi hg, deliver_ok]
    simp
  · intro e1 r2
    rw [step_complete_eq w i _ _ l batch g hi hg, deliver_error1]
    simp
  · intro a e2
    rw [step_complete_eq w i _ _ l batch g hi hg, deliver_error2]
    simp

/-- C9 at a concrete state: a batch of two tickets, readings 20 and 22. -/
theorem C9_identical_results_witness :
    (step (run (World.init Int 2 5) [.arrive "Paris", .arrive "Paris"])
        (.complete 0 (.ok 20) (.ok 22))).respLog
      = [(0, ⟨"Paris", 21⟩), (1, ⟨"Paris", 21⟩)] ∧
    (step (run (World.init Int 2 5) [.arrive "Paris", .arrive "Paris"])
        (.complete 0 (.error "timeout") (.ok 22))).errLog
      = [(0, "WeatherAPI.com hatası: timeout"), (1, "WeatherAPI.com hatası: timeout")] :=
  have h := C9_identical_results (run (World.init Int 2 5) [.arrive "Paris", .arrive "Paris"])
    0 "Paris" [⟨"Paris", 0, 0⟩, ⟨"Paris", 1, 1⟩] ⟨"Paris", [], none, 2, 5, true⟩
    (by decide) (by decide)
  ⟨(h.1 20 22).1, (h.2.1 "timeout" (.ok 22)).1⟩

/-! ## C8: the request count is pinned by the freeze -/

section Arrivals
variable {F : Type}

/-- An arrival only ever appends to the running batches. -/
theorem GetWeather_inflight_grows (w : World F) (l : String) :
    ∃ extra, (GetWeather w l).inflight = w.inflight ++ extra := by
  rw [GetWeather_eq]
  split_ifs
  · exact ⟨[], by simp⟩
  · exact ⟨[], by simp⟩
  · exact ⟨_, by simp; rfl⟩
  · exact ⟨[], by simp⟩
  · exact ⟨[], by simp⟩

theorem GetWeather_saved (w : World F) (l : String) : (GetWeather w l).saved = w.saved := by
  rw [GetWeather_eq]
  split_ifs <;> simp

/-- An arrival keeps every group in the map, with its `Location` field. -/
theorem GetWeather_group_Location (w : World F) (l l2 : String) (g : AggregationGroup)
    (hg : w.group l2 = some g) :
    ∃ g2, (GetWeather w l).group l2 = some g2 ∧ g2.Location = g.Location := by
  rw [GetWeather_eq]
  by_cases h : l2 = l
  · subst h
    rw [groupOrNew_some w l2 g hg]
    split_ifs <;> simp
  · split_ifs <;> simp [h, hg]

theorem run_arrivals [Add F] [Div F] [OfNat F 2] (w : World F) (ls : List String) (i : Nat)
    (b : Batch) (l : String) (g : AggregationGroup)
    (hi : w.inflight[i]? = some b) (hg : w.group l = some g) :
    (run w (ls.map Event.arrive)).inflight[i]? = some b ∧
    (run w (ls.map Event.arrive)).saved = w.saved ∧
    ∃ g2, (run w (ls.map Event.arrive)).group l = some g2 ∧ g2.Location = g.Location := by
  induction ls generalizing w g with
  | nil => exact ⟨hi, rfl, g, hg, rfl⟩
  | cons l1 ls ih =>
    obtain ⟨extra, hex⟩ := GetWeather_inflight_grows w l1
    obtain ⟨g1, hg1, hL⟩ := GetWeather_group_Location w l1 l g hg
    have hi1 : (GetWeather w l1).inflight[i]? = some b := by
      rw [hex]
      have hlt : i < w.inflight.length := by
        by_contra hge
        rw [List.getElem?_eq_none (by omega)] at hi
        exact absurd hi (by simp)
      rw [List.getElem?_append_left hlt]
      exact hi
    obtain ⟨h1, h2, g2, h3, h4⟩ := ih (GetWeather w l1) g1 hi1 hg1
    refine ⟨h1, ?_, g2, h3, ?_⟩
    · show (run (GetWeather w l1) (ls.map Event.arrive)).saved = w.saved
      rw [h2, GetWeather_saved]
    · rw [h4, hL]

end Arrivals

/-- C8: the batch that `triggerLocked` returns for an idle group is the list of requests of
the group at that moment; `processAggregationGroupWithBatch`, run on that batch in any later
state of the service, saves on success one row whose `RequestCount` is the length of that
list; and on an event sequence, when a timer callback freezes the requests of a group and
any number of tickets arrive before the fan-out succeeds, the row saved at completion
carries the number of requests at the freeze. -/
theorem C8_request_count_frozen {F : Type} [Add F] [Div F] [OfNat F 2]
    (g0 : AggregationGroup) (hidle : g0.IsProcessing = false) (a b : F) :
    (triggerLocked g0).2.2 = true ∧
    (triggerLocked g0).2.1 = g0.Requests ∧
    (∀ (w : World F) (l : String) (g : AggregationGroup), w.group l = some g →
      (processAggregationGroupWithBatch w l (triggerLocked g0).2.1 (.ok a) (.ok b)).saved
        = w.saved ++ [{ Location := g.Location, Service1Temp := a, Service2Temp := b,
                        RequestCount := g0.Requests.length }]) ∧
    (∀ (w : World F) (l : String) (ls : List String), w.group l = some g0 →
      (step (run (step w (.timer l)) (ls.map Event.arrive))
          (.complete w.inflight.length (.ok a) (.ok b))).saved
        = w.saved ++ [{ Location := g0.Location, Service1Temp := a, Service2Temp := b,
                        RequestCount := g0.Requests.length }]) := by
  have ht := triggerLocked_idle g0 hidle
  refine ⟨by rw [ht], by rw [ht], ?_, ?_⟩
  · intro w l g hg
    rw [ht, processAggregationGroupWithBatch_eq, hg]
    simp [deliver_ok]
  · intro w l ls hg
    have h1 := step_timer_idle w l g0 hg hidle
    have hi : (step w (.timer l)).inflight[w.inflight.length]? = some (l, g0.Requests) := by
      rw [h1]; simp
    have hg1 : (step w (.timer l)).group l
        = some { g0 with Timer := none, IsProcessing := true, Requests := [] } := by
      rw [h1]; simp
    obtain ⟨h2, h3, g2, h4, h5⟩ := run_arrivals (step w (.timer l)) ls _ _ l _ hi hg1
    rw [step_complete_eq _ _ _ _ l g0.Requests g2 h2 h4, deliver_ok]
    simp only [saved_finish, saved_retire, h3, h5]
    rw [h1]
    rfl

/-- C8 at a concrete run: cap 10, two tickets wait, the timer freezes them, three more tickets
arrive during the flight; the saved row counts 2. -/
theorem C8_request_count_frozen_witness :
    (step (run (step (run (World.init Int 10 5) [.arrive "Ankara", .arrive "Ankara"])
            (.timer "Ankara")) (["Ankara", "Ankara", "Ankara"].map Event.arrive))
        (.complete 0 (.ok 20) (.ok 22))).saved
      = [⟨0, "Ankara", 20, 22, 2⟩] :=
  (C8_request_count_frozen
    ⟨"Ankara", [⟨"Ankara", 0, 0⟩, ⟨"Ankara", 1, 1⟩], some 0, 10, 5, false⟩ rfl
    (20 : Int) 22).2.2.2 (run (World.init Int 10 5) [.arrive "Ankara", .arrive "Ankara"])
    "Ankara" ["Ankara", "Ankara", "Ankara"] (by decide)

/-! ## C4: the size of a batch -/

/-- C4, as stated, fails: cap 2; two tickets are frozen by the size trigger, three more
arrive while that batch is in flight, the fan-out completes and the timer of the pending
tickets fires: the second batch has three tickets. -/
theorem C4_counterexample :
    (run (World.init Int 2 5)
        [.arrive "Paris", .arrive "Paris", .arrive "Paris", .arrive "Paris", .arrive "Paris",
         .complete 0 (.ok 20) (.ok 22), .timer "Paris"]).frozen
      = [("Paris", [⟨"Paris", 0, 0⟩, ⟨"Paris", 1, 1⟩]),
         ("Paris", [⟨"Paris", 2, 2⟩, ⟨"Paris", 3, 3⟩, ⟨"Paris", 4, 4⟩])] ∧
    ((run (World.init Int 2 5)
        [.arrive "Paris", .arrive "Paris", .arrive "Paris", .arrive "Paris", .arrive "Paris",
         .complete 0 (.ok 20) (.ok 22), .timer "Paris"]).group "Paris").map
        (fun g => g.MaxRequests) = some 2 ∧
    (run (World.init Int 2 5)
        [.arrive "Paris", .arrive "Paris", .arrive "Paris", .arrive "Paris", .arrive "Paris",
         .complete 0 (.ok 20) (.ok 22), .timer "Paris", .complete 0 (.ok 20) (.ok 22)]).saved
      = [⟨0, "Paris", 20, 22, 2⟩, ⟨0, "Paris", 20, 22, 3⟩] := by
  decide

section Cap
variable {F : Type}

@[simp] theorem maxRequests_setGroup (w : World F) (l : String) (g : AggregationGroup) :
    (w.setGroup l g).svc.maxRequests = w.svc.maxRequests := rfl

@[simp] theorem maxRequests_armTimer (w : World F) (l : String) (g : AggregationGroup) :
    (w.armTimer l g).svc.maxRequests = w.svc.maxRequests := rfl

@[simp] theorem maxRequests_dispatch (w : World F) (l : String) (b : List AggregationRequest) :
    (w.dispatch l b).svc.maxRequests = w.svc.maxRequests := rfl

@[simp] theorem maxRequests_ticketed (w : World F) (l : String) :
    (w.ticketed l).svc.maxRequests = w.svc.maxRequests := rfl

@[simp] theorem maxRequests_retire (w : World F) (i : Nat) :
    (w.retire i).svc.maxRequests = w.svc.maxRequests := rfl

@[simp] theorem maxRequests_deliver [Add F] [Div F] [OfNat F 2] (w : World F) (loc : String)
    (batch : List AggregationRequest) (r1 r2 : Except String F) :
    (w.deliver loc batch r1 r2).svc.maxRequests = w.svc.maxRequests := by
  unfold World.deliver
  rcases r1 with e1 | a <;> rcases r2 with e2 | b <;> simp [fetchWeatherData]

theorem groupOrNew_cap (m : Int) (hm : 1 ≤ m) (w : World F) (l : String) (h : CapInv m w) :
    (groupOrNew w l).MaxRequests = m ∧ ((groupOrNew w l).Requests.length : Int) ≤ m := by
  cases hg : w.group l with
  | none =>
    rw [groupOrNew_none w l hg]
    exact ⟨h.1, by simp; omega⟩
  | some g =>
    rw [groupOrNew_some w l g hg]
    exact h.2.1 l g hg

theorem CapInv_GetWeather (m : Int) (hm : 1 ≤ m) (w : World F) (l : String) (h : CapInv m w)
    (hq : ((groupOrNew w l).Requests.length : Int) < (groupOrNew w l).MaxRequests) :
    CapInv m (GetWeather w l) := by
  obtain ⟨hM, -⟩ := groupOrNew_cap m hm w l h
  rw [hM] at hq
  obtain ⟨h1, h2, h3⟩ := h
  rw [GetWeather_eq]
  split_ifs
  · refine ⟨by simpa using h1, ?_, by simpa using h3⟩
    intro l2 g2 hg2
    by_cases hl : l2 = l
    · subst hl
      simp at hg2
      subst hg2
      refine ⟨hM, ?_⟩
      simp
      omega
    · simp [hl] at hg2
      exact h2 l2 g2 hg2
  · refine ⟨by simpa using h1, ?_, by simpa using h3⟩
    intro l2 g2 hg2
    by_cases hl : l2 = l
    · subst hl
      simp at hg2
      subst hg2
      refine ⟨hM, ?_⟩
      simp
      omega
    · simp [hl] at hg2
      exact h2 l2 g2 hg2
  · refine ⟨by simpa using h1, ?_, ?_⟩
    · intro l2 g2 hg2
      by_cases hl : l2 = l
      · subst hl
        simp at hg2
        subst hg2
        exact ⟨hM, by simp; omega⟩
      · simp [hl] at hg2
        exact h2 l2 g2 hg2
    · intro b hb
      simp at hb
      rcases hb with hb | hb
      · exact h3 b hb
      · subst hb
        simp
        omega
  · refine ⟨by simpa using h1, ?_, by simpa using h3⟩
    intro l2 g2 hg2
    by_cases hl : l2 = l
    · subst hl
      simp at hg2
      subst hg2
      refine ⟨hM, ?_⟩
      simp
      omega
    · simp [hl] at hg2
      exact h2 l2 g2 hg2
  · refine ⟨by simpa using h1, ?_, by simpa using h3⟩
    intro l2 g2 hg2
    by_cases hl : l2 = l
    · subst hl
      simp at hg2
      subst hg2
      refine ⟨hM, ?_⟩
      simp
      omega
    · simp [hl] at hg2
      exact h2 l2 g2 hg2

end Cap

section Cap2
variable {F : Type} [Add F] [Div F] [OfNat F 2]

omit [Add F] [Div F] [OfNat F 2] in
theorem CapInv_timerCallback (m : Int) (hm : 1 ≤ m) (w : World F) (l : String)
    (h : CapInv m w) : CapInv m (timerCallback w l) := by
  obtain ⟨h1, h2, h3⟩ := h
  rw [timerCallback_eq]
  cases hg : w.group l with
  | none => exact ⟨h1, h2, h3⟩
  | some g =>
    obtain ⟨hM, hlen⟩ := h2 l g hg
    simp only []
    split_ifs with hp
    · refine ⟨by simpa using h1, ?_, by simpa using h3⟩
      intro l2 g2 hg2
      by_cases hl : l2 = l
      · subst hl
        simp at hg2
        subst hg2
        exact ⟨hM, hlen⟩
      · simp [hl] at hg2
        exact h2 l2 g2 hg2
    · refine ⟨by simpa using h1, ?_, ?_⟩
      · intro l2 g2 hg2
        by_cases hl : l2 = l
        · subst hl
          simp at hg2
          subst hg2
          exact ⟨hM, by simp; omega⟩
        · simp [hl] at hg2
          exact h2 l2 g2 hg2
      · intro b hb
        simp at hb
        rcases hb with hb | hb
        · exact h3 b hb
        · subst hb
          exact hlen

theorem CapInv_processAggregationGroupWithBatch (m : Int) (w : World F) (l : String)
    (batch : List AggregationRequest) (r1 r2 : Except String F) (h : CapInv m w) :
    CapInv m (processAggregationGroupWithBatch w l batch r1 r2) := by
  obtain ⟨h1, h2, h3⟩ := h
  rw [processAggregationGroupWithBatch_eq]
  cases hg : w.group l with
  | none => exact ⟨h1, h2, h3⟩
  | some g =>
    obtain ⟨hM, hlen⟩ := h2 l g hg
    simp only [finish_eq]
    split_ifs with hp
    · refine ⟨by simpa using h1, ?_, by simpa using h3⟩
      intro l2 g2 hg2
      by_cases hl : l2 = l
      · subst hl
        simp at hg2
        subst hg2
        exact ⟨hM, hlen⟩
      · simp [hl] at hg2
        exact h2 l2 g2 hg2
    · refine ⟨by simpa using h1, ?_, by simpa using h3⟩
      intro l2 g2 hg2
      by_cases hl : l2 = l
      · subst hl
        simp at hg2
        subst hg2
        exact ⟨hM, hlen⟩
      · simp [hl] at hg2
        exact h2 l2 g2 hg2

theorem CapInv_run (m : Int) (hm : 1 ≤ m) (w : World F) (es : List (Event F))
    (h : CapInv m w) (hq : roomyArrivals w es = true) : CapInv m (run w es) := by
  induction es generalizing w with
  | nil => exact h
  | cons e es ih =>
    cases e with
    | arrive l =>
      simp only [roomyArrivals, Bool.and_eq_true, decide_eq_true_eq] at hq
      exact ih (GetWeather w l) (CapInv_GetWeather m hm w l h hq.1) hq.2
    | timer l =>
      simp only [roomyArrivals] at hq
      exact ih (timerCallback w l) (CapInv_timerCallback m hm w l h) hq
    | complete i r1 r2 =>
      simp only [roomyArrivals] at hq
      refine ih (step w (.complete i r1 r2)) ?_ hq
      cases hi : w.inflight[i]? with
      | none => rw [step_complete_none w i r1 r2 hi]; exact h
      | some lb =>
        obtain ⟨l, batch⟩ := lb
        rw [step_complete_some w i r1 r2 l batch hi]
        exact CapInv_processAggregationGroupWithBatch m _ l batch r1 r2 h

end Cap2

/-! ## C2: the invariant of the tickets -/

section Counting

theorem countIn_append (bs : List Batch) (b : Batch) (t : AggregationRequest) :
    countIn (bs ++ [b]) t = countIn bs t + b.2.count t := by
  simp [countIn]

theorem countIn_eq_zero (bs : List Batch) (t : AggregationRequest)
    (h : ∀ b ∈ bs, t ∉ b.2) : countIn bs t = 0 := by
  induction bs with
  | nil => rfl
  | cons b bs ih =>
    have h1 : b.2.count t = 0 := List.count_eq_zero.mpr (h b (by simp))
    have h2 := ih (fun b2 hb2 => h b2 (by simp [hb2]))
    simp only [countIn, List.map_cons, List.sum_cons] at h2 ⊢
    omega

theorem countIn_eraseIdx (bs : List Batch) (i : Nat) (b : Batch) (t : AggregationRequest)
    (h : bs[i]? = some b) : countIn bs t = countIn (bs.eraseIdx i) t + b.2.count t := by
  induction bs generalizing i with
  | nil => simp at h
  | cons y ys ih =>
    cases i with
    | zero =>
      simp at h
      subst h
      simp [countIn]
      omega
    | succ j =>
      simp at h
      have := ih j h
      simp only [countIn, List.map_cons, List.sum_cons, List.eraseIdx_cons_succ] at this ⊢
      omega

theorem writes_append {α : Type} (log more : List (Nat × α)) (c : Nat) :
    writes (log ++ more) c = writes log c + writes more c := by
  simp [writes, List.filter_append]

theorem writes_eq_zero {α : Type} (log : List (Nat × α)) (c : Nat)
    (h : ∀ p ∈ log, p.1 ≠ c) : writes log c = 0 := by
  simp only [writes, List.length_eq_zero, List.filter_eq_nil_iff]
  intro p hp
  simpa using h p hp

/-- Writing one value per ticket of a batch, on a channel that identifies the ticket within
the batch, writes to the channel of `t` as many values as `t` occurs in the batch. -/
theorem writes_map {α : Type} (batch : List AggregationRequest) (f : AggregationRequest → Nat)
    (v : α) (t : AggregationRequest) (h : ∀ r ∈ batch, f r = f t → r = t) :
    writes (batch.map (fun r => (f r, v))) (f t) = batch.count t := by
  induction batch with
  | nil => rfl
  | cons r rs ih =>
    have ih2 := ih (fun r2 hr2 => h r2 (by simp [hr2]))
    simp only [writes, List.map_cons, List.filter_cons] at ih2 ⊢
    by_cases hr : r = t
    · subst hr
      simp [ih2]
    · have hne : ¬ f r = f t := fun hf => hr (h r (by simp) hf)
      simp [hne, hr, List.count_cons, ih2]

end Counting

section TicketSteps
variable {F : Type}

/-- A transition that touches neither tickets, batches nor logs keeps the bookkeeping. -/
theorem TicketInv_same (w w2 : World F) (h : TicketInv w)
    (hreq : ∀ l, w2.requestsAt l = w.requestsAt l) (hin : w2.inflight = w.inflight)
    (hfr : w2.frozen = w.frozen) (hcr : w2.created = w.created)
    (hch : w2.nextChan = w.nextChan) (hrl : w2.respLog = w.respLog)
    (hel : w2.errLog = w.errLog) : TicketInv w2 := by
  obtain ⟨h1, h2, h3, h4, h5, h6, h7, h8, h9⟩ := h
  constructor
  · rw [hcr, hch]; exact h1
  · rw [hcr]; exact h2
  · intro l; rw [hreq, hcr]; exact h3 l
  · rw [hin, hcr]; exact h4
  · rw [hfr, hcr]; exact h5
  · rw [hrl, hch]; exact h6
  · rw [hel, hch]; exact h7
  · rw [hcr]
    simpa only [World.pendingCount, World.runningCount, hreq, hin, hrl, hel] using h8
  · rw [hcr]
    simpa only [World.frozenCount, World.runningCount, hfr, hin, hrl, hel] using h9

/-- Appending the new ticket to the requests of its location keeps the bookkeeping. -/
theorem TicketInv_enqueue (w w2 : World F) (l : String) (h : TicketInv w)
    (hreq : ∀ l2, w2.requestsAt l2
      = if l2 = l then w.requestsAt l ++ [newRequest w l] else w.requestsAt l2)
    (hin : w2.inflight = w.inflight) (hfr : w2.frozen = w.frozen)
    (hcr : w2.created = w.created ++ [newRequest w l])
    (hch : w2.nextChan = w.nextChan + 1) (hrl : w2.respLog = w.respLog)
    (hel : w2.errLog = w.errLog) : TicketInv w2 := by
  obtain ⟨h1, h2, h3, h4, h5, h6, h7, h8, h9⟩ := h
  have hnew : ∀ t ∈ w.created, t ≠ newRequest w l := by
    intro t ht he
    have := (h1 t ht).1
    rw [he] at this
    simp [newRequest] at this
  have hnc : newRequest w l ∉ w.created := fun hm => hnew _ hm rfl
  have hp0 : ∀ l2, (w.requestsAt l2).count (newRequest w l) = 0 :=
    fun l2 => List.count_eq_zero.mpr (fun hm => hnc (h3 l2 _ hm).1)
  have hr0 : countIn w.inflight (newRequest w l) = 0 :=
    countIn_eq_zero _ _ (fun b hb hm => hnc (h4 b hb _ hm))
  have hf0 : countIn w.frozen (newRequest w l) = 0 :=
    countIn_eq_zero _ _ (fun b hb hm => hnc (h5 b hb _ hm))
  have hw0 : writes w.respLog w.nextChan = 0 :=
    writes_eq_zero _ _ (fun p hp => Nat.ne_of_lt (h6 p hp))
  have he0 : writes w.errLog w.nextChan = 0 :=
    writes_eq_zero _ _ (fun p hp => Nat.ne_of_lt (h7 p hp))
  have hpend : ∀ t ∈ w.created, w2.pendingCount t = w.pendingCount t := by
    intro t ht
    unfold World.pendingCount
    rw [hreq]
    split_ifs with hl
    · rw [hl, List.count_append, List.count_singleton]
      have : ¬ (newRequest w l == t) = true := by
        simpa using fun he => hnew t ht he.symm
      simp [this]
    · rfl
  constructor
  · intro t ht
    rw [hcr] at ht
    rw [hch]
    rcases List.mem_append.mp ht with ht | ht
    · exact ⟨Nat.lt_succ_of_lt (h1 t ht).1, (h1 t ht).2⟩
    · simp at ht
      subst ht
      simp [newRequest]
  · intro t ht t2 ht2 he
    rw [hcr] at ht ht2
    rcases List.mem_append.mp ht with ht | ht <;> rcases List.mem_append.mp ht2 with ht2 | ht2
    · exact h2 t ht t2 ht2 he
    · simp at ht2
      subst ht2
      have := (h1 t ht).1
      rw [he] at this
      simp [newRequest] at this
    · simp at ht
      subst ht
      have := (h1 t2 ht2).1
      rw [← he] at this
      simp [newRequest] at this
    · simp at ht ht2
      rw [ht, ht2]
  · intro l2 t ht
    rw [hreq] at ht
    rw [hcr]
    split_ifs at ht with hl
    · rcases List.mem_append.mp ht with ht | ht
      · exact ⟨List.mem_append_left _ (h3 l t ht).1, by rw [hl]; exact (h3 l t ht).2⟩
      · simp at ht
        subst ht
        exact ⟨by simp, by rw [hl]; rfl⟩
    · exact ⟨List.mem_append_left _ (h3 l2 t ht).1, (h3 l2 t ht).2⟩
  · intro b hb t ht
    rw [hin] at hb
    rw [hcr]
    exact List.mem_append_left _ (h4 b hb t ht)
  · intro b hb t ht
    rw [hfr] at hb
    rw [hcr]
    exact List.mem_append_left _ (h5 b hb t ht)
  · intro p hp
    rw [hrl] at hp
    rw [hch]
    exact Nat.lt_succ_of_lt (h6 p hp)
  · intro p hp
    rw [hel] at hp
    rw [hch]
    exact Nat.lt_succ_of_lt (h7 p hp)
  · intro t ht
    rw [hcr] at ht
    rcases List.mem_append.mp ht with ht | ht
    · rw [hpend t ht]
      simpa only [World.runningCount, hin, hrl, hel] using h8 t ht
    · simp at ht
      subst ht
      simp only [World.pendingCount, World.runningCount, hin, hrl, hel]
      rw [hreq]
      simp [newRequest] at hp0 hr0 hw0 he0 ⊢
      simp [hp0, hr0, hw0, he0]
  · intro t ht
    rw [hcr] at ht
    rcases List.mem_append.mp ht with ht | ht
    · simpa only [World.frozenCount, World.runningCount, hfr, hin, hrl, hel] using h9 t ht
    · simp at ht
      subst ht
      simp only [World.frozenCount, World.runningCount, hfr, hin, hrl, hel]
      simp [newRequest] at hf0 hr0 hw0 he0 ⊢
      simp [hf0, hr0, hw0, he0]

end TicketSteps

section TicketSteps2
variable {F : Type}

/-- Freezing the requests of a location into a new running batch keeps the bookkeeping. -/
theorem TicketInv_freeze (w w2 : World F) (l : String) (h : TicketInv w)
    (hreq : ∀ l2, w2.requestsAt l2 = if l2 = l then [] else w.requestsAt l2)
    (hin : w2.inflight = w.inflight ++ [(l, w.requestsAt l)])
    (hfr : w2.frozen = w.frozen ++ [(l, w.requestsAt l)])
    (hcr : w2.created = w.created) (hch : w2.nextChan = w.nextChan)
    (hrl : w2.respLog = w.respLog) (hel : w2.errLog = w.errLog) : TicketInv w2 := by
  obtain ⟨h1, h2, h3, h4, h5, h6, h7, h8, h9⟩ := h
  have hmove : ∀ t, w2.pendingCount t + (w.requestsAt l).count t = w.pendingCount t := by
    intro t
    unfold World.pendingCount
    rw [hreq]
    split_ifs with hl
    · rw [hl]; simp
    · have : (w.requestsAt l).count t = 0 :=
        List.count_eq_zero.mpr (fun hm => hl (h3 l t hm).2)
      omega
  constructor
  · rw [hcr, hch]; exact h1
  · rw [hcr]; exact h2
  · intro l2 t ht
    rw [hreq] at ht
    rw [hcr]
    split_ifs at ht with hl
    · simp at ht
    · exact h3 l2 t ht
  · intro b hb t ht
    rw [hin] at hb
    rw [hcr]
    rcases List.mem_append.mp hb with hb | hb
    · exact h4 b hb t ht
    · simp at hb
      subst hb
      exact (h3 l t ht).1
  · intro b hb t ht
    rw [hfr] at hb
    rw [hcr]
    rcases List.mem_append.mp hb with hb | hb
    · exact h5 b hb t ht
    · simp at hb
      subst hb
      exact (h3 l t ht).1
  · rw [hrl, hch]; exact h6
  · rw [hel, hch]; exact h7
  · intro t ht
    rw [hcr] at ht
    have := h8 t ht
    have hm := hmove t
    simp only [World.runningCount, hin, hrl, hel, countIn_append] at this ⊢
    omega
  · intro t ht
    rw [hcr] at ht
    have := h9 t ht
    simp only [World.frozenCount, World.runningCount, hin, hfr, hrl, hel, countIn_append]
      at this ⊢
    omega

/-- The completion of a running batch, writing one value per ticket either to the response
channels or to the error channels, keeps the bookkeeping. -/
theorem TicketInv_complete (w w2 : World F) (i : Nat) (l : String)
    (batch : List AggregationRequest) (h : TicketInv w)
    (hi : w.inflight[i]? = some (l, batch))
    (hreq : ∀ l2, w2.requestsAt l2 = w.requestsAt l2)
    (hin : w2.inflight = w.inflight.eraseIdx i) (hfr : w2.frozen = w.frozen)
    (hcr : w2.created = w.created) (hch : w2.nextChan = w.nextChan)
    (hlog : (∃ v, w2.respLog
          = w.respLog ++ batch.map (fun (r : AggregationRequest) => (r.Response, v))
          ∧ w2.errLog = w.errLog) ∨
        (∃ e, w2.errLog
          = w.errLog ++ batch.map (fun (r : AggregationRequest) => (r.Error, e))
          ∧ w2.respLog = w.respLog)) : TicketInv w2 := by
  obtain ⟨h1, h2, h3, h4, h5, h6, h7, h8, h9⟩ := h
  have hmem : (l, batch) ∈ w.inflight := List.getElem?_mem hi
  have hbc : ∀ r ∈ batch, r ∈ w.created := fun r hr => h4 _ hmem r hr
  have hrun : ∀ t, w.runningCount t = w2.runningCount t + batch.count t := by
    intro t
    unfold World.runningCount
    rw [hin]
    exact countIn_eraseIdx _ i (l, batch) t hi
  have hwr : ∀ t ∈ w.created,
      writes w2.respLog t.Response + writes w2.errLog t.Error
        = writes w.respLog t.Response + writes w.errLog t.Error + batch.count t := by
    intro t ht
    rcases hlog with ⟨v, hr, he⟩ | ⟨e, he, hr⟩
    · rw [hr, he, writes_append,
        writes_map batch (fun r => r.Response) v t
          (fun r hr2 heq => h2 r (hbc r hr2) t ht heq)]
      omega
    · rw [hr, he, writes_append,
        writes_map batch (fun r => r.Error) e t
          (fun r hr2 heq => h2 r (hbc r hr2) t ht
            (by
              have e1 := (h1 r (hbc r hr2)).2
              have e2 := (h1 t ht).2
              simp only [] at heq
              omega))]
      omega
  constructor
  · rw [hcr, hch]; exact h1
  · rw [hcr]; exact h2
  · intro l2; rw [hreq, hcr]; exact h3 l2
  · intro b hb t ht
    rw [hin] at hb
    rw [hcr]
    exact h4 b (List.mem_of_mem_eraseIdx hb) t ht
  · rw [hfr, hcr]; exact h5
  · intro p hp
    rw [hch]
    rcases hlog with ⟨v, hr, he⟩ | ⟨e, he, hr⟩
    · rw [hr] at hp
      rcases List.mem_append.mp hp with hp | hp
      · exact h6 p hp
      · obtain ⟨r, hr2, rfl⟩ := List.mem_map.mp hp
        exact (h1 r (hbc r hr2)).1
    · rw [hr] at hp
      exact h6 p hp
  · intro p hp
    rw [hch]
    rcases hlog with ⟨v, hr, he⟩ | ⟨e, he, hr⟩
    · rw [he] at hp
      exact h7 p hp
    · rw [he] at hp
      rcases List.mem_append.mp hp with hp | hp
      · exact h7 p hp
      · obtain ⟨r, hr2, rfl⟩ := List.mem_map.mp hp
        have := h1 r (hbc r hr2)
        simp only []
        omega
  · intro t ht
    rw [hcr] at ht
    have := h8 t ht
    have h10 := hwr t ht
    have h11 := hrun t
    have h12 : w2.pendingCount t = w.pendingCount t := by
      unfold World.pendingCount; rw [hreq]
    omega
  · intro t ht
    rw [hcr] at ht
    have := h9 t ht
    have h10 := hwr t ht
    have h11 := hrun t
    have h12 : w2.frozenCount t = w.frozenCount t := by
      unfold World.frozenCount; rw [hfr]
    omega

end TicketSteps2

section TicketEvents
variable {F : Type}

@[simp] theorem requestsAt_setGroup (w : World F) (l l2 : String) (g : AggregationGroup) :
    (w.setGroup l g).requestsAt l2 = if l2 = l then g.Requests else w.requestsAt l2 := by
  unfold World.requestsAt
  rw [group_setGroup]
  split_ifs <;> rfl

@[simp] theorem requestsAt_armTimer (w : World F) (l l2 : String) (g : AggregationGroup) :
    (w.armTimer l g).requestsAt l2 = if l2 = l then g.Requests else w.requestsAt l2 := by
  unfold World.requestsAt
  rw [group_armTimer]
  split_ifs <;> rfl

@[simp] theorem requestsAt_dispatch (w : World F) (l l2 : String)
    (b : List AggregationRequest) : (w.dispatch l b).requestsAt l2 = w.requestsAt l2 := rfl

@[simp] theorem requestsAt_ticketed (w : World F) (l l2 : String) :
    (w.ticketed l).requestsAt l2 = w.requestsAt l2 := rfl

@[simp] theorem requestsAt_retire (w : World F) (i : Nat) (l2 : String) :
    (w.retire i).requestsAt l2 = w.requestsAt l2 := rfl

@[simp] theorem requestsAt_deliver [Add F] [Div F] [OfNat F 2] (w : World F) (loc l2 : String)
    (batch : List AggregationRequest) (r1 r2 : Except String F) :
    (w.deliver loc batch r1 r2).requestsAt l2 = w.requestsAt l2 := by
  unfold World.requestsAt
  rw [group_deliver]

theorem requestsAt_finish (w : World F) (l l2 : String) (g : AggregationGroup) :
    (w.finish l g).requestsAt l2 = if l2 = l then g.Requests else w.requestsAt l2 := by
  rw [finish_eq]
  split_ifs <;> simp_all

theorem groupOrNew_Requests (w : World F) (l : String) :
    (groupOrNew w l).Requests = w.requestsAt l := by
  unfold World.requestsAt
  cases hg : w.group l with
  | none => rw [groupOrNew_none w l hg]
  | some g => rw [groupOrNew_some w l g hg]

theorem requestsAt_of_group (w : World F) (l : String) (g : AggregationGroup)
    (hg : w.group l = some g) : w.requestsAt l = g.Requests := by
  unfold World.requestsAt
  rw [hg]

theorem TicketInv_GetWeather (w : World F) (l : String) (h : TicketInv w) :
    TicketInv (GetWeather w l) := by
  have hR := groupOrNew_Requests w l
  rw [GetWeather_eq]
  split_ifs
  · exact TicketInv_enqueue w _ l h (by intro l2; simp [hR]) rfl rfl rfl rfl rfl rfl
  · exact TicketInv_enqueue w _ l h (by intro l2; simp [hR]) rfl rfl rfl rfl rfl rfl
  · have h1 : TicketInv ((w.ticketed l).setGroup l
        { groupOrNew w l with Requests := (groupOrNew w l).Requests ++ [newRequest w l] }) :=
      TicketInv_enqueue w _ l h (by intro l2; simp [hR]) rfl rfl rfl rfl rfl rfl
    refine TicketInv_freeze _ _ l h1 ?_ ?_ ?_ rfl rfl rfl rfl
    · intro l2
      by_cases hl : l2 = l <;> simp [hl]
    · simp
    · simp
  · exact TicketInv_enqueue w _ l h (by intro l2; simp [hR]) rfl rfl rfl rfl rfl rfl
  · exact TicketInv_enqueue w _ l h (by intro l2; simp [hR]) rfl rfl rfl rfl rfl rfl

theorem TicketInv_timerCallback (w : World F) (l : String) (h : TicketInv w) :
    TicketInv (timerCallback w l) := by
  rw [timerCallback_eq]
  cases hg : w.group l with
  | none => exact h
  | some g =>
    have hR := requestsAt_of_group w l g hg
    simp only []
    split_ifs
    · refine TicketInv_same w _ h ?_ rfl rfl rfl rfl rfl rfl
      intro l2
      by_cases hl : l2 = l
      · subst hl; simp [hR]
      · simp [hl]
    · refine TicketInv_freeze w _ l h ?_ ?_ ?_ rfl rfl rfl rfl
      · intro l2
        by_cases hl : l2 = l <;> simp [hl]
      · simp [hR]
      · simp [hR]

theorem TicketInv_step [Add F] [Div F] [OfNat F 2] (w : World F) (e : Event F)
    (hf : InFlightInv w) (h : TicketInv w) : TicketInv (step w e) := by
  cases e with
  | arrive l => exact TicketInv_GetWeather w l h
  | timer l => exact TicketInv_timerCallback w l h
  | complete i r1 r2 =>
    cases hi : w.inflight[i]? with
    | none => rw [step_complete_none w i r1 r2 hi]; exact h
    | some lb =>
      obtain ⟨l, batch⟩ := lb
      cases hg : w.group l with
      | none =>
        have h1 := hf l
        rw [inflightCount_retire w i l l batch hi, hg] at h1
        simp at h1
      | some g =>
        have hR := requestsAt_of_group w l g hg
        rw [step_complete_eq w i r1 r2 l batch g hi hg]
        refine TicketInv_complete w _ i l batch h hi ?_ ?_ ?_ ?_ ?_ ?_
        · intro l2
          rw [requestsAt_finish]
          by_cases hl : l2 = l
          · subst hl; simp [hR]
          · simp [hl]
        · rw [finish_eq]; split_ifs <;> simp
        · rw [finish_eq]; split_ifs <;> simp
        · rw [finish_eq]; split_ifs <;> simp
        · rw [finish_eq]; split_ifs <;> simp
        · rcases r1 with e1 | a
          · right
            exact ⟨"WeatherAPI.com hatası: " ++ e1,
              by rw [deliver_error1]; simp, by rw [deliver_error1]; simp⟩
          · rcases r2 with e2 | b
            · right
              exact ⟨"WeatherStack.com hatası: " ++ e2,
                by rw [deliver_error2]; simp, by rw [deliver_error2]; simp⟩
            · left
              exact ⟨WeatherResponse.mk g.Location ((a + b) / 2),
                by rw [deliver_ok]; simp, by rw [deliver_ok]; simp⟩

theorem TicketInv_init (m : Int) (wt : Nat) : TicketInv (World.init F m wt) := by
  constructor <;> simp [World.init, World.requestsAt, World.group, NewWeatherService]

theorem TicketInv_run [Add F] [Div F] [OfNat F 2] (w : World F) (es : List (Event F))
    (hf : InFlightInv w) (h : TicketInv w) : TicketInv (run w es) := by
  induction es generalizing w with
  | nil => exact h
  | cons e es ih => exact ih (step w e) (InFlightInv_step w e hf) (TicketInv_step w e hf h)

end TicketEvents

/-! ## C11: one saved row per successful batch -/

/-- C11: `fetchWeatherData` submits exactly one `WeatherQuery` with the location, the two
readings and the request count when both upstream calls succeed, and submits nothing when
either fails; hence the completion of a running batch appends exactly that one row to the
saved rows on success and leaves them unchanged on failure. -/
theorem C11_one_row_per_success {F : Type} [Add F] [Div F] [OfNat F 2]
    (db : List (WeatherQuery F)) (location : String) (requestCount : Int) :
    (∀ a b : F, (fetchWeatherData db location requestCount (.ok a) (.ok b)).2
      = db ++ [{ Location := location, Service1Temp := a, Service2Temp := b,
                 RequestCount := requestCount }]) ∧
    (∀ (e1 : String) (r2 : Except String F),
      (fetchWeatherData db location requestCount (.error e1) r2).2 = db) ∧
    (∀ (a : F) (e2 : String),
      (fetchWeatherData db location requestCount (.ok a) (.error e2)).2 = db) ∧
    (∀ (w : World F) (i : Nat) (l : String) (batch : List AggregationRequest)
      (g : AggregationGroup), w.inflight[i]? = some (l, batch) → w.group l = some g →
      (∀ a b : F, (step w (.complete i (.ok a) (.ok b))).saved
        = w.saved ++ [{ Location := g.Location, Service1Temp := a, Service2Temp := b,
                        RequestCount := batch.length }]) ∧
      (∀ (e1 : String) (r2 : Except String F),
        (step w (.complete i (.error e1) r2)).saved = w.saved) ∧
      (∀ (a : F) (e2 : String),
        (step w (.complete i (.ok a) (.error e2))).saved = w.saved)) := by
  refine ⟨fun a b => rfl, fun e1 r2 => rfl, fun a e2 => rfl, ?_⟩
  intro w i l batch g hi hg
  refine ⟨?_, ?_, ?_⟩
  · intro a b
    rw [step_complete_eq w i _ _ l batch g hi hg, deliver_ok]
    simp
  · intro e1 r2
    rw [step_complete_eq w i _ _ l batch g hi hg, deliver_error1]
    simp
  · intro a e2
    rw [step_complete_eq w i _ _ l batch g hi hg, deliver_error2]
    simp

/-- C11 at a concrete run: a batch of three tickets frozen by the timer; success saves one
row with count 3, a failure of the first provider saves nothing. -/
theorem C11_one_row_per_success_witness :
    (step (run (World.init Int 10 5)
        [.arrive "Ankara", .arrive "Ankara", .arrive "Ankara", .timer "Ankara"])
        (.complete 0 (.ok 20) (.ok 22))).saved = [⟨0, "Ankara", 20, 22, 3⟩] ∧
    (step (run (World.init Int 10 5)
        [.arrive "Ankara", .arrive "Ankara", .arrive "Ankara", .timer "Ankara"])
        (.complete 0 (.error "timeout") (.ok 22))).saved = [] :=
  have h := (C11_one_row_per_success ([] : List (WeatherQuery Int)) "Ankara" 3).2.2.2
    (run (World.init Int 10 5)
      [.arrive "Ankara", .arrive "Ankara", .arrive "Ankara", .timer "Ankara"]) 0 "Ankara"
    [⟨"Ankara", 0, 0⟩, ⟨"Ankara", 1, 1⟩, ⟨"Ankara", 2, 2⟩]
    ⟨"Ankara", [], none, 10, 5, true⟩ (by decide) (by decide)
  ⟨h.1 20 22, h.2.1 "timeout" (.ok 22)⟩

/-! ## Locations of groups, tickets and batches -/

section Loc
variable {F : Type}

theorem groupOrNew_Location (w : World F) (l : String) (h : LocInv w) :
    (groupOrNew w l).Location = l := by
  cases hg : w.group l with
  | none => rw [groupOrNew_none w l hg]
  | some g => rw [groupOrNew_some w l g hg]; exact h.1 l g hg

theorem LocInv_GetWeather (w : World F) (l : String) (h : LocInv w) :
    LocInv (GetWeather w l) := by
  have hL := groupOrNew_Location w l h
  have hR := groupOrNew_Requests w l
  obtain ⟨h1, h2, h3⟩ := h
  have hreq : ∀ t ∈ (groupOrNew w l).Requests ++ [newRequest w l], t.Location = l := by
    intro t ht
    rcases List.mem_append.mp ht with ht | ht
    · rw [hR] at ht; exact h2 l t ht
    · simp at ht; subst ht; rfl
  rw [GetWeather_eq]
  split_ifs
  all_goals
    refine ⟨?_, ?_, ?_⟩
    · intro l2 g2 hg2
      by_cases hl : l2 = l
      · subst hl
        simp at hg2
        subst hg2
        exact hL
      · simp [hl] at hg2
        exact h1 l2 g2 hg2
    · intro l2 t ht
      by_cases hl : l2 = l
      · subst hl
        first
          | (simp at ht; exact hreq t (by simpa using ht))
          | simp at ht
      · simp [hl] at ht
        exact h2 l2 t ht
    · intro b hb t ht
      simp at hb
      first
        | exact h3 b hb t ht
        | (rcases hb with hb | hb
           · exact h3 b hb t ht
           · subst hb; exact hreq t ht)

end Loc

section Loc2
variable {F : Type}

theorem LocInv_timerCallback (w : World F) (l : String) (h : LocInv w) :
    LocInv (timerCallback w l) := by
  obtain ⟨h1, h2, h3⟩ := h
  rw [timerCallback_eq]
  cases hg : w.group l with
  | none => exact ⟨h1, h2, h3⟩
  | some g =>
    have hL := h1 l g hg
    have hR := requestsAt_of_group w l g hg
    simp only []
    split_ifs
    all_goals
      refine ⟨?_, ?_, ?_⟩
      · intro l2 g2 hg2
        by_cases hl : l2 = l
        · subst hl
          simp at hg2
          subst hg2
          exact hL
        · simp [hl] at hg2
          exact h1 l2 g2 hg2
      · intro l2 t ht
        by_cases hl : l2 = l
        · subst hl
          first
            | (simp at ht; exact h2 l2 t (by rw [hR]; exact ht))
            | simp at ht
        · simp [hl] at ht
          exact h2 l2 t ht
      · intro b hb t ht
        simp at hb
        first
          | exact h3 b hb t ht
          | (rcases hb with hb | hb
             · exact h3 b hb t ht
             · subst hb; exact h2 l t (by rw [hR]; exact ht))

theorem LocInv_step [Add F] [Div F] [OfNat F 2] (w : World F) (e : Event F) (h : LocInv w) :
    LocInv (step w e) := by
  cases e with
  | arrive l => exact LocInv_GetWeather w l h
  | timer l => exact LocInv_timerCallback w l h
  | complete i r1 r2 =>
    cases hi : w.inflight[i]? with
    | none => rw [step_complete_none w i r1 r2 hi]; exact h
    | some lb =>
      obtain ⟨l, batch⟩ := lb
      obtain ⟨h1, h2, h3⟩ := h
      rw [step_complete_some w i r1 r2 l batch hi, processAggregationGroupWithBatch_eq,
        group_retire]
      cases hg : w.group l with
      | none =>
        refine ⟨h1, h2, ?_⟩
        intro b hb t ht
        exact h3 b (List.mem_of_mem_eraseIdx hb) t ht
      | some g =>
        have hL := h1 l g hg
        have hR := requestsAt_of_group w l g hg
        simp only []
        refine ⟨?_, ?_, ?_⟩
        · intro l2 g2 hg2
          rw [finish_eq] at hg2
          by_cases hl : l2 = l
          · subst hl
            split_ifs at hg2 <;> simp at hg2 <;> subst hg2 <;> exact hL
          · split_ifs at hg2 <;> simp [hl] at hg2 <;> exact h1 l2 g2 hg2
        · intro l2 t ht
          rw [requestsAt_finish] at ht
          by_cases hl : l2 = l
          · subst hl
            simp at ht
            exact h2 l2 t (by rw [hR]; exact ht)
          · simp [hl] at ht
            exact h2 l2 t ht
        · intro b hb t ht
          have hb2 : b ∈ w.inflight.eraseIdx i := by
            rw [finish_eq] at hb
            split_ifs at hb <;> simpa using hb
          exact h3 b (List.mem_of_mem_eraseIdx hb2) t ht

theorem LocInv_init (m : Int) (wt : Nat) : LocInv (World.init F m wt) := by
  refine ⟨?_, ?_, ?_⟩ <;> simp [World.init, World.requestsAt, World.group, NewWeatherService]

theorem LocInv_run [Add F] [Div F] [OfNat F 2] (w : World F) (es : List (Event F))
    (h : LocInv w) : LocInv (run w es) := by
  induction es generalizing w with
  | nil => exact h
  | cons e es ih => exact ih (step w e) (LocInv_step w e h)

end Loc2

/-! ## What a completion writes, and to whom -/

section Writes
variable {F : Type}

theorem count_le_countIn (bs : List Batch) (b : Batch) (t : AggregationRequest)
    (hb : b ∈ bs) : b.2.count t ≤ countIn bs t := by
  induction bs with
  | nil => simp at hb
  | cons y ys ih =>
    simp only [countIn, List.map_cons, List.sum_cons] at ih ⊢
    rcases List.mem_cons.mp hb with hb | hb
    · subst hb; omega
    · have := ih hb; omega

/-- A ticket that waits in a group is in no running batch. -/
theorem not_mem_inflight_of_pending (w : World F) (h : TicketInv w) (l : String)
    (t : AggregationRequest) (ht : t ∈ w.requestsAt l) (b : Batch) (hb : b ∈ w.inflight) :
    t ∉ b.2 := by
  obtain ⟨hc, hl⟩ := h.pend l t ht
  have h8 := h.once t hc
  have hp : 0 < w.pendingCount t := by
    unfold World.pendingCount
    rw [hl]
    exact List.count_pos_iff.mpr ht
  have hle := count_le_countIn w.inflight b t hb
  unfold World.runningCount at h8
  intro hm
  have := List.count_pos_iff.mpr hm
  omega

/-- The logs after the completion of a running batch: one value per ticket of the batch,
all on the response channels or all on the error channels. -/
theorem step_complete_logs [Add F] [Div F] [OfNat F 2] (w : World F) (i : Nat)
    (r1 r2 : Except String F) (l : String) (batch : List AggregationRequest)
    (g : AggregationGroup) (hi : w.inflight[i]? = some (l, batch)) (hg : w.group l = some g) :
    (∃ v, (step w (.complete i r1 r2)).respLog
          = w.respLog ++ batch.map (fun (r : AggregationRequest) => (r.Response, v))
        ∧ (step w (.complete i r1 r2)).errLog = w.errLog) ∨
    (∃ e, (step w (.complete i r1 r2)).errLog
          = w.errLog ++ batch.map (fun (r : AggregationRequest) => (r.Error, e))
        ∧ (step w (.complete i r1 r2)).respLog = w.respLog) := by
  rw [step_complete_eq w i r1 r2 l batch g hi hg]
  rcases r1 with e1 | a
  · right
    exact ⟨"WeatherAPI.com hatası: " ++ e1,
      by rw [deliver_error1]; simp, by rw [deliver_error1]; simp⟩
  · rcases r2 with e2 | b
    · right
      exact ⟨"WeatherStack.com hatası: " ++ e2,
        by rw [deliver_error2]; simp, by rw [deliver_error2]; simp⟩
    · left
      exact ⟨WeatherResponse.mk g.Location ((a + b) / 2),
        by rw [deliver_ok]; simp, by rw [deliver_ok]; simp⟩

/-- The completion of a batch writes nothing to the channels of a ticket outside it. -/
theorem writes_step_complete_of_not_mem [Add F] [Div F] [OfNat F 2] (w : World F)
    (h : TicketInv w) (i : Nat) (r1 r2 : Except String F) (l : String)
    (batch : List AggregationRequest) (g : AggregationGroup)
    (hi : w.inflight[i]? = some (l, batch)) (hg : w.group l = some g)
    (t : AggregationRequest) (hc : t ∈ w.created) (hn : t ∉ batch) :
    writes (step w (.complete i r1 r2)).respLog t.Response = writes w.respLog t.Response ∧
    writes (step w (.complete i r1 r2)).errLog t.Error = writes w.errLog t.Error := by
  have hmem : (l, batch) ∈ w.inflight := List.getElem?_mem hi
  have hbc : ∀ r ∈ batch, r ∈ w.created := fun r hr => h.runn _ hmem r hr
  have h0 : batch.count t = 0 := List.count_eq_zero.mpr hn
  rcases step_complete_logs w i r1 r2 l batch g hi hg with ⟨v, hr, he⟩ | ⟨e, he, hr⟩
  · rw [hr, he, writes_append,
      writes_map batch (fun r => r.Response) v t
        (fun r hr2 heq => h.inj r (hbc r hr2) t hc heq), h0]
    simp
  · rw [hr, he, writes_append,
      writes_map batch (fun r => r.Error) e t
        (fun r hr2 heq => h.inj r (hbc r hr2) t hc
          (by
            have e1 := (h.fresh r (hbc r hr2)).2
            have e2 := (h.fresh t hc).2
            simp only [] at heq
            omega)), h0]
    simp

end Writes

/-! ## C12: isolation across locations -/

section Frame2
variable {F : Type}

theorem group_GetWeather_of_ne (w : World F) (l1 l2 : String) (hne : l1 ≠ l2) :
    (GetWeather w l1).group l2 = w.group l2 := by
  have h : ¬ l2 = l1 := fun e => hne e.symm
  rw [GetWeather_eq]
  split_ifs <;> simp [h]

theorem group_timerCallback_of_ne (w : World F) (l1 l2 : String) (hne : l1 ≠ l2) :
    (timerCallback w l1).group l2 = w.group l2 := by
  have h : ¬ l2 = l1 := fun e => hne e.symm
  rw [timerCallback_eq]
  cases w.group l1 with
  | none => rfl
  | some g =>
    simp only []
    split_ifs <;> simp [h]

theorem group_complete_of_ne [Add F] [Div F] [OfNat F 2] (w : World F) (l1 l2 : String)
    (hne : l1 ≠ l2) (i : Nat) (batch : List AggregationRequest) (r1 r2 : Except String F)
    (hi : w.inflight[i]? = some (l1, batch)) :
    (step w (.complete i r1 r2)).group l2 = w.group l2 := by
  have h : ¬ l2 = l1 := fun e => hne e.symm
  rw [step_complete_some w i r1 r2 l1 batch hi, processAggregationGroupWithBatch_eq,
    group_retire]
  cases w.group l1 with
  | none => rfl
  | some g =>
    simp only [finish_eq]
    split_ifs <;> simp [h]

end Frame2

/-- C12: for two distinct locations, `getOrCreateAggregationGroup` for the first leaves the
map entry of the second as it is, and every step taken for the first (an arrival, a timer
callback, the completion of one of its batches with any upstream results) leaves the group
of the second unchanged; and in every state reached from the empty service, the completion
of a batch of the first location writes nothing to the channels of a ticket of the second
location, whether it waits there or is in a running batch of the second location. -/
theorem C12_isolation {F : Type} [Add F] [Div F] [OfNat F 2] (l1 l2 : String)
    (hne : l1 ≠ l2) :
    (∀ s : WeatherService,
      (getOrCreateAggregationGroup s l1).1.aggregationMap l2 = s.aggregationMap l2) ∧
    (∀ w : World F,
      (step w (.arrive l1)).group l2 = w.group l2 ∧
      (step w (.timer l1)).group l2 = w.group l2 ∧
      (∀ (i : Nat) (batch : List AggregationRequest) (r1 r2 : Except String F),
        w.inflight[i]? = some (l1, batch) →
        (step w (.complete i r1 r2)).group l2 = w.group l2)) ∧
    (∀ (m : Int) (wt : Nat) (es : List (Event F)) (i : Nat)
      (batch : List AggregationRequest) (r1 r2 : Except String F) (t : AggregationRequest),
      (run (World.init F m wt) es).inflight[i]? = some (l1, batch) →
      (t ∈ (run (World.init F m wt) es).requestsAt l2 ∨
        ∃ b2, (l2, b2) ∈ (run (World.init F m wt) es).inflight ∧ t ∈ b2) →
      writes (step (run (World.init F m wt) es) (.complete i r1 r2)).respLog t.Response
        = writes (run (World.init F m wt) es).respLog t.Response ∧
      writes (step (run (World.init F m wt) es) (.complete i r1 r2)).errLog t.Error
        = writes (run (World.init F m wt) es).errLog t.Error) := by
  have h21 : ¬ l2 = l1 := fun e => hne e.symm
  refine ⟨?_, ?_, ?_⟩
  · intro s
    unfold getOrCreateAggregationGroup
    cases s.aggregationMap l1 with
    | none => simp [Function.update_apply, h21]
    | some g => rfl
  · intro w
    exact ⟨group_GetWeather_of_ne w l1 l2 hne, group_timerCallback_of_ne w l1 l2 hne,
      fun i batch r1 r2 hi => group_complete_of_ne w l1 l2 hne i batch r1 r2 hi⟩
  · intro m wt es i batch r1 r2 t hi ht
    have hT := TicketInv_run (World.init F m wt) es (InFlightInv_init m wt)
      (TicketInv_init m wt)
    have hF := InFlightInv_run (World.init F m wt) es (InFlightInv_init m wt)
    have hL := LocInv_run (World.init F m wt) es (LocInv_init m wt)
    have hmem := List.getElem?_mem hi
    have hloc : t.Location = l2 := by
      rcases ht with ht | ⟨b2, hb2, ht⟩
      · exact hL.2.1 l2 t ht
      · exact hL.2.2 _ hb2 t ht
    have hc : t ∈ (run (World.init F m wt) es).created := by
      rcases ht with ht | ⟨b2, hb2, ht⟩
      · exact (hT.pend l2 t ht).1
      · exact hT.runn _ hb2 t ht
    have hn : t ∉ batch := by
      intro hm
      have := hL.2.2 _ hmem t hm
      simp only [] at this
      exact hne (this.symm.trans hloc)
    cases hg : (run (World.init F m wt) es).group l1 with
    | none =>
      have h1 := hF l1
      rw [inflightCount_retire _ i l1 l1 batch hi, hg] at h1
      simp at h1
    | some g =>
      exact writes_step_complete_of_not_mem _ hT i r1 r2 l1 batch g hi hg t hc hn

/-- C12 at a concrete run: Istanbul has a batch of two in flight, Ankara a ticket waiting; the
failure of the Istanbul batch leaves the Ankara group as it was and writes nothing to the
Ankara ticket. -/
theorem C12_isolation_witness :
    (step (run (World.init Int 2 5) [.arrive "Istanbul", .arrive "Ankara", .arrive "Istanbul"])
        (.complete 0 (.error "timeout") (.ok 22))).group "Ankara"
      = some ⟨"Ankara", [⟨"Ankara", 1, 1⟩], some 1, 2, 5, false⟩ ∧
    writes (step (run (World.init Int 2 5)
        [.arrive "Istanbul", .arrive "Ankara", .arrive "Istanbul"])
        (.complete 0 (.error "timeout") (.ok 22))).errLog 1 = 0 :=
  have h := C12_isolation (F := Int) "Istanbul" "Ankara" (by decide)
  ⟨(h.2.1 (run (World.init Int 2 5)
        [.arrive "Istanbul", .arrive "Ankara", .arrive "Istanbul"])).2.2 0
      [⟨"Istanbul", 0, 0⟩, ⟨"Istanbul", 2, 2⟩] (.error "timeout") (.ok 22) (by decide),
    (h.2.2 2 5 [.arrive "Istanbul", .arrive "Ankara", .arrive "Istanbul"] 0
      [⟨"Istanbul", 0, 0⟩, ⟨"Istanbul", 2, 2⟩] (.error "timeout") (.ok 22) ⟨"Ankara", 1, 1⟩
      (by decide) (Or.inl (by decide))).2⟩

/-! ## C13: tickets that arrive after a freeze -/

section AfterFreeze
variable {F : Type}

/-- A completion changes the waiting requests of no location. -/
theorem requestsAt_step_complete [Add F] [Div F] [OfNat F 2] (w : World F) (i : Nat)
    (r1 r2 : Except String F) (l2 : String) :
    (step w (.complete i r1 r2)).requestsAt l2 = w.requestsAt l2 := by
  cases hi : w.inflight[i]? with
  | none => rw [step_complete_none w i r1 r2 hi]
  | some lb =>
    obtain ⟨l, batch⟩ := lb
    rw [step_complete_some w i r1 r2 l batch hi, processAggregationGroupWithBatch_eq,
      group_retire]
    cases hg : w.group l with
    | none => rfl
    | some g =>
      simp only []
      rw [requestsAt_finish]
      by_cases hl : l2 = l
      · subst hl
        simp [requestsAt_of_group w l2 g hg]
      · simp [hl]

/-- The arrival at a processing group: the ticket is appended, a timer is set if none was,
and nothing is started or frozen. -/
theorem GetWeather_of_processing (w : World F) (l : String) (g : AggregationGroup)
    (hg : w.group l = some g) (hp : g.IsProcessing = true) :
    (GetWeather w l).group l
      = some { g with Requests := g.Requests ++ [newRequest w l],
                      Timer := some (g.Timer.getD w.nextTimer) } ∧
    (GetWeather w l).inflight = w.inflight ∧
    (GetWeather w l).frozen = w.frozen ∧
    (GetWeather w l).respLog = w.respLog ∧
    (GetWeather w l).errLog = w.errLog := by
  rw [GetWeather_eq, groupOrNew_some w l g hg]
  simp only [hp, if_true]
  cases hT : g.Timer with
  | none => simp [hT]
  | some t => simp [hT]

/-- A ticket that waits has received nothing, and the completion of any running batch
writes nothing to its channels. -/
theorem pending_receives_nothing [Add F] [Div F] [OfNat F 2] (w : World F)
    (hT : TicketInv w) (hF : InFlightInv w) (l : String) (t : AggregationRequest)
    (ht : t ∈ w.requestsAt l) (i : Nat) (r1 r2 : Except String F) :
    writes w.respLog t.Response = 0 ∧ writes w.errLog t.Error = 0 ∧
    w.frozenCount t = 0 ∧
    writes (step w (.complete i r1 r2)).respLog t.Response = 0 ∧
    writes (step w (.complete i r1 r2)).errLog t.Error = 0 := by
  obtain ⟨hc, hl⟩ := hT.pend l t ht
  have h8 := hT.once t hc
  have h9 := hT.froz t hc
  have hp : 0 < w.pendingCount t := by
    unfold World.pendingCount
    rw [hl]
    exact List.count_pos_iff.mpr ht
  have hw1 : writes w.respLog t.Response = 0 := by omega
  have hw2 : writes w.errLog t.Error = 0 := by omega
  refine ⟨hw1, hw2, by omega, ?_⟩
  cases hi : w.inflight[i]? with
  | none => rw [step_complete_none w i r1 r2 hi]; exact ⟨hw1, hw2⟩
  | some lb =>
    obtain ⟨l1, batch⟩ := lb
    cases hg : w.group l1 with
    | none =>
      have h1 := hF l1
      rw [inflightCount_retire _ i l1 l1 batch hi, hg] at h1
      simp at h1
    | some g =>
      have hn := not_mem_inflight_of_pending w hT l t ht _ (List.getElem?_mem hi)
      have := writes_step_complete_of_not_mem w hT i r1 r2 l1 batch g hi hg t hc hn
      rw [this.1, this.2]
      exact ⟨hw1, hw2⟩

end AfterFreeze

/-- C13: an arrival at a group with `IsProcessing = true` appends the ticket to
`group.Requests` (setting a timer when none is set), leaves the running batches with their
ticket lists as they were and starts and freezes nothing; and in every state reached from
the empty service the new ticket is in no running batch, is in no frozen batch, has
received nothing, and the completion of any running batch writes nothing to its channels
and leaves it waiting in `group.Requests` for a later batch. -/
theorem C13_arrival_after_freeze {F : Type} [Add F] [Div F] [OfNat F 2] (l : String) :
    (∀ (w : World F) (g : AggregationGroup), w.group l = some g → g.IsProcessing = true →
      (step w (.arrive l)).group l
        = some { g with Requests := g.Requests ++ [newRequest w l],
                        Timer := some (g.Timer.getD w.nextTimer) } ∧
      (step w (.arrive l)).inflight = w.inflight ∧
      (step w (.arrive l)).frozen = w.frozen ∧
      (step w (.arrive l)).respLog = w.respLog ∧
      (step w (.arrive l)).errLog = w.errLog) ∧
    (∀ (m : Int) (wt : Nat) (es : List (Event F)) (g : AggregationGroup),
      (run (World.init F m wt) es).group l = some g → g.IsProcessing = true →
      (∀ b ∈ (step (run (World.init F m wt) es) (.arrive l)).inflight,
        newRequest (run (World.init F m wt) es) l ∉ b.2) ∧
      (step (run (World.init F m wt) es) (.arrive l)).frozenCount
        (newRequest (run (World.init F m wt) es) l) = 0 ∧
      (∀ (i : Nat) (r1 r2 : Except String F),
        writes (step (step (run (World.init F m wt) es) (.arrive l)) (.complete i r1 r2)).respLog
          (newRequest (run (World.init F m wt) es) l).Response = 0 ∧
        writes (step (step (run (World.init F m wt) es) (.arrive l)) (.complete i r1 r2)).errLog
          (newRequest (run (World.init F m wt) es) l).Error = 0 ∧
        newRequest (run (World.init F m wt) es) l
          ∈ (step (step (run (World.init F m wt) es) (.arrive l))
              (.complete i r1 r2)).requestsAt l)) := by
  refine ⟨fun w g hg hp => GetWeather_of_processing w l g hg hp, ?_⟩
  intro m wt es g hg hp
  have hT0 := TicketInv_run (World.init F m wt) es (InFlightInv_init m wt)
    (TicketInv_init m wt)
  have hF0 := InFlightInv_run (World.init F m wt) es (InFlightInv_init m wt)
  have hT := TicketInv_step _ (.arrive l) hF0 hT0
  have hF := InFlightInv_step _ (.arrive l) hF0
  have hgrp := (GetWeather_of_processing _ l g hg hp).1
  have hmem : newRequest (run (World.init F m wt) es) l
      ∈ (step (run (World.init F m wt) es) (.arrive l)).requestsAt l := by
    show _ ∈ (GetWeather (run (World.init F m wt) es) l).requestsAt l
    rw [requestsAt_of_group _ l _ hgrp]
    simp
  refine ⟨?_, ?_, ?_⟩
  · intro b hb
    exact not_mem_inflight_of_pending _ hT l _ hmem b hb
  · exact (pending_receives_nothing _ hT hF l _ hmem 0 (.error "") (.error "")).2.2.1
  · intro i r1 r2
    have h := pending_receives_nothing _ hT hF l _ hmem i r1 r2
    refine ⟨h.2.2.2.1, h.2.2.2.2, ?_⟩
    rw [requestsAt_step_complete]
    exact hmem

/-- C13 at a concrete run: cap 2, a batch of two in flight, a third ticket arrives; the batch
completes and the third ticket has received nothing and still waits. -/
theorem C13_arrival_after_freeze_witness :
    (step (run (World.init Int 2 5) [.arrive "Paris", .arrive "Paris"])
        (.arrive "Paris")).inflight
      = [("Paris", [⟨"Paris", 0, 0⟩, ⟨"Paris", 1, 1⟩])] ∧
    writes (step (step (run (World.init Int 2 5) [.arrive "Paris", .arrive "Paris"])
        (.arrive "Paris")) (.complete 0 (.ok 20) (.ok 22))).respLog 2 = 0 :=
  have h := C13_arrival_after_freeze (F := Int) "Paris"
  ⟨(h.1 (run (World.init Int 2 5) [.arrive "Paris", .arrive "Paris"])
      ⟨"Paris", [], none, 2, 5, true⟩ (by decide) rfl).2.1,
    ((h.2 2 5 [.arrive "Paris", .arrive "Paris"] ⟨"Paris", [], none, 2, 5, true⟩
      (by decide) rfl).2.2 0 (.ok 20) (.ok 22)).1⟩

/-! ## C14: a failed fan-out -/

/-- C14: when the fan-out of a running batch fails (the first upstream fails, or the first
succeeds and the second fails), the completion step writes the error to the `Error` channel
of each ticket of that batch and writes nothing else: no response, no saved row; it leaves
`group.Requests` unchanged and the group with `IsProcessing = false`.  In every state
reached from the empty service, the step writes nothing to the channels of any created
ticket outside the batch, in particular of the pending tickets of the group, which have
then still received nothing. -/
theorem C14_failure_containment {F : Type} [Add F] [Div F] [OfNat F 2] (l : String) :
    (∀ (w : World F) (i : Nat) (batch : List AggregationRequest) (g : AggregationGroup),
      w.inflight[i]? = some (l, batch) → w.group l = some g →
      (∀ (e1 : String) (r2 : Except String F),
        (step w (.complete i (.error e1) r2)).errLog
          = w.errLog ++ batch.map (fun (req : AggregationRequest) =>
              (req.Error, "WeatherAPI.com hatası: " ++ e1)) ∧
        (step w (.complete i (.error e1) r2)).respLog = w.respLog ∧
        (step w (.complete i (.error e1) r2)).saved = w.saved ∧
        (step w (.complete i (.error e1) r2)).inflight = w.inflight.eraseIdx i ∧
        (step w (.complete i (.error e1) r2)).group l
          = some { g with IsProcessing := false,
                          Timer := if g.Requests ≠ [] ∧ g.Timer = none then some w.nextTimer
                                   else g.Timer }) ∧
      (∀ (a : F) (e2 : String),
        (step w (.complete i (.ok a) (.error e2))).errLog
          = w.errLog ++ batch.map (fun (req : AggregationRequest) =>
              (req.Error, "WeatherStack.com hatası: " ++ e2)) ∧
        (step w (.complete i (.ok a) (.error e2))).respLog = w.respLog ∧
        (step w (.complete i (.ok a) (.error e2))).saved = w.saved ∧
        (step w (.complete i (.ok a) (.error e2))).inflight = w.inflight.eraseIdx i ∧
        (step w (.complete i (.ok a) (.error e2))).group l
          = some { g with IsProcessing := false,
                          Timer := if g.Requests ≠ [] ∧ g.Timer = none then some w.nextTimer
                                   else g.Timer })) ∧
    (∀ (m : Int) (wt : Nat) (es : List (Event F)) (i : Nat)
      (batch : List AggregationRequest) (r1 r2 : Except String F),
      (run (World.init F m wt) es).inflight[i]? = some (l, batch) →
      (∀ t ∈ (run (World.init F m wt) es).created, t ∉ batch →
        writes (step (run (World.init F m wt) es) (.complete i r1 r2)).respLog t.Response
          = writes (run (World.init F m wt) es).respLog t.Response ∧
        writes (step (run (World.init F m wt) es) (.complete i r1 r2)).errLog t.Error
          = writes (run (World.init F m wt) es).errLog t.Error) ∧
      (∀ t ∈ (run (World.init F m wt) es).requestsAt l,
        t ∉ batch ∧
        t ∈ (step (run (World.init F m wt) es) (.complete i r1 r2)).requestsAt l ∧
        writes (step (run (World.init F m wt) es) (.complete i r1 r2)).respLog t.Response = 0 ∧
        writes (step (run (World.init F m wt) es) (.complete i r1 r2)).errLog t.Error = 0)) := by
  refine ⟨?_, ?_⟩
  · intro w i batch g hi hg
    refine ⟨?_, ?_⟩
    · intro e1 r2
      have h1 := step_complete_group w i (.error e1) r2 l batch g hi hg
      have h2 := step_complete_inflight w i (.error e1) r2 l batch g hi hg
      refine ⟨?_, ?_, ?_, h2.1, h1.1⟩ <;>
        (rw [step_complete_eq w i _ _ l batch g hi hg, deliver_error1]; simp)
    · intro a e2
      have h1 := step_complete_group w i (.ok a) (.error e2) l batch g hi hg
      have h2 := step_complete_inflight w i (.ok a) (.error e2) l batch g hi hg
      refine ⟨?_, ?_, ?_, h2.1, h1.1⟩ <;>
        (rw [step_complete_eq w i _ _ l batch g hi hg, deliver_error2]; simp)
  · intro m wt es i batch r1 r2 hi
    have hT := TicketInv_run (World.init F m wt) es (InFlightInv_init m wt)
      (TicketInv_init m wt)
    have hF := InFlightInv_run (World.init F m wt) es (InFlightInv_init m wt)
    refine ⟨?_, ?_⟩
    · intro t hc hn
      cases hg : (run (World.init F m wt) es).group l with
      | none =>
        have h1 := hF l
        rw [inflightCount_retire _ i l l batch hi, hg] at h1
        simp at h1
      | some g =>
        exact writes_step_complete_of_not_mem _ hT i r1 r2 l batch g hi hg t hc hn
    · intro t ht
      have h := pending_receives_nothing _ hT hF l t ht i r1 r2
      refine ⟨?_, ?_, h.2.2.2.1, h.2.2.2.2⟩
      · exact not_mem_inflight_of_pending _ hT l t ht _ (List.getElem?_mem hi)
      · rw [requestsAt_step_complete]
        exact ht

/-- C14 at a concrete run: cap 2, a batch of two in flight and a third ticket pending; the
first provider fails: the two tickets of the batch get the error, the third gets nothing
and the group is ready again. -/
theorem C14_failure_containment_witness :
    (step (run (World.init Int 2 5) [.arrive "Paris", .arrive "Paris", .arrive "Paris"])
        (.complete 0 (.error "timeout") (.ok 22))).errLog
      = [(0, "WeatherAPI.com hatası: timeout"), (1, "WeatherAPI.com hatası: timeout")] ∧
    (step (run (World.init Int 2 5) [.arrive "Paris", .arrive "Paris", .arrive "Paris"])
        (.complete 0 (.error "timeout") (.ok 22))).group "Paris"
      = some ⟨"Paris", [⟨"Paris", 2, 2⟩], some 1, 2, 5, false⟩ ∧
    writes (step (run (World.init Int 2 5) [.arrive "Paris", .arrive "Paris", .arrive "Paris"])
        (.complete 0 (.error "timeout") (.ok 22))).errLog 2 = 0 :=
  have h := C14_failure_containment (F := Int) "Paris"
  have h1 := (h.1 (run (World.init Int 2 5) [.arrive "Paris", .arrive "Paris", .arrive "Paris"])
    0 [⟨"Paris", 0, 0⟩, ⟨"Paris", 1, 1⟩] ⟨"Paris", [⟨"Paris", 2, 2⟩], some 1, 2, 5, true⟩
    (by decide) (by decide)).1 "timeout" (.ok 22)
  ⟨h1.1, h1.2.2.2.2,
    ((h.2 2 5 [.arrive "Paris", .arrive "Paris", .arrive "Paris"] 0
      [⟨"Paris", 0, 0⟩, ⟨"Paris", 1, 1⟩] (.error "timeout") (.ok 22) (by decide)).2
      ⟨"Paris", 2, 2⟩ (by decide)).2.2.2⟩

/-! ## C15: a timer callback during a flight -/

/-- C15, as stated, fails: cap 2, two tickets in flight and a third pending with timer 1 set;
a timer callback that runs now gets not-ok and starts nothing, but the `Timer` field of
the group is cleared: the group is not the same after the call. -/
theorem C15_counterexample :
    ((run (World.init Int 2 5)
        [.arrive "Paris", .arrive "Paris", .arrive "Paris"]).group "Paris")
      = some ⟨"Paris", [⟨"Paris", 2, 2⟩], some 1, 2, 5, true⟩ ∧
    triggerLocked ⟨"Paris", [⟨"Paris", 2, 2⟩], some 1, 2, 5, true⟩
      = (⟨"Paris", [⟨"Paris", 2, 2⟩], none, 2, 5, true⟩, [], false) ∧
    ((run (World.init Int 2 5)
        [.arrive "Paris", .arrive "Paris", .arrive "Paris", .timer "Paris"]).group "Paris")
      = some ⟨"Paris", [⟨"Paris", 2, 2⟩], none, 2, 5, true⟩ ∧
    ((run (World.init Int 2 5)
        [.arrive "Paris", .arrive "Paris", .arrive "Paris", .timer "Paris"]).group "Paris")
      ≠ ((run (World.init Int 2 5)
        [.arrive "Paris", .arrive "Paris", .arrive "Paris"]).group "Paris") := by
  decide

/-- C15, amended: for a group with `IsProcessing = true`, `triggerLocked` reports not-ok with
no batch and leaves `Requests` and `IsProcessing` as they were, but sets the `Timer` field
to nil (stopping a timer that is set, also one set for pending tickets); the timer callback
therefore starts and freezes nothing, writes nothing, creates no timer and leaves every
other group alone, and when no timer was set the group is unchanged altogether. -/
theorem C15_late_timer_clears_timer {F : Type} [Add F] [Div F] [OfNat F 2]
    (g : AggregationGroup) (hp : g.IsProcessing = true) :
    triggerLocked g = ({ g with Timer := none }, [], false) ∧
    (g.Timer = none → (triggerLocked g).1 = g) ∧
    (∀ (w : World F) (l : String), w.group l = some g →
      (step w (.timer l)).group l = some { g with Timer := none } ∧
      (∀ l2, l2 ≠ l → (step w (.timer l)).group l2 = w.group l2) ∧
      (step w (.timer l)).inflight = w.inflight ∧
      (step w (.timer l)).frozen = w.frozen ∧
      (step w (.timer l)).respLog = w.respLog ∧
      (step w (.timer l)).errLog = w.errLog ∧
      (step w (.timer l)).saved = w.saved ∧
      (step w (.timer l)).nextTimer = w.nextTimer) := by
  have h := triggerLocked_processing g hp
  refine ⟨h, ?_, ?_⟩
  · intro hT
    rw [h]
    cases g
    simp_all
  · intro w l hg
    rw [step_timer_processing w l g hg hp]
    refine ⟨by simp, ?_, rfl, rfl, rfl, rfl, rfl, rfl⟩
    intro l2 hl
    simp [hl]

/-- C15, amended, at the state of the counterexample. -/
theorem C15_late_timer_clears_timer_witness :
    (step (run (World.init Int 2 5) [.arrive "Paris", .arrive "Paris", .arrive "Paris"])
        (.timer "Paris")).group "Paris"
      = some ⟨"Paris", [⟨"Paris", 2, 2⟩], none, 2, 5, true⟩ ∧
    (step (run (World.init Int 2 5) [.arrive "Paris", .arrive "Paris", .arrive "Paris"])
        (.timer "Paris")).inflight
      = [("Paris", [⟨"Paris", 0, 0⟩, ⟨"Paris", 1, 1⟩])] :=
  have h := (C15_late_timer_clears_timer (F := Int)
    ⟨"Paris", [⟨"Paris", 2, 2⟩], some 1, 2, 5, true⟩ rfl).2.2
    (run (World.init Int 2 5) [.arrive "Paris", .arrive "Paris", .arrive "Paris"]) "Paris"
    (by decide)
  ⟨h.1, h.2.2.1⟩

/-! ## C16: the status codes of the handler -/

/-- C16: when the query parameter `q` is missing or empty the handler answers 400 with error
`MISSING_LOCATION`, code 400 and the message that `q` is required, and makes no call to the
weather service; when `q` is non-empty it calls the service once with that location, and
answers 500 with error `WEATHER_SERVICE_ERROR`, code 500 and the same message for every
error value, or 200 with the location and temperature returned by the service. -/
theorem C16_handler_status {F : Type}
    (weatherService : String → Except String (WeatherResponse F))
    (query : List (String × List String)) :
    (url.Values.Get query "q" = "" →
      WeatherHandler.GetWeather weatherService query
        = ({ contentType := "application/json", statusCode := 400,
             body := .error { Error := "MISSING_LOCATION", Code := 400,
                              Message := "Location parameter 'q' is required" } }, [])) ∧
    (∀ err : String, url.Values.Get query "q" ≠ "" →
      weatherService (url.Values.Get query "q") = .error err →
      WeatherHandler.GetWeather weatherService query
        = ({ contentType := "application/json", statusCode := 500,
             body := .error { Error := "WEATHER_SERVICE_ERROR", Code := 500,
                              Message := "Failed to fetch weather data" } },
           [url.Values.Get query "q"])) ∧
    (∀ weatherResp : WeatherResponse F, url.Values.Get query "q" ≠ "" →
      weatherService (url.Values.Get query "q") = .ok weatherResp →
      WeatherHandler.GetWeather weatherService query
        = ({ contentType := "application/json", statusCode := 200,
             body := .weather { Location := weatherResp.Location,
                                Temperature := weatherResp.Temperature } },
           [url.Values.Get query "q"])) := by
  refine ⟨?_, ?_, ?_⟩
  · intro h
    simp [WeatherHandler.GetWeather, h, WeatherHandler.sendError, http.StatusBadRequest]
  · intro err h hs
    simp [WeatherHandler.GetWeather, h, hs, WeatherHandler.sendError,
      http.StatusInternalServerError]
  · intro weatherResp h hs
    simp [WeatherHandler.GetWeather, h, hs, http.StatusOK]

/-- C16 at concrete requests: no `q`, an empty `q`, a failing service and a successful one. -/
theorem C16_handler_status_witness :
    WeatherHandler.GetWeather (F := Int) (fun _ => .error "boom") []
      = (⟨"application/json", 400,
          .error ⟨"MISSING_LOCATION", 400, "Location parameter 'q' is required"⟩⟩, []) ∧
    WeatherHandler.GetWeather (F := Int) (fun _ => .error "boom") [("q", [""])]
      = (⟨"application/json", 400,
          .error ⟨"MISSING_LOCATION", 400, "Location parameter 'q' is required"⟩⟩, []) ∧
    WeatherHandler.GetWeather (F := Int) (fun _ => .error "boom") [("q", ["Ankara"])]
      = (⟨"application/json", 500,
          .error ⟨"WEATHER_SERVICE_ERROR", 500, "Failed to fetch weather data"⟩⟩,
         ["Ankara"]) ∧
    WeatherHandler.GetWeather (F := Int) (fun l => .ok ⟨l, 21⟩) [("q", ["Ankara"])]
      = (⟨"application/json", 200, .weather ⟨"Ankara", 21⟩⟩, ["Ankara"]) :=
  ⟨(C16_handler_status (F := Int) (fun _ => .error "boom") []).1 (by decide),
   (C16_handler_status (F := Int) (fun _ => .error "boom") [("q", [""])]).1 (by decide),
   (C16_handler_status (F := Int) (fun _ => .error "boom") [("q", ["Ankara"])]).2.1 "boom"
     (by decide) rfl,
   (C16_handler_status (F := Int) (fun l => .ok ⟨l, 21⟩) [("q", ["Ankara"])]).2.2
     ⟨"Ankara", 21⟩ (by decide) rfl⟩

/-! ## C17: the location that is echoed -/

/-- C17, as stated, fails: with the same answers of the two providers (20 and 22 degrees),
the query `istanbul` is answered with location `istanbul` and the query `Istanbul` with
location `Istanbul`: the echoed location is the string of the request, whatever the
providers returned. -/
theorem C17_counterexample :
    (run (World.init Int 1 5)
        [.arrive "istanbul",
         .complete 0 (WeatherAPIClient.GetTemperature (.ok ⟨⟨20⟩⟩))
           (WeatherStackClient.GetTemperature (.ok ⟨⟨22⟩⟩))]).respLog
      = [(0, ⟨"istanbul", 21⟩)] ∧
    (run (World.init Int 1 5)
        [.arrive "Istanbul",
         .complete 0 (WeatherAPIClient.GetTemperature (.ok ⟨⟨20⟩⟩))
           (WeatherStackClient.GetTemperature (.ok ⟨⟨22⟩⟩))]).respLog
      = [(0, ⟨"Istanbul", 21⟩)] ∧
    (WeatherHandler.GetWeather (F := Int) (fun _ => .ok ⟨"istanbul", 21⟩)
        [("q", ["istanbul"])]).1.body = .weather ⟨"istanbul", 21⟩ := by
  decide

/-- C17, amended: the location echoed in a successful response is the location string of
the request.  `fetchWeatherData` copies its `location` argument into the result, the two
`GetTemperature` calls return nothing but a temperature, and in every state reached from
the empty service the completion of a running batch stored under location `l` delivers to
each of its tickets a response with `Location = l`, which is the `Location` of every ticket
of the batch, that is, the argument of the `GetWeather` call that made the ticket. -/
theorem C17_location_of_request {F : Type} [Add F] [Div F] [OfNat F 2] (m : Int) (wt : Nat)
    (es : List (Event F)) (i : Nat) (l : String) (batch : List AggregationRequest)
    (hi : (run (World.init F m wt) es).inflight[i]? = some (l, batch)) :
    (∀ a b : F,
      (step (run (World.init F m wt) es) (.complete i (.ok a) (.ok b))).respLog
        = (run (World.init F m wt) es).respLog
          ++ batch.map (fun (req : AggregationRequest) =>
              (req.Response, WeatherResponse.mk l ((a + b) / 2)))) ∧
    (∀ req ∈ batch, req.Location = l) ∧
    (∀ (w : World F) (location : String), (newRequest w location).Location = location) ∧
    (∀ (db : List (WeatherQuery F)) (location : String) (n : Int) (a b : F),
      ∃ d, (fetchWeatherData db location n (.ok a) (.ok b)).1 = .ok d
        ∧ d.Location = location) ∧
    (∀ x : WeatherAPIResponse F, WeatherAPIClient.GetTemperature (.ok x) = .ok x.Current.TempC) ∧
    (∀ y : WeatherStackResponse F,
      WeatherStackClient.GetTemperature (.ok y) = .ok y.Current.Temperature) := by
  have hF := InFlightInv_run (World.init F m wt) es (InFlightInv_init m wt)
  have hL := LocInv_run (World.init F m wt) es (LocInv_init m wt)
  refine ⟨?_, ?_, fun w location => rfl, fun db location n a b => ⟨_, rfl, rfl⟩,
    fun x => rfl, fun y => rfl⟩
  · intro a b
    cases hg : (run (World.init F m wt) es).group l with
    | none =>
      have h1 := hF l
      rw [inflightCount_retire _ i l l batch hi, hg] at h1
      simp at h1
    | some g =>
      rw [step_complete_eq _ i _ _ l batch g hi hg, deliver_ok, hL.1 l g hg]
      simp
  · intro req hreq
    exact hL.2.2 _ (List.getElem?_mem hi) req hreq

/-- C17, amended, at the first run of the counterexample. -/
theorem C17_location_of_request_witness :
    (step (run (World.init Int 1 5) [.arrive "istanbul"]) (.complete 0 (.ok 20) (.ok 22))).respLog
      = [(0, ⟨"istanbul", 21⟩)] :=
  (C17_location_of_request (F := Int) 1 5 [.arrive "istanbul"] 0 "istanbul"
    [⟨"istanbul", 0, 0⟩] (by decide)).1 20 22

/-! ## C20: no stranded tickets -/

section NoStrand
variable {F : Type}

theorem groupOrNew_noStrand (w : World F) (l : String) (h : NoStrandInv w) :
    ((groupOrNew w l).Requests ≠ [] → (groupOrNew w l).IsProcessing = false →
      (groupOrNew w l).Timer ≠ none) ∧
    ((groupOrNew w l).Timer ≠ none → (groupOrNew w l).Requests ≠ []) := by
  cases hg : w.group l with
  | none => rw [groupOrNew_none w l hg]; simp
  | some g => rw [groupOrNew_some w l g hg]; exact h.1 l g hg

theorem NoStrandInv_GetWeather (w : World F) (l : String) (h : NoStrandInv w) :
    NoStrandInv (GetWeather w l) := by
  obtain ⟨ha, hb⟩ := groupOrNew_noStrand w l h
  obtain ⟨h1, h2⟩ := h
  rw [GetWeather_eq]
  split_ifs with hp hT hsz hone
  · refine ⟨?_, by simpa using h2⟩
    intro l2 g2 hg2
    by_cases hl : l2 = l
    · subst hl; simp at hg2; subst hg2; simp
    · simp [hl] at hg2; exact h1 l2 g2 hg2
  · refine ⟨?_, by simpa using h2⟩
    intro l2 g2 hg2
    by_cases hl : l2 = l
    · subst hl; simp at hg2; subst hg2; simp [hp]
    · simp [hl] at hg2; exact h1 l2 g2 hg2
  · refine ⟨?_, ?_⟩
    · intro l2 g2 hg2
      by_cases hl : l2 = l
      · subst hl; simp at hg2; subst hg2; simp
      · simp [hl] at hg2; exact h1 l2 g2 hg2
    · intro b hb2
      simp at hb2
      rcases hb2 with hb2 | hb2
      · exact h2 b hb2
      · subst hb2; simp
  · refine ⟨?_, by simpa using h2⟩
    intro l2 g2 hg2
    by_cases hl : l2 = l
    · subst hl; simp at hg2; subst hg2; simp
    · simp [hl] at hg2; exact h1 l2 g2 hg2
  · refine ⟨?_, by simpa using h2⟩
    intro l2 g2 hg2
    by_cases hl : l2 = l
    · subst hl
      simp at hg2
      subst hg2
      have hne : (groupOrNew w l2).Requests ≠ [] := by
        intro he
        apply hone
        simp [he]
      have hidle : (groupOrNew w l2).IsProcessing = false := by simpa using hp
      refine ⟨fun _ _ => ha hne hidle, fun _ => by simp⟩
    · simp [hl] at hg2; exact h1 l2 g2 hg2

theorem NoStrandInv_timerCallback (w : World F) (l : String) (h : NoStrandInv w)
    (harmed : ∀ g, w.group l = some g → g.Timer ≠ none) :
    NoStrandInv (timerCallback w l) := by
  obtain ⟨h1, h2⟩ := h
  rw [timerCallback_eq]
  cases hg : w.group l with
  | none => exact ⟨h1, h2⟩
  | some g =>
    have hne := (h1 l g hg).2 (harmed g hg)
    simp only []
    split_ifs with hp
    · refine ⟨?_, by simpa using h2⟩
      intro l2 g2 hg2
      by_cases hl : l2 = l
      · subst hl; simp at hg2; subst hg2; simp [hp]
      · simp [hl] at hg2; exact h1 l2 g2 hg2
    · refine ⟨?_, ?_⟩
      · intro l2 g2 hg2
        by_cases hl : l2 = l
        · subst hl; simp at hg2; subst hg2; simp
        · simp [hl] at hg2; exact h1 l2 g2 hg2
      · intro b hb2
        simp at hb2
        rcases hb2 with hb2 | hb2
        · exact h2 b hb2
        · subst hb2; exact hne

theorem NoStrandInv_complete [Add F] [Div F] [OfNat F 2] (w : World F) (i : Nat)
    (r1 r2 : Except String F) (h : NoStrandInv w) :
    NoStrandInv (step w (.complete i r1 r2)) := by
  cases hi : w.inflight[i]? with
  | none => rw [step_complete_none w i r1 r2 hi]; exact h
  | some lb =>
    obtain ⟨l, batch⟩ := lb
    obtain ⟨h1, h2⟩ := h
    rw [step_complete_some w i r1 r2 l batch hi, processAggregationGroupWithBatch_eq,
      group_retire]
    cases hg : w.group l with
    | none => exact ⟨h1, h2⟩
    | some g =>
      obtain ⟨ha, hb⟩ := h1 l g hg
      simp only [finish_eq]
      split_ifs with hc
      · refine ⟨?_, by simpa using h2⟩
        intro l2 g2 hg2
        by_cases hl : l2 = l
        · subst hl; simp at hg2; subst hg2; simp [hc.1]
        · simp [hl] at hg2; exact h1 l2 g2 hg2
      · refine ⟨?_, by simpa using h2⟩
        intro l2 g2 hg2
        by_cases hl : l2 = l
        · subst hl
          simp at hg2
          subst hg2
          refine ⟨fun hne _ hT => hc ⟨hne, hT⟩, hb⟩
        · simp [hl] at hg2; exact h1 l2 g2 hg2

theorem NoStrandInv_run [Add F] [Div F] [OfNat F 2] (w : World F) (es : List (Event F))
    (h : NoStrandInv w) (ha : armedTimers w es = true) : NoStrandInv (run w es) := by
  induction es generalizing w with
  | nil => exact h
  | cons e es ih =>
    cases e with
    | arrive l =>
      simp only [armedTimers] at ha
      exact ih (GetWeather w l) (NoStrandInv_GetWeather w l h) ha
    | timer l =>
      simp only [armedTimers, Bool.and_eq_true] at ha
      refine ih (timerCallback w l) (NoStrandInv_timerCallback w l h ?_) ha.2
      intro g hg
      have := ha.1
      rw [hg] at this
      intro hn
      simp [hn] at this
    | complete i r1 r2 =>
      simp only [armedTimers] at ha
      exact ih (step w (.complete i r1 r2)) (NoStrandInv_complete w i r1 r2 h) ha

end NoStrand

/-- C20: in every state reached from the empty service by arrivals, callbacks of the timer
that is set at that moment and fan-out completions, a group whose `Requests` list is
non-empty while `IsProcessing = false` has its `Timer` set, a group has its `Timer` set
only when `Requests` is non-empty, and no frozen batch is empty. -/
theorem C20_no_stranded_tickets {F : Type} [Add F] [Div F] [OfNat F 2] (m : Int) (wt : Nat)
    (es : List (Event F)) (ha : armedTimers (World.init F m wt) es = true) :
    (∀ l g, (run (World.init F m wt) es).group l = some g →
      (g.Requests ≠ [] → g.IsProcessing = false → g.Timer ≠ none) ∧
      (g.Timer ≠ none → g.Requests ≠ [])) ∧
    (∀ b ∈ (run (World.init F m wt) es).frozen, b.2 ≠ []) := by
  have h0 : NoStrandInv (World.init F m wt) := by
    refine ⟨?_, ?_⟩
    · intro l g hg
      simp [World.init, World.group, NewWeatherService] at hg
    · intro b hb
      simp [World.init] at hb
  exact NoStrandInv_run _ es h0 ha

/-- C20 at a concrete run: cap 2, a batch in flight, a ticket pending, the completion and a
further arrival; the group then has two waiting tickets, is idle and has its timer set, and
both frozen batches are non-empty. -/
theorem C20_no_stranded_tickets_witness :
    armedTimers (World.init Int 3 5)
      [.arrive "Paris", .arrive "Paris", .timer "Paris", .arrive "Paris",
       .complete 0 (.ok 20) (.ok 22), .arrive "Paris"] = true ∧
    (⟨"Paris", [⟨"Paris", 2, 2⟩, ⟨"Paris", 3, 3⟩], some 1, 3, 5, false⟩ :
      AggregationGroup).Timer ≠ none ∧
    (run (World.init Int 3 5)
      [.arrive "Paris", .arrive "Paris", .timer "Paris", .arrive "Paris",
       .complete 0 (.ok 20) (.ok 22), .arrive "Paris"]).frozen.all
        (fun b => decide (b.2 ≠ [])) = true :=
  have h := C20_no_stranded_tickets (F := Int) 3 5
    [.arrive "Paris", .arrive "Paris", .timer "Paris", .arrive "Paris",
     .complete 0 (.ok 20) (.ok 22), .arrive "Paris"] (by decide)
  ⟨by decide,
   (h.1 "Paris" ⟨"Paris", [⟨"Paris", 2, 2⟩, ⟨"Paris", 3, 3⟩], some 1, 3, 5, false⟩
     (by decide)).1 (by decide) rfl,
   List.all_eq_true.mpr (fun b hb => decide_eq_true (h.2 b hb))⟩

/-! ## Bursts of arrivals at one location -/

section Bursts
variable {F : Type}

theorem ticketsFrom_succ_append (l : String) (c n : Nat) :
    ticketsFrom l c (n + 1) = ticketsFrom l c n ++ [⟨l, c + n, c + n⟩] := by
  induction n generalizing c with
  | zero => simp [ticketsFrom]
  | succ n ih =>
    rw [ticketsFrom, ih (c + 1), ticketsFrom]
    simp [Nat.add_assoc, Nat.add_comm 1 n]

theorem ticketsFrom_add (l : String) (c a b : Nat) :
    ticketsFrom l c (a + b) = ticketsFrom l c a ++ ticketsFrom l (c + a) b := by
  induction a generalizing c with
  | zero => simp [ticketsFrom]
  | succ a ih =>
    rw [Nat.add_right_comm, ticketsFrom, ih (c + 1), ticketsFrom]
    simp [Nat.add_assoc, Nat.add_comm 1 a]

theorem length_ticketsFrom (l : String) (c n : Nat) : (ticketsFrom l c n).length = n := by
  induction n generalizing c with
  | zero => rfl
  | succ n ih => simp [ticketsFrom, ih]

theorem run_append [Add F] [Div F] [OfNat F 2] (w : World F) (es1 es2 : List (Event F)) :
    run w (es1 ++ es2) = run (run w es1) es2 := by
  simp [run, List.foldl_append]

theorem run_replicate_succ [Add F] [Div F] [OfNat F 2] (w : World F) (n : Nat)
    (e : Event F) : run w (List.replicate (n + 1) e) = run (step w e) (List.replicate n e) :=
  rfl

/-- One arrival at a processing group whose timer is set. -/
theorem obs_GetWeather_processing (w : World F) (l : String) (g : AggregationGroup) (t : Nat)
    (hg : w.group l = some g) (hp : g.IsProcessing = true) (hT : g.Timer = some t) :
    (GetWeather w l).obs l
      = { group := some { g with Requests := g.Requests ++ [⟨l, w.nextChan, w.nextChan⟩] },
          inflight := w.inflight, frozen := w.frozen, nextChan := w.nextChan + 1,
          nextTimer := w.nextTimer, saved := w.saved } := by
  rw [GetWeather_eq, groupOrNew_some w l g hg]
  simp [hp, hT, World.obs, newRequest]

/-- One arrival at a processing group without a timer: the timer is created. -/
theorem obs_GetWeather_processing_arm (w : World F) (l : String) (g : AggregationGroup)
    (hg : w.group l = some g) (hp : g.IsProcessing = true) (hT : g.Timer = none) :
    (GetWeather w l).obs l
      = { group := some { g with Requests := g.Requests ++ [⟨l, w.nextChan, w.nextChan⟩],
                                 Timer := some w.nextTimer },
          inflight := w.inflight, frozen := w.frozen, nextChan := w.nextChan + 1,
          nextTimer := w.nextTimer + 1, saved := w.saved } := by
  rw [GetWeather_eq, groupOrNew_some w l g hg]
  simp [hp, hT, World.obs, newRequest]

/-- One arrival at an idle group with waiting requests, below the cap. -/
theorem obs_GetWeather_idle (w : World F) (l : String) (g : AggregationGroup)
    (hg : w.group l = some g) (hp : g.IsProcessing = false) (hne : g.Requests ≠ [])
    (hlt : (g.Requests.length : Int) + 1 < g.MaxRequests) :
    (GetWeather w l).obs l
      = { group := some { g with Requests := g.Requests ++ [⟨l, w.nextChan, w.nextChan⟩] },
          inflight := w.inflight, frozen := w.frozen, nextChan := w.nextChan + 1,
          nextTimer := w.nextTimer, saved := w.saved } := by
  rw [GetWeather_eq, groupOrNew_some w l g hg]
  have h1 : ¬ g.MaxRequests ≤ (g.Requests.length : Int) + 1 := by omega
  have h2 : ¬ g.Requests.length = 0 := by
    intro h0
    exact hne (List.length_eq_zero.mp h0)
  simp [hp, h1, h2, hne, World.obs, newRequest]

/-- The first arrival at an idle group without requests, below the cap: the timer is
created. -/
theorem obs_GetWeather_first (w : World F) (l : String)
    (hp : (groupOrNew w l).IsProcessing = false) (he : (groupOrNew w l).Requests = [])
    (hlt : 1 < (groupOrNew w l).MaxRequests) :
    (GetWeather w l).obs l
      = { group := some { groupOrNew w l with Requests := [⟨l, w.nextChan, w.nextChan⟩],
                                              Timer := some w.nextTimer },
          inflight := w.inflight, frozen := w.frozen, nextChan := w.nextChan + 1,
          nextTimer := w.nextTimer + 1, saved := w.saved } := by
  rw [GetWeather_eq]
  have h1 : ¬ (groupOrNew w l).MaxRequests ≤ 1 := by omega
  simp [hp, he, h1, World.obs, newRequest]

/-- The arrival that reaches the cap at an idle group. -/
theorem obs_GetWeather_full (w : World F) (l : String) (g : AggregationGroup)
    (hg : w.group l = some g) (hp : g.IsProcessing = false)
    (hsz : (g.Requests.length : Int) + 1 ≥ g.MaxRequests) :
    (GetWeather w l).obs l
      = { group := some { g with Requests := [], Timer := none, IsProcessing := true },
          inflight := w.inflight ++ [(l, g.Requests ++ [⟨l, w.nextChan, w.nextChan⟩])],
          frozen := w.frozen ++ [(l, g.Requests ++ [⟨l, w.nextChan, w.nextChan⟩])],
          nextChan := w.nextChan + 1, nextTimer := w.nextTimer, saved := w.saved } := by
  rw [GetWeather_eq, groupOrNew_some w l g hg]
  have h1 : g.MaxRequests ≤ (g.Requests.length : Int) + 1 := hsz
  simp [hp, h1, World.obs, newRequest]

end Bursts

section Bursts2
variable {F : Type} [Add F] [Div F] [OfNat F 2]

/-- Any number of arrivals at a processing group whose timer is set only extend the pending
list. -/
theorem obs_arrivals_processing (l : String) (n : Nat) (w : World F) (g : AggregationGroup)
    (t : Nat) (hg : w.group l = some g) (hp : g.IsProcessing = true) (hT : g.Timer = some t) :
    (run w (List.replicate n (.arrive l))).obs l
      = { group := some { g with Requests := g.Requests ++ ticketsFrom l w.nextChan n },
          inflight := w.inflight, frozen := w.frozen, nextChan := w.nextChan + n,
          nextTimer := w.nextTimer, saved := w.saved } := by
  induction n generalizing w g with
  | zero =>
    cases g
    simp [run, World.obs, ticketsFrom, hg]
  | succ n ih =>
    have h1 := obs_GetWeather_processing w l g t hg hp hT
    have hg1 := congrArg Obs.group h1
    have e1 := congrArg Obs.inflight h1
    have e2 := congrArg Obs.frozen h1
    have e3 := congrArg Obs.nextChan h1
    have e4 := congrArg Obs.nextTimer h1
    have e5 := congrArg Obs.saved h1
    simp only [World.obs] at hg1 e1 e2 e3 e4 e5
    rw [run_replicate_succ]
    show (run (GetWeather w l) _).obs l = _
    rw [ih (GetWeather w l) _ hg1 hp hT, e1, e2, e3, e4, e5]
    simp [ticketsFrom, Nat.add_assoc, Nat.add_comm 1 n]

/-- Arrivals at an idle group with waiting requests that stay below the cap only extend the
waiting list: no timer is created and nothing is started. -/
theorem obs_arrivals_idle (l : String) (n : Nat) (w : World F) (g : AggregationGroup)
    (hg : w.group l = some g) (hp : g.IsProcessing = false) (hne : g.Requests ≠ [])
    (hlt : (g.Requests.length : Int) + n < g.MaxRequests) :
    (run w (List.replicate n (.arrive l))).obs l
      = { group := some { g with Requests := g.Requests ++ ticketsFrom l w.nextChan n },
          inflight := w.inflight, frozen := w.frozen, nextChan := w.nextChan + n,
          nextTimer := w.nextTimer, saved := w.saved } := by
  induction n generalizing w g with
  | zero =>
    cases g
    simp [run, World.obs, ticketsFrom, hg]
  | succ n ih =>
    have h1 := obs_GetWeather_idle w l g hg hp hne (by push_cast at hlt; omega)
    have hg1 := congrArg Obs.group h1
    have e1 := congrArg Obs.inflight h1
    have e2 := congrArg Obs.frozen h1
    have e3 := congrArg Obs.nextChan h1
    have e4 := congrArg Obs.nextTimer h1
    have e5 := congrArg Obs.saved h1
    simp only [World.obs] at hg1 e1 e2 e3 e4 e5
    rw [run_replicate_succ]
    show (run (GetWeather w l) _).obs l = _
    rw [ih (GetWeather w l) _ hg1 hp (by simp)
      (by simp only [List.length_append, List.length_singleton]; push_cast at hlt ⊢; omega),
      e1, e2, e3, e4, e5]
    simp [ticketsFrom, Nat.add_assoc, Nat.add_comm 1 n]

/-- A burst of `n ≥ 1` arrivals below the cap at an idle group without requests: the first
arrival creates the timer, the others only extend the waiting list. -/
theorem obs_arrivals_fresh (l : String) (n : Nat) (w : World F)
    (hp : (groupOrNew w l).IsProcessing = false) (he : (groupOrNew w l).Requests = [])
    (hlt : ((n : Int) + 1) < (groupOrNew w l).MaxRequests) :
    (run w (List.replicate (n + 1) (.arrive l))).obs l
      = { group := some { groupOrNew w l with
                          Requests := ticketsFrom l w.nextChan (n + 1),
                          Timer := some w.nextTimer },
          inflight := w.inflight, frozen := w.frozen, nextChan := w.nextChan + (n + 1),
          nextTimer := w.nextTimer + 1, saved := w.saved } := by
  have h1 := obs_GetWeather_first w l hp he (by omega)
  have hg1 := congrArg Obs.group h1
  have e1 := congrArg Obs.inflight h1
  have e2 := congrArg Obs.frozen h1
  have e3 := congrArg Obs.nextChan h1
  have e4 := congrArg Obs.nextTimer h1
  have e5 := congrArg Obs.saved h1
  simp only [World.obs] at hg1 e1 e2 e3 e4 e5
  rw [run_replicate_succ]
  show (run (GetWeather w l) _).obs l = _
  rw [obs_arrivals_idle l n (GetWeather w l) _ hg1 hp (by simp)
    (by simp only [List.length_singleton]; push_cast; omega), e1, e2, e3, e4, e5]
  simp [ticketsFrom, Nat.add_assoc, Nat.add_comm 1 n]

end Bursts2

section Bursts3
variable {F : Type} [Add F] [Div F] [OfNat F 2]

/-- The timer callback at an idle group freezes and starts its waiting requests. -/
theorem obs_timer_idle (w : World F) (l : String) (g : AggregationGroup)
    (hg : w.group l = some g) (hp : g.IsProcessing = false) :
    (step w (.timer l)).obs l
      = { group := some { g with Requests := [], Timer := none, IsProcessing := true },
          inflight := w.inflight ++ [(l, g.Requests)],
          frozen := w.frozen ++ [(l, g.Requests)],
          nextChan := w.nextChan, nextTimer := w.nextTimer, saved := w.saved } := by
  rw [step_timer_idle w l g hg hp]
  simp [World.obs]

/-- The completion of a running batch of the location. -/
theorem obs_complete (w : World F) (i : Nat) (r1 r2 : Except String F) (l : String)
    (batch : List AggregationRequest) (g : AggregationGroup)
    (hi : w.inflight[i]? = some (l, batch)) (hg : w.group l = some g) :
    (step w (.complete i r1 r2)).obs l
      = { group := some { g with IsProcessing := false,
                                 Timer := if g.Requests ≠ [] ∧ g.Timer = none
                                          then some w.nextTimer else g.Timer },
          inflight := w.inflight.eraseIdx i, frozen := w.frozen, nextChan := w.nextChan,
          nextTimer := if g.Requests ≠ [] ∧ g.Timer = none then w.nextTimer + 1
                       else w.nextTimer,
          saved := (fetchWeatherData w.saved g.Location batch.length r1 r2).2 } := by
  have h1 := step_complete_group w i r1 r2 l batch g hi hg
  have h2 := step_complete_inflight w i r1 r2 l batch g hi hg
  have h3 : (step w (.complete i r1 r2)).nextChan = w.nextChan := by
    rw [step_complete_eq w i r1 r2 l batch g hi hg, finish_eq]
    split_ifs <;> simp
  have h4 : (step w (.complete i r1 r2)).saved
      = (fetchWeatherData w.saved g.Location batch.length r1 r2).2 := by
    rw [step_complete_eq w i r1 r2 l batch g hi hg, saved_finish]
    rcases r1 with e1 | a
    · rfl
    · rcases r2 with e2 | b <;> rfl
  simp only [World.obs, h1.1, h1.2, h2.1, h2.2, h3, h4]

end Bursts3

/-! ## C19: the timer trigger -/

/-- C19: `k` tickets with `1 ≤ k < MaxRequests` arrive at an idle location (no group yet, or
a group that is not processing and has no requests).  After the first ticket the group has
a new timer, and after each of the later tickets it has the same timer and no other timer
has been created; nothing is started by the arrivals.  The callback of the timer then
freezes exactly one batch, made of the `k` tickets in arrival order, and leaves the group
with `IsProcessing = true`, no requests and no timer; a successful completion of that batch
saves one row with request count `k`. -/
theorem C19_timer_trigger {F : Type} [Add F] [Div F] [OfNat F 2] (w : World F) (l : String)
    (k : Nat) (hk1 : 1 ≤ k) (hk : (k : Int) < (groupOrNew w l).MaxRequests)
    (hidle : (groupOrNew w l).IsProcessing = false)
    (hempty : (groupOrNew w l).Requests = []) :
    (∀ n, 1 ≤ n → n ≤ k →
      (run w (List.replicate n (.arrive l))).obs l
        = { group := some { groupOrNew w l with Requests := ticketsFrom l w.nextChan n,
                                                Timer := some w.nextTimer },
            inflight := w.inflight, frozen := w.frozen, nextChan := w.nextChan + n,
            nextTimer := w.nextTimer + 1, saved := w.saved }) ∧
    (step (run w (List.replicate k (.arrive l))) (.timer l)).obs l
      = { group := some { groupOrNew w l with Requests := [], Timer := none,
                                              IsProcessing := true },
          inflight := w.inflight ++ [(l, ticketsFrom l w.nextChan k)],
          frozen := w.frozen ++ [(l, ticketsFrom l w.nextChan k)],
          nextChan := w.nextChan + k, nextTimer := w.nextTimer + 1, saved := w.saved } ∧
    (ticketsFrom l w.nextChan k).length = k ∧
    (∀ a b : F,
      (step (step (run w (List.replicate k (.arrive l))) (.timer l))
          (.complete w.inflight.length (.ok a) (.ok b))).saved
        = w.saved ++ [{ Location := (groupOrNew w l).Location, Service1Temp := a,
                        Service2Temp := b, RequestCount := k }]) := by
  have hburst : ∀ n, 1 ≤ n → n ≤ k →
      (run w (List.replicate n (.arrive l))).obs l
        = { group := some { groupOrNew w l with Requests := ticketsFrom l w.nextChan n,
                                                Timer := some w.nextTimer },
            inflight := w.inflight, frozen := w.frozen, nextChan := w.nextChan + n,
            nextTimer := w.nextTimer + 1, saved := w.saved } := by
    intro n hn1 hnk
    obtain ⟨n2, rfl⟩ : ∃ n2, n = n2 + 1 := ⟨n - 1, by omega⟩
    exact obs_arrivals_fresh l n2 w hidle hempty (by omega)
  have hk2 := hburst k hk1 (Nat.le_refl k)
  have hg := congrArg Obs.group hk2
  have e1 := congrArg Obs.inflight hk2
  have e2 := congrArg Obs.frozen hk2
  have e3 := congrArg Obs.nextChan hk2
  have e4 := congrArg Obs.nextTimer hk2
  have e5 := congrArg Obs.saved hk2
  simp only [World.obs] at hg e1 e2 e3 e4 e5
  have ht := obs_timer_idle _ l _ hg hidle
  simp only [e1, e2, e3, e4, e5] at ht
  refine ⟨hburst, ht, length_ticketsFrom l w.nextChan k, ?_⟩
  intro a b
  have hg2 := congrArg Obs.group ht
  have hi2 := congrArg Obs.inflight ht
  have hs2 := congrArg Obs.saved ht
  simp only [World.obs] at hg2 hi2 hs2
  have hidx : (step (run w (List.replicate k (.arrive l))) (.timer l)).inflight[w.inflight.length]?
      = some (l, ticketsFrom l w.nextChan k) := by
    rw [hi2]; simp
  have hc := congrArg Obs.saved (obs_complete _ w.inflight.length (.ok a) (.ok b) l _ _ hidx hg2)
  simp only [World.obs] at hc
  rw [hc, hs2]
  simp [fetchWeatherData, length_ticketsFrom]

/-- C19 at the run of the test script: cap 10, three requests for Ankara, then the timer. -/
theorem C19_timer_trigger_witness :
    (step (run (World.init Int 10 5) (List.replicate 3 (.arrive "Ankara")))
        (.timer "Ankara")).frozen
      = [("Ankara", [⟨"Ankara", 0, 0⟩, ⟨"Ankara", 1, 1⟩, ⟨"Ankara", 2, 2⟩])] ∧
    (step (step (run (World.init Int 10 5) (List.replicate 3 (.arrive "Ankara")))
        (.timer "Ankara")) (.complete 0 (.ok 20) (.ok 22))).saved
      = [⟨0, "Ankara", 20, 22, 3⟩] :=
  have h := C19_timer_trigger (World.init Int 10 5) "Ankara" 3 (by decide) (by decide)
    (by decide) (by decide)
  ⟨congrArg Obs.frozen h.2.1, h.2.2.2 20 22⟩

/-! ## C18: a burst larger than the cap -/

section Bursts4
variable {F : Type} [Add F] [Div F] [OfNat F 2]

omit [Add F] [Div F] [OfNat F 2] in
theorem obs_parts (w : World F) (l : String) (o : Obs F) (h : w.obs l = o) :
    w.group l = o.group ∧ w.inflight = o.inflight ∧ w.frozen = o.frozen ∧
    w.nextChan = o.nextChan ∧ w.nextTimer = o.nextTimer ∧ w.saved = o.saved := by
  subst h
  exact ⟨rfl, rfl, rfl, rfl, rfl, rfl⟩

omit [Add F] [Div F] [OfNat F 2] in
theorem init_fields (m : Int) (wt : Nat) :
    (World.init F m wt).nextChan = 0 ∧ (World.init F m wt).nextTimer = 0 ∧
    (World.init F m wt).inflight = [] ∧ (World.init F m wt).frozen = [] ∧
    (World.init F m wt).saved = [] :=
  ⟨rfl, rfl, rfl, rfl, rfl⟩

/-- The first `m` arrivals of a burst at a location of the empty service with cap `m ≥ 2`: the
`m`-th arrival freezes and starts the batch of the first `m` tickets, and nothing is in
flight before it. -/
theorem obs_first_batch (m2 wt : Nat) (l : String) :
    (run (World.init F ((m2 + 2 : Nat) : Int) wt)
        (List.replicate (m2 + 1) (.arrive l))).inflight = [] ∧
    (run (World.init F ((m2 + 2 : Nat) : Int) wt) (List.replicate (m2 + 2) (.arrive l))).obs l
      = { group := some ⟨l, [], none, ((m2 + 2 : Nat) : Int), wt, true⟩,
          inflight := [(l, ticketsFrom l 0 (m2 + 2))],
          frozen := [(l, ticketsFrom l 0 (m2 + 2))],
          nextChan := m2 + 2, nextTimer := 1, saved := [] } := by
  have hg0 : groupOrNew (World.init F ((m2 + 2 : Nat) : Int) wt) l
      = ⟨l, [], none, ((m2 + 2 : Nat) : Int), wt, false⟩ :=
    groupOrNew_none _ l rfl
  have h1 := obs_arrivals_fresh l m2 (World.init F ((m2 + 2 : Nat) : Int) wt)
    (by rw [hg0]) (by rw [hg0]) (by rw [hg0]; push_cast; omega)
  rw [hg0] at h1
  obtain ⟨a1, a2, a3, a4, a5, a6⟩ := obs_parts _ _ _ h1
  obtain ⟨i1, i2, i3, i4, i5⟩ := init_fields (F := F) ((m2 + 2 : Nat) : Int) wt
  simp only [i1, i2, i3, i4, i5] at a1 a2 a3 a4 a5 a6
  refine ⟨a2, ?_⟩
  rw [List.replicate_succ' (m2 + 1), run_append]
  show (GetWeather _ l).obs l = _
  rw [obs_GetWeather_full _ l _ a1 rfl
    (by simp only [length_ticketsFrom]; push_cast; omega), a2, a3, a4, a5, a6,
    ticketsFrom_succ_append l 0 (m2 + 1)]
  simp

end Bursts4

section Bursts5
variable {F : Type} [Add F] [Div F] [OfNat F 2]

/-- The rest of a burst: while the only running batch (of the same location) is in flight
and nothing is pending, `k ≥ 1` further tickets arrive, fewer than the cap, and the fan-out
of the running batch returns after `j ≤ k` of them.  Afterwards the `k` tickets wait in the
idle group with one new timer set, and nothing is in flight. -/
theorem obs_second_wave (w : World F) (l : String) (g : AggregationGroup)
    (batch : List AggregationRequest) (k j : Nat) (r1 r2 : Except String F)
    (hg : w.group l = some g) (hp : g.IsProcessing = true) (hR : g.Requests = [])
    (hT : g.Timer = none) (hin : w.inflight = [(l, batch)])
    (hk1 : 1 ≤ k) (hk : (k : Int) < g.MaxRequests) (hj : j ≤ k) :
    (run w (List.replicate j (.arrive l) ++ [.complete 0 r1 r2]
        ++ List.replicate (k - j) (.arrive l))).obs l
      = { group := some { g with Requests := ticketsFrom l w.nextChan k,
                                 Timer := some w.nextTimer, IsProcessing := false },
          inflight := [], frozen := w.frozen, nextChan := w.nextChan + k,
          nextTimer := w.nextTimer + 1,
          saved := (fetchWeatherData w.saved g.Location batch.length r1 r2).2 } := by
  rw [run_append, run_append]
  cases j with
  | zero =>
    obtain ⟨k2, rfl⟩ : ∃ k2, k = k2 + 1 := ⟨k - 1, by omega⟩
    have hi : w.inflight[0]? = some (l, batch) := by rw [hin]; rfl
    have hc := obs_complete w 0 r1 r2 l batch g hi hg
    obtain ⟨c1, c2, c3, c4, c5, c6⟩ := obs_parts _ _ _ hc
    simp only [hR, hT, ne_eq, not_true_eq_false, false_and, if_false, hin,
      List.eraseIdx_cons_zero] at c1 c2 c3 c4 c5 c6
    have hgo := groupOrNew_some _ l _ c1
    have hb := obs_arrivals_fresh l k2 (step w (.complete 0 r1 r2))
      (by rw [hgo]) (by rw [hgo]) (by rw [hgo]; simp only []; push_cast at hk; omega)
    simp only [hgo, c2, c3, c4, c5, c6] at hb
    simpa [run] using hb
  | succ j2 =>
    have h1 := obs_GetWeather_processing_arm w l g hg hp hT
    obtain ⟨a1, a2, a3, a4, a5, a6⟩ := obs_parts _ _ _ h1
    simp only [hR, List.nil_append] at a1
    have h2 := obs_arrivals_processing l j2 (GetWeather w l) _ w.nextTimer a1 hp rfl
    simp only [a2, a3, a4, a5, a6] at h2
    have h2b : (run w (List.replicate (j2 + 1) (.arrive l))).obs l = _ := h2
    obtain ⟨b1, b2, b3, b4, b5, b6⟩ := obs_parts _ _ _ h2b
    simp only [] at b1 b2 b3 b4 b5 b6
    have hi : (run w (List.replicate (j2 + 1) (.arrive l))).inflight[0]? = some (l, batch) := by
      rw [b2, hin]; rfl
    have hc := obs_complete _ 0 r1 r2 l batch _ hi b1
    obtain ⟨c1, c2, c3, c4, c5, c6⟩ := obs_parts _ _ _ hc
    simp only [reduceCtorEq, and_false, if_false, b2, b3, b4, b5, b6, hin,
      List.eraseIdx_cons_zero] at c1 c2 c3 c4 c5 c6
    have hd := obs_arrivals_idle l (k - (j2 + 1))
      (step (run w (List.replicate (j2 + 1) (.arrive l))) (.complete 0 r1 r2)) _ c1 rfl
      (by simp [ticketsFrom])
      (by
        simp only [List.length_append, List.length_singleton, length_ticketsFrom]
        push_cast at hk ⊢
        omega)
    simp only [c2, c3, c4, c5, c6] at hd
    have hsum : ([⟨l, w.nextChan, w.nextChan⟩] ++ ticketsFrom l (w.nextChan + 1) j2)
        ++ ticketsFrom l (w.nextChan + 1 + j2) (k - (j2 + 1)) = ticketsFrom l w.nextChan k := by
      have e : k = (j2 + 1) + (k - (j2 + 1)) := by omega
      conv_rhs => rw [e, ticketsFrom_add, ticketsFrom]
      simp [Nat.add_assoc, Nat.add_comm 1 j2]
    have hnc : w.nextChan + 1 + j2 + (k - (j2 + 1)) = w.nextChan + k := by omega
    simp only [hsum, hnc] at hd
    simpa [run] using hd

end Bursts5

/-- C18: the cap is `m ≥ 2` and `m + k` tickets with `1 ≤ k < m` arrive for one location of
the empty service, no timer callback running in between, the fan-out of the first batch
returning after `j ≤ k` of the last `k` tickets.  Nothing is in flight before the `m`-th
arrival; the `m`-th arrival freezes and starts the batch of the first `m` tickets; the
remaining `k` tickets then wait in the group with one timer set and nothing in flight; the
callback of that timer freezes and starts them as one batch of `k` tickets.  Exactly two
batches are frozen, with `m` and `k` tickets. -/
theorem C18_burst_over_cap {F : Type} [Add F] [Div F] [OfNat F 2] (m k j wt : Nat)
    (l : String) (r1 r2 : Except String F) (hm : 2 ≤ m) (hk1 : 1 ≤ k) (hk : k < m)
    (hj : j ≤ k) :
    (run (World.init F (m : Int) wt) (List.replicate (m - 1) (.arrive l))).inflight = [] ∧
    (run (World.init F (m : Int) wt) (List.replicate m (.arrive l))).obs l
      = { group := some ⟨l, [], none, (m : Int), wt, true⟩,
          inflight := [(l, ticketsFrom l 0 m)], frozen := [(l, ticketsFrom l 0 m)],
          nextChan := m, nextTimer := 1, saved := [] } ∧
    (run (World.init F (m : Int) wt)
        (List.replicate m (.arrive l) ++ (List.replicate j (.arrive l) ++ [.complete 0 r1 r2]
          ++ List.replicate (k - j) (.arrive l)))).obs l
      = { group := some ⟨l, ticketsFrom l m k, some 1, (m : Int), wt, false⟩,
          inflight := [], frozen := [(l, ticketsFrom l 0 m)],
          nextChan := m + k, nextTimer := 2,
          saved := (fetchWeatherData [] l (m : Int) r1 r2).2 } ∧
    (run (World.init F (m : Int) wt)
        (List.replicate m (.arrive l) ++ (List.replicate j (.arrive l) ++ [.complete 0 r1 r2]
          ++ List.replicate (k - j) (.arrive l)) ++ [.timer l])).obs l
      = { group := some ⟨l, [], none, (m : Int), wt, true⟩,
          inflight := [(l, ticketsFrom l m k)],
          frozen := [(l, ticketsFrom l 0 m), (l, ticketsFrom l m k)],
          nextChan := m + k, nextTimer := 2,
          saved := (fetchWeatherData [] l (m : Int) r1 r2).2 } ∧
    (ticketsFrom l 0 m).length = m ∧ (ticketsFrom l m k).length = k := by
  obtain ⟨m2, rfl⟩ : ∃ m2, m = m2 + 2 := ⟨m - 2, by omega⟩
  obtain ⟨h0, h1⟩ := obs_first_batch (F := F) m2 wt l
  obtain ⟨a1, a2, a3, a4, a5, a6⟩ := obs_parts _ _ _ h1
  simp only [] at a1 a2 a3 a4 a5 a6
  have h2 := obs_second_wave
    (run (World.init F ((m2 + 2 : Nat) : Int) wt) (List.replicate (m2 + 2) (.arrive l))) l _
    (ticketsFrom l 0 (m2 + 2)) k j r1 r2 a1 rfl rfl rfl a2 hk1
    (by simp only []; push_cast; omega) hj
  simp only [a3, a4, a5, a6, length_ticketsFrom] at h2
  have h2b := h2
  rw [← run_append] at h2b
  obtain ⟨b1, b2, b3, b4, b5, b6⟩ := obs_parts _ _ _ h2b
  simp only [] at b1 b2 b3 b4 b5 b6
  have h3 := obs_timer_idle _ l _ b1 rfl
  simp only [b2, b3, b4, b5, b6] at h3
  refine ⟨h0, h1, ?_, ?_, length_ticketsFrom l 0 (m2 + 2), length_ticketsFrom l (m2 + 2) k⟩
  · rw [h2b]
  · rw [run_append]
    show (step _ (.timer l)).obs l = _
    rw [h3]
    simp

/-- C18 at the run of the test script: cap 10, eleven requests for Istanbul, the first
fan-out returning after the eleventh arrived; two batches, of 10 and of 1 ticket. -/
theorem C18_burst_over_cap_witness :
    (run (World.init Int 10 5)
        (List.replicate 10 (.arrive "Istanbul") ++ (List.replicate 1 (.arrive "Istanbul")
          ++ [.complete 0 (.ok 20) (.ok 22)] ++ List.replicate (1 - 1) (.arrive "Istanbul"))
          ++ [.timer "Istanbul"])).frozen.map (fun b => b.2.length) = [10, 1] ∧
    (run (World.init Int 10 5)
        (List.replicate 10 (.arrive "Istanbul") ++ (List.replicate 1 (.arrive "Istanbul")
          ++ [.complete 0 (.ok 20) (.ok 22)] ++ List.replicate (1 - 1) (.arrive "Istanbul"))
          ++ [.timer "Istanbul"])).saved = [⟨0, "Istanbul", 20, 22, 10⟩] :=
  have h := (C18_burst_over_cap (F := Int) 10 1 1 5 "Istanbul" (.ok 20) (.ok 22)
    (by decide) (by decide) (by decide) (by decide)).2.2.2.1
  ⟨congrArg (fun o => o.frozen.map (fun b => b.2.length)) h, congrArg Obs.saved h⟩

/-! ## C4: the cap for arrivals that find room -/

/-- An arrival at a group that already holds `MaxRequests` tickets or more leaves more than
`MaxRequests` tickets waiting, or freezes a batch of more than `MaxRequests` tickets. -/
theorem GetWeather_over_cap {F : Type} (w : World F) (l : String)
    (hfull : (groupOrNew w l).MaxRequests ≤ ((groupOrNew w l).Requests.length : Int)) :
    (groupOrNew w l).MaxRequests < (((GetWeather w l).requestsAt l).length : Int) ∨
    ∃ b, (GetWeather w l).frozen = w.frozen ++ [b] ∧
      (groupOrNew w l).MaxRequests < (b.2.length : Int) := by
  rw [GetWeather_eq]
  split_ifs
  · left; simp; omega
  · left; simp; omega
  · right
    refine ⟨(l, (groupOrNew w l).Requests ++ [newRequest w l]), by simp, ?_⟩
    simp
    omega
  · left; simp; omega
  · left; simp; omega

/-- C4, amended: for every cap `MaxRequests ≥ 1` and every sequence of arrivals, timer
callbacks and fan-out completions in which every ticket arrives at a group that holds fewer
than `MaxRequests` waiting tickets, every batch frozen by `triggerLocked` (hence every
`request_count`) has at most `MaxRequests` tickets, also the batches formed from tickets
that arrived while an earlier batch was in flight.  The condition is needed: an arrival at a
group that already holds `MaxRequests` tickets or more leaves more than `MaxRequests`
tickets waiting, or freezes a batch of more than `MaxRequests` tickets. -/
theorem C4_cap_with_room {F : Type} [Add F] [Div F] [OfNat F 2] (m : Int)
    (hm : 1 ≤ m) (wt : Nat) (es : List (Event F))
    (hq : roomyArrivals (World.init F m wt) es = true) :
    (∀ b ∈ (run (World.init F m wt) es).frozen, (b.2.length : Int) ≤ m) ∧
    (∀ (w : World F) (l : String),
      (groupOrNew w l).MaxRequests ≤ ((groupOrNew w l).Requests.length : Int) →
      (groupOrNew w l).MaxRequests < (((GetWeather w l).requestsAt l).length : Int) ∨
      ∃ b, (GetWeather w l).frozen = w.frozen ++ [b] ∧
        (groupOrNew w l).MaxRequests < (b.2.length : Int)) := by
  have h0 : CapInv m (World.init F m wt) := by
    refine ⟨rfl, ?_, ?_⟩
    · intro l g hg
      simp [World.init, World.group, NewWeatherService] at hg
    · intro b hb
      simp [World.init] at hb
  have h := CapInv_run m hm _ es h0 hq
  exact ⟨h.2.2, fun w l hfull => GetWeather_over_cap w l hfull⟩

/-- C4, amended, at the burst of the test script: cap 10, eleven tickets for one location (the
eleventh arrives while the first ten are in flight), the completion of the first batch and
the timer: every arrival finds room and the two batches have 10 and 1 tickets. -/
theorem C4_cap_with_room_witness :
    roomyArrivals (World.init Int 10 5)
        (List.replicate 11 (.arrive "Istanbul")
          ++ [.complete 0 (.ok 20) (.ok 22), .timer "Istanbul"]) = true ∧
    (run (World.init Int 10 5)
        (List.replicate 11 (.arrive "Istanbul")
          ++ [.complete 0 (.ok 20) (.ok 22), .timer "Istanbul"])).frozen.all
        (fun b => decide ((b.2.length : Int) ≤ 10)) = true :=
  ⟨by decide, List.all_eq_true.mpr (fun b hb => decide_eq_true
    ((C4_cap_with_room 10 (by decide) 5
      (List.replicate 11 (.arrive "Istanbul")
        ++ [.complete 0 (.ok 20) (.ok 22), .timer "Istanbul"]) (by decide)).1 b hb))⟩

/-! ## Progress: a waiting group has its timer set -/

section Armed
variable {F : Type}

theorem ArmedInv_GetWeather (w : World F) (l : String) (h : ArmedInv w) :
    ArmedInv (GetWeather w l) := by
  have ha : (groupOrNew w l).Requests ≠ [] → (groupOrNew w l).IsProcessing = false →
      (groupOrNew w l).Timer ≠ none := by
    cases hg : w.group l with
    | none => rw [groupOrNew_none w l hg]; simp
    | some g => rw [groupOrNew_some w l g hg]; exact h l g hg
  rw [GetWeather_eq]
  split_ifs with hp hT hsz hone
  · intro l2 g2 hg2
    by_cases hl : l2 = l
    · subst hl; simp at hg2; subst hg2; simp
    · simp [hl] at hg2; exact h l2 g2 hg2
  · intro l2 g2 hg2
    by_cases hl : l2 = l
    · subst hl; simp at hg2; subst hg2; simp [hp]
    · simp [hl] at hg2; exact h l2 g2 hg2
  · intro l2 g2 hg2
    by_cases hl : l2 = l
    · subst hl; simp at hg2; subst hg2; simp
    · simp [hl] at hg2; exact h l2 g2 hg2
  · intro l2 g2 hg2
    by_cases hl : l2 = l
    · subst hl; simp at hg2; subst hg2; simp
    · simp [hl] at hg2; exact h l2 g2 hg2
  · intro l2 g2 hg2
    by_cases hl : l2 = l
    · subst hl
      simp at hg2
      subst hg2
      have hne : (groupOrNew w l2).Requests ≠ [] := by
        intro he
        apply hone
        simp [he]
      have hidle : (groupOrNew w l2).IsProcessing = false := by simpa using hp
      exact fun _ _ => ha hne hidle
    · simp [hl] at hg2; exact h l2 g2 hg2

theorem ArmedInv_timerCallback (w : World F) (l : String) (h : ArmedInv w) :
    ArmedInv (timerCallback w l) := by
  rw [timerCallback_eq]
  cases hg : w.group l with
  | none => exact h
  | some g =>
    simp only []
    split_ifs with hp
    · intro l2 g2 hg2
      by_cases hl : l2 = l
      · subst hl; simp at hg2; subst hg2; simp [hp]
      · simp [hl] at hg2; exact h l2 g2 hg2
    · intro l2 g2 hg2
      by_cases hl : l2 = l
      · subst hl; simp at hg2; subst hg2; simp
      · simp [hl] at hg2; exact h l2 g2 hg2

theorem ArmedInv_step [Add F] [Div F] [OfNat F 2] (w : World F) (e : Event F)
    (h : ArmedInv w) : ArmedInv (step w e) := by
  cases e with
  | arrive l => exact ArmedInv_GetWeather w l h
  | timer l => exact ArmedInv_timerCallback w l h
  | complete i r1 r2 =>
    cases hi : w.inflight[i]? with
    | none => rw [step_complete_none w i r1 r2 hi]; exact h
    | some lb =>
      obtain ⟨l, batch⟩ := lb
      rw [step_complete_some w i r1 r2 l batch hi, processAggregationGroupWithBatch_eq,
        group_retire]
      cases hg : w.group l with
      | none => exact h
      | some g =>
        simp only [finish_eq]
        split_ifs with hc
        · intro l2 g2 hg2
          by_cases hl : l2 = l
          · subst hl; simp at hg2; subst hg2; simp
          · simp [hl] at hg2; exact h l2 g2 hg2
        · intro l2 g2 hg2
          by_cases hl : l2 = l
          · subst hl
            simp at hg2
            subst hg2
            exact fun hne _ hT => hc ⟨hne, hT⟩
          · simp [hl] at hg2; exact h l2 g2 hg2

theorem ArmedInv_init (m : Int) (wt : Nat) : ArmedInv (World.init F m wt) := by
  intro l g hg
  simp [World.init, World.group, NewWeatherService] at hg

theorem ArmedInv_run [Add F] [Div F] [OfNat F 2] (w : World F) (es : List (Event F))
    (h : ArmedInv w) : ArmedInv (run w es) := by
  induction es generalizing w with
  | nil => exact h
  | cons e es ih => exact ih (step w e) (ArmedInv_step w e h)

end Armed

/-! ## Progress: every ticket moves on to its delivery -/

section Progress
variable {F : Type} [Add F] [Div F] [OfNat F 2]

omit [Add F] [Div F] [OfNat F 2] in
theorem exists_mem_of_countIn_pos (bs : List Batch) (t : AggregationRequest)
    (h : 0 < countIn bs t) : ∃ b ∈ bs, t ∈ b.2 := by
  by_contra hc
  have : countIn bs t = 0 := countIn_eq_zero bs t (fun b hb hm => hc ⟨b, hb, hm⟩)
  omega

omit [Add F] [Div F] [OfNat F 2] in
/-- A running batch belongs to a group that exists and is processing. -/
theorem group_of_inflight (w : World F) (hF : InFlightInv w) (i : Nat) (l : String)
    (batch : List AggregationRequest) (hi : w.inflight[i]? = some (l, batch)) :
    ∃ g, w.group l = some g ∧ g.IsProcessing = true := by
  have h1 := hF l
  rw [inflightCount_retire w i l l batch hi] at h1
  cases hg : w.group l with
  | none => rw [hg] at h1; simp at h1
  | some g =>
    rw [hg] at h1
    cases hp : g.IsProcessing
    · simp [hp] at h1
    · exact ⟨g, rfl, hp⟩

theorem created_step_complete (w : World F) (i : Nat) (r1 r2 : Except String F) :
    (step w (.complete i r1 r2)).created = w.created := by
  cases hi : w.inflight[i]? with
  | none => rw [step_complete_none w i r1 r2 hi]
  | some lb =>
    obtain ⟨l, batch⟩ := lb
    rw [step_complete_some w i r1 r2 l batch hi, processAggregationGroupWithBatch_eq,
      group_retire]
    cases hg : w.group l with
    | none => rfl
    | some g =>
      simp only [finish_eq]
      split_ifs <;> simp

omit [Add F] [Div F] [OfNat F 2] in
theorem created_timerCallback (w : World F) (l : String) :
    (timerCallback w l).created = w.created := by
  rw [timerCallback_eq]
  cases hg : w.group l with
  | none => rfl
  | some g =>
    simp only []
    split_ifs <;> simp

/-- The logs after a completion, by the outcome of the two upstream calls. -/
theorem step_complete_logs_by_outcome (w : World F) (i : Nat) (r1 r2 : Except String F)
    (l : String) (batch : List AggregationRequest) (g : AggregationGroup)
    (hi : w.inflight[i]? = some (l, batch)) (hg : w.group l = some g) :
    (bothOk r1 r2 = true → (step w (.complete i r1 r2)).errLog = w.errLog) ∧
    (bothOk r1 r2 = false → (step w (.complete i r1 r2)).respLog = w.respLog) := by
  rw [step_complete_eq w i r1 r2 l batch g hi hg]
  rcases r1 with e1 | a
  · refine ⟨by simp [bothOk], fun _ => ?_⟩
    rw [deliver_error1]; simp
  · rcases r2 with e2 | b
    · refine ⟨by simp [bothOk], fun _ => ?_⟩
      rw [deliver_error2]; simp
    · refine ⟨fun _ => ?_, by simp [bothOk]⟩
      rw [deliver_ok]; simp

/-- A ticket in flight: the completion of its batch delivers it, with a response when both
upstream calls succeeded and with an error otherwise. -/
theorem progress_running (w : World F) (hT : TicketInv w) (hF : InFlightInv w)
    (t : AggregationRequest) (hc : t ∈ w.created) (hrun : 0 < w.runningCount t) :
    ∃ i l batch, w.inflight[i]? = some (l, batch) ∧ t ∈ batch ∧
      ∀ r1 r2 : Except String F,
        (step w (.complete i r1 r2)).Delivered t ∧
        writes (step w (.complete i r1 r2)).respLog t.Response
          = (if bothOk r1 r2 then 1 else 0) ∧
        writes (step w (.complete i r1 r2)).errLog t.Error
          = (if bothOk r1 r2 then 0 else 1) := by
  obtain ⟨b, hb, hm⟩ := exists_mem_of_countIn_pos _ _ hrun
  obtain ⟨i, hi⟩ := List.mem_iff_getElem?.mp hb
  obtain ⟨l, batch⟩ := b
  refine ⟨i, l, batch, hi, hm, ?_⟩
  intro r1 r2
  obtain ⟨g, hg, -⟩ := group_of_inflight w hF i l batch hi
  have hT2 := TicketInv_step w (.complete i r1 r2) hF hT
  have hc2 : t ∈ (step w (.complete i r1 r2)).created := by
    rw [created_step_complete]; exact hc
  have h8 := hT.once t hc
  have h8b := hT2.once t hc2
  have h9b := hT2.froz t hc2
  have hpen : (step w (.complete i r1 r2)).pendingCount t = w.pendingCount t := by
    unfold World.pendingCount
    rw [requestsAt_step_complete]
  have hcnt : 0 < batch.count t := List.count_pos_iff.mpr hm
  have hsplit := countIn_eraseIdx w.inflight i (l, batch) t hi
  have hin := (step_complete_inflight w i r1 r2 l batch g hi hg).1
  have hrun2 : (step w (.complete i r1 r2)).runningCount t = countIn (w.inflight.eraseIdx i) t := by
    unfold World.runningCount
    rw [hin]
  unfold World.runningCount at h8 hrun
  simp only [] at hsplit
  have hlog := step_complete_logs_by_outcome w i r1 r2 l batch g hi hg
  refine ⟨⟨by omega, by omega, by omega, by omega⟩, ?_, ?_⟩
  · cases hb2 : bothOk r1 r2
    · rw [hlog.2 hb2]; simp; omega
    · have := hlog.1 hb2
      rw [this] at h8b
      simp
      omega
  · cases hb2 : bothOk r1 r2
    · have := hlog.2 hb2
      rw [this] at h8b
      simp
      omega
    · rw [hlog.1 hb2]; simp; omega

end Progress

section Progress2
variable {F : Type} [Add F] [Div F] [OfNat F 2]

/-- A ticket that waits in an idle group: the timer of the group is set, and its callback
freezes the ticket into a running batch. -/
theorem progress_idle (w : World F) (hT : TicketInv w) (hF : InFlightInv w) (hA : ArmedInv w)
    (t : AggregationRequest) (hc : t ∈ w.created) (hpend : 0 < w.pendingCount t)
    (g : AggregationGroup) (hg : w.group t.Location = some g) (hp : g.IsProcessing = false) :
    g.Timer ≠ none ∧
    t ∈ (step w (.timer t.Location)).created ∧
    (step w (.timer t.Location)).pendingCount t = 0 ∧
    (step w (.timer t.Location)).runningCount t = 1 ∧
    (step w (.timer t.Location)).frozenCount t = 1 := by
  have hR := requestsAt_of_group w t.Location g hg
  have hmem : t ∈ g.Requests := by
    unfold World.pendingCount at hpend
    rw [hR] at hpend
    exact List.count_pos_iff.mp hpend
  have hne : g.Requests ≠ [] := List.ne_nil_of_mem hmem
  have hT2 := TicketInv_step w (.timer t.Location) hF hT
  have hc2 : t ∈ (step w (.timer t.Location)).created := by
    show t ∈ (timerCallback w t.Location).created
    rw [created_timerCallback]; exact hc
  have h8 := hT.once t hc
  have h8b := hT2.once t hc2
  have h9b := hT2.froz t hc2
  have heq := step_timer_idle w t.Location g hg hp
  have hpen2 : (step w (.timer t.Location)).pendingCount t = 0 := by
    unfold World.pendingCount
    rw [heq]
    simp
  have hr : (step w (.timer t.Location)).respLog = w.respLog := by rw [heq]; rfl
  have he : (step w (.timer t.Location)).errLog = w.errLog := by rw [heq]; rfl
  rw [hr, he] at h8b h9b
  exact ⟨hA _ g hg hne hp, hc2, hpen2, by omega, by omega⟩

/-- A ticket that waits while the batch of its location is in flight: that batch is
running, and its completion leaves the ticket waiting in a group that is idle. -/
theorem progress_processing (w : World F) (hF : InFlightInv w)
    (t : AggregationRequest) (hc : t ∈ w.created) (hpend : 0 < w.pendingCount t)
    (g : AggregationGroup) (hg : w.group t.Location = some g) (hp : g.IsProcessing = true) :
    ∃ i batch, w.inflight[i]? = some (t.Location, batch) ∧
      ∀ r1 r2 : Except String F,
        t ∈ (step w (.complete i r1 r2)).created ∧
        0 < (step w (.complete i r1 r2)).pendingCount t ∧
        ∃ g2, (step w (.complete i r1 r2)).group t.Location = some g2 ∧
          g2.IsProcessing = false := by
  have h1 := hF t.Location
  rw [hg] at h1
  simp only [hp, if_true] at h1
  unfold World.inflightCount World.inflightAt at h1
  have hne : w.inflight.filter (fun b => decide (b.1 = t.Location)) ≠ [] := by
    intro he
    rw [he] at h1
    simp at h1
  obtain ⟨b, hb⟩ := List.exists_mem_of_ne_nil _ hne
  obtain ⟨hb1, hb2⟩ := List.mem_filter.mp hb
  obtain ⟨i, hi⟩ := List.mem_iff_getElem?.mp hb1
  obtain ⟨l, batch⟩ := b
  simp only [decide_eq_true_eq] at hb2
  subst hb2
  refine ⟨i, batch, hi, ?_⟩
  intro r1 r2
  refine ⟨by rw [created_step_complete]; exact hc, ?_, ?_⟩
  · unfold World.pendingCount at hpend ⊢
    rw [requestsAt_step_complete]
    exact hpend
  · exact ⟨_, (step_complete_group w i r1 r2 _ batch g hi hg).1, rfl⟩

end Progress2

section Delivery
variable {F : Type} [Add F] [Div F] [OfNat F 2]

omit [Add F] [Div F] [OfNat F 2] in
/-- An arrival makes exactly one ticket, the next one of the allocator. -/
theorem created_GetWeather (w : World F) (l : String) :
    (GetWeather w l).created = w.created ++ [newRequest w l] := by
  rw [GetWeather_eq]
  split_ifs <;> simp

/-- A ticket in flight is delivered by one completion. -/
theorem delivery_of_running (w : World F) (hT : TicketInv w) (hF : InFlightInv w)
    (t : AggregationRequest) (hc : t ∈ w.created) (hrun : 0 < w.runningCount t)
    (r1 r2 : Except String F) :
    ∃ i, (run w [.complete i r1 r2]).Delivered t := by
  obtain ⟨i, l, batch, -, -, h⟩ := progress_running w hT hF t hc hrun
  exact ⟨i, (h r1 r2).1⟩

/-- A ticket that waits in an idle group is delivered by the callback of the timer and one
completion. -/
theorem delivery_of_idle (w : World F) (hT : TicketInv w) (hF : InFlightInv w)
    (hA : ArmedInv w) (t : AggregationRequest) (hc : t ∈ w.created)
    (hpend : 0 < w.pendingCount t) (g : AggregationGroup)
    (hg : w.group t.Location = some g) (hp : g.IsProcessing = false)
    (r1 r2 : Except String F) :
    ∃ i, (run w [.timer t.Location, .complete i r1 r2]).Delivered t := by
  obtain ⟨-, hc1, -, hrun1, -⟩ := progress_idle w hT hF hA t hc hpend g hg hp
  have hT1 := TicketInv_step w (.timer t.Location) hF hT
  have hF1 := InFlightInv_step w (.timer t.Location) hF
  obtain ⟨i, h⟩ := delivery_of_running _ hT1 hF1 t hc1 (by omega) r1 r2
  exact ⟨i, h⟩

/-- Every ticket is delivered by at most three further events, none of them an arrival: the
completion of the batch in flight at its location, the callback of the timer, and the
completion of its own batch. -/
theorem delivery_within_three (w : World F) (hT : TicketInv w) (hF : InFlightInv w)
    (hA : ArmedInv w) (t : AggregationRequest) (hc : t ∈ w.created)
    (r1 r2 : Except String F) :
    ∃ es : List (Event F), es.length ≤ 3 ∧
      (∀ e ∈ es, e = .timer t.Location ∨ ∃ i, e = .complete i r1 r2) ∧
      (run w es).Delivered t := by
  by_cases hpend : 0 < w.pendingCount t
  · cases hg : w.group t.Location with
    | none =>
      exfalso
      unfold World.pendingCount World.requestsAt at hpend
      rw [hg] at hpend
      simp at hpend
    | some g =>
      cases hp : g.IsProcessing with
      | false =>
        obtain ⟨i, h⟩ := delivery_of_idle w hT hF hA t hc hpend g hg hp r1 r2
        refine ⟨[.timer t.Location, .complete i r1 r2], by simp, ?_, h⟩
        intro e he
        simp only [List.mem_cons, List.mem_singleton, List.not_mem_nil, or_false] at he
        rcases he with he | he
        · exact Or.inl he
        · exact Or.inr ⟨i, he⟩
      | true =>
        obtain ⟨i, batch, -, h⟩ := progress_processing w hF t hc hpend g hg hp
        obtain ⟨hc1, hpend1, g2, hg2, hp2⟩ := h r1 r2
        have hT1 := TicketInv_step w (.complete i r1 r2) hF hT
        have hF1 := InFlightInv_step w (.complete i r1 r2) hF
        have hA1 := ArmedInv_step w (.complete i r1 r2) hA
        obtain ⟨j, h2⟩ := delivery_of_idle _ hT1 hF1 hA1 t hc1 hpend1 g2 hg2 hp2 r1 r2
        refine ⟨[.complete i r1 r2, .timer t.Location, .complete j r1 r2], by simp, ?_, h2⟩
        intro e he
        simp only [List.mem_cons, List.mem_singleton, List.not_mem_nil, or_false] at he
        rcases he with he | he | he
        · exact Or.inr ⟨i, he⟩
        · exact Or.inl he
        · exact Or.inr ⟨j, he⟩
  · by_cases hrun : 0 < w.runningCount t
    · obtain ⟨i, h⟩ := delivery_of_running w hT hF t hc hrun r1 r2
      refine ⟨[.complete i r1 r2], by simp, ?_, h⟩
      intro e he
      simp only [List.mem_singleton] at he
      exact Or.inr ⟨i, he⟩
    · refine ⟨[], by simp, by simp, ?_⟩
      have h8 := hT.once t hc
      have h9 := hT.froz t hc
      show w.Delivered t
      unfold World.Delivered
      omega

end Delivery

/-! ## C2: every ticket is delivered exactly once -/

/-- C2: after every sequence of arrivals, timer callbacks and fan-out completions, every
ticket created by `GetWeather` occurs at most once in all frozen batches together (never in
two batches, never twice in one); it is either still waiting in the group of its location or
frozen exactly once; the number of values written to its two channels is the number of
its completed batches, so once it is neither waiting nor in flight exactly one value has
been written, to its `Response` channel or to its `Error` channel and not to both; and no
other ticket shares one of its channels. The ticket also moves on from every such state:
every arrival makes exactly one ticket; a ticket waiting in an idle group has the timer of
the group set, and the callback of that timer freezes it, once, into a batch in flight; a
ticket waiting while a batch of its location is in flight still waits, in an idle group,
after the completion of that batch; the completion of the batch of a ticket in flight
writes exactly one value for it, to its `Response` channel when both upstream calls
succeeded and to its `Error` channel otherwise; and so from every state at most three
further events, callbacks of its timer and completions only, leave the ticket frozen exactly
once with exactly one value written. -/
theorem C2_exactly_once {F : Type} [Add F] [Div F] [OfNat F 2] (m : Int) (wt : Nat)
    (es : List (Event F)) (t : AggregationRequest)
    (ht : t ∈ (run (World.init F m wt) es).created) :
    (run (World.init F m wt) es).frozenCount t ≤ 1 ∧
    (run (World.init F m wt) es).pendingCount t + (run (World.init F m wt) es).frozenCount t
      = 1 ∧
    (run (World.init F m wt) es).frozenCount t
      = (run (World.init F m wt) es).runningCount t
        + writes (run (World.init F m wt) es).respLog t.Response
        + writes (run (World.init F m wt) es).errLog t.Error ∧
    ((run (World.init F m wt) es).pendingCount t = 0 →
      (run (World.init F m wt) es).runningCount t = 0 →
      writes (run (World.init F m wt) es).respLog t.Response
        + writes (run (World.init F m wt) es).errLog t.Error = 1) ∧
    (∀ l, t ∈ (run (World.init F m wt) es).requestsAt l → l = t.Location) ∧
    (∀ t2 ∈ (run (World.init F m wt) es).created,
      t2.Response = t.Response ∨ t2.Error = t.Error → t2 = t) ∧
    (∀ w : World F, w = run (World.init F m wt) es →
      (∀ l, (step w (.arrive l)).created = w.created ++ [newRequest w l]) ∧
      (0 < w.pendingCount t → ∃ g, w.group t.Location = some g ∧
        (g.IsProcessing = false → g.Timer ≠ none ∧
          (step w (.timer t.Location)).pendingCount t = 0 ∧
          (step w (.timer t.Location)).runningCount t = 1 ∧
          (step w (.timer t.Location)).frozenCount t = 1) ∧
        (g.IsProcessing = true → ∃ i batch, w.inflight[i]? = some (t.Location, batch) ∧
          ∀ r1 r2 : Except String F,
            0 < (step w (.complete i r1 r2)).pendingCount t ∧
            ∃ g2, (step w (.complete i r1 r2)).group t.Location = some g2 ∧
              g2.IsProcessing = false)) ∧
      (0 < w.runningCount t → ∃ i l batch, w.inflight[i]? = some (l, batch) ∧ t ∈ batch ∧
        ∀ r1 r2 : Except String F,
          (step w (.complete i r1 r2)).Delivered t ∧
          writes (step w (.complete i r1 r2)).respLog t.Response
            = (if bothOk r1 r2 then 1 else 0) ∧
          writes (step w (.complete i r1 r2)).errLog t.Error
            = (if bothOk r1 r2 then 0 else 1)) ∧
      (∀ r1 r2 : Except String F, ∃ es2 : List (Event F), es2.length ≤ 3 ∧
        (∀ e ∈ es2, e = .timer t.Location ∨ ∃ i, e = .complete i r1 r2) ∧
        (run w es2).Delivered t)) := by
  have hF := InFlightInv_run (World.init F m wt) es (InFlightInv_init m wt)
  have h := TicketInv_run (World.init F m wt) es (InFlightInv_init m wt) (TicketInv_init m wt)
  have hA := ArmedInv_run (World.init F m wt) es (ArmedInv_init m wt)
  have h8 := h.once t ht
  have h9 := h.froz t ht
  refine ⟨by omega, by omega, h9, fun _ _ => by omega, ?_, ?_, ?_⟩
  · intro l hl
    exact ((h.pend l t hl).2).symm
  · intro t2 ht2 hc
    refine h.inj t2 ht2 t ht ?_
    have e1 := (h.fresh t ht).2
    have e2 := (h.fresh t2 ht2).2
    rcases hc with hc | hc <;> omega
  · intro w hw
    subst hw
    refine ⟨fun l => created_GetWeather _ l, ?_, ?_, ?_⟩
    · intro hpend
      cases hg : (run (World.init F m wt) es).group t.Location with
      | none =>
        exfalso
        unfold World.pendingCount World.requestsAt at hpend
        rw [hg] at hpend
        simp at hpend
      | some g =>
        refine ⟨g, rfl, ?_, ?_⟩
        · intro hp
          obtain ⟨a, -, b, c, d⟩ := progress_idle _ h hF hA t ht hpend g hg hp
          exact ⟨a, b, c, d⟩
        · intro hp
          obtain ⟨i, batch, hi, hh⟩ := progress_processing _ hF t ht hpend g hg hp
          exact ⟨i, batch, hi, fun r1 r2 => (hh r1 r2).2⟩
    · exact progress_running _ h hF t ht
    · exact delivery_within_three _ h hF hA t ht

/-- C2 at a concrete run: cap 2, two tickets frozen by the size trigger, a third waiting, and
the first batch completed with success. The first ticket has received exactly one value, on
its response channel; the third ticket waits in an idle group, the callback of the timer
freezes it exactly once, and at most three further events deliver it. -/
theorem C2_exactly_once_witness :
    (run (World.init Int 2 5)
        [.arrive "Paris", .arrive "Paris", .arrive "Paris",
         .complete 0 (.ok 20) (.ok 22)]).frozenCount ⟨"Paris", 0, 0⟩ ≤ 1 ∧
    writes (run (World.init Int 2 5)
        [.arrive "Paris", .arrive "Paris", .arrive "Paris",
         .complete 0 (.ok 20) (.ok 22)]).respLog 0
      + writes (run (World.init Int 2 5)
        [.arrive "Paris", .arrive "Paris", .arrive "Paris",
         .complete 0 (.ok 20) (.ok 22)]).errLog 0 = 1 ∧
    (step (run (World.init Int 2 5)
        [.arrive "Paris", .arrive "Paris", .arrive "Paris",
         .complete 0 (.ok 20) (.ok 22)]) (.timer "Paris")).frozenCount ⟨"Paris", 2, 2⟩ = 1 ∧
    (∃ es2 : List (Event Int), es2.length ≤ 3 ∧
      (run (run (World.init Int 2 5)
        [.arrive "Paris", .arrive "Paris", .arrive "Paris",
         .complete 0 (.ok 20) (.ok 22)]) es2).Delivered ⟨"Paris", 2, 2⟩) := by
  have h := C2_exactly_once (F := Int) 2 5
    [.arrive "Paris", .arrive "Paris", .arrive "Paris", .complete 0 (.ok 20) (.ok 22)]
    ⟨"Paris", 0, 0⟩ (by decide)
  have k := (C2_exactly_once (F := Int) 2 5
    [.arrive "Paris", .arrive "Paris", .arrive "Paris", .complete 0 (.ok 20) (.ok 22)]
    ⟨"Paris", 2, 2⟩ (by decide)).2.2.2.2.2.2 _ rfl
  obtain ⟨g, hg, hidle, -⟩ := k.2.1 (by decide)
  have hp : g.IsProcessing = false := by
    have h0 : ((run (World.init Int 2 5)
        [.arrive "Paris", .arrive "Paris", .arrive "Paris",
         .complete 0 (.ok 20) (.ok 22)]).group "Paris").map (fun g => g.IsProcessing)
        = some false := by decide
    have hg2 : (run (World.init Int 2 5)
        [.arrive "Paris", .arrive "Paris", .arrive "Paris",
         .complete 0 (.ok 20) (.ok 22)]).group "Paris" = some g := hg
    rw [hg2] at h0
    simpa using h0
  obtain ⟨es2, hlen, -, hd⟩ := k.2.2.2 (.ok 20) (.ok 22)
  exact ⟨h.1, h.2.2.2.1 (by decide) (by decide), (hidle hp).2.2.2, es2, hlen, hd⟩

end GoWeather
